import Mathlib

/-!
# Thymio Device Manager: the application endpoint

A shallow embedding of `aseba/thymio-device-manager/app_endpoint.h`
(`mobsya::application_endpoint`), of its client
(`aseba/qt-thymio-dm-client-lib/thymiodevicemanagerclientendpoint.cpp` and
`request.h`: the framing and the pending requests) and of the tree of variables of
Studio (`aseba/clients/studio/VariablesModel.cpp`), followed by theorems about them.

Conventions of the embedding.

* A `std::shared_ptr<aseba_node>` / `std::weak_ptr<aseba_node>` is a `node_ref`,
  the identity of one `aseba_node` object; `nodes : node_ref → Option aseba_node`
  is the store of node objects, `none` meaning that the object is gone, so that
  `weak_ptr::lock()` is a lookup in the store.
* A member function of the endpoint is a function `context → context`: the
  context holds `this` (`self`, the value handed to `aseba_node::lock`), the
  registry, the node store and the members of the endpoint.
* `std::unordered_map` is an association list with unique keys, `std::queue` a
  list whose head is `front()`.
* Work handed to the endpoint's strand with `boost::asio::post` / `defer` is
  appended to `m_strand` and run later, one task at a time, by `run_one`.
* Calls whose effect lives outside the endpoint (`do_write_message`,
  `read_message`, the operations of `aseba_node`) are recorded in logs.
-/

namespace mobsya

/-! ## Data model -/

/-- The id of a node, `aseba_node_registery::node_id` (a uuid). -/
abbrev node_id := Nat

/-- The identity of an `aseba_node` object, what a shared or weak pointer designates. -/
abbrev node_ref := Nat

/-- The identity of an endpoint: the `this` pointer given to `lock` and `unlock`. -/
abbrev endpoint_id := Nat

/-- The enumeration `aseba_node::status`. -/
inductive status where
  | connected
  | available
  | busy
  | ready
  | disconnected
  deriving DecidableEq, Repr

/-- The enumeration `fb::ErrorType`. -/
inductive ErrorType where
  | no_error
  | unknown_node
  | node_busy
  | unsupported_variable_type
  | unknown_error
  deriving DecidableEq, Repr

/-- The enumeration `fb::VMExecutionStateCommand`. -/
inductive VMExecutionStateCommand where
  | Stop
  | Run
  | Step
  | StepToNextLine
  | Pause
  | Reset
  | Reboot
  | Suspend
  | WriteProgramToDeviceMemory
  deriving DecidableEq, Repr

/-- The enumeration `fb::WatchableInfo`, the three streams of a node. -/
inductive WatchableInfo where
  | Variables
  | Events
  | VMExecutionState
  deriving DecidableEq, Repr

/-- Modelled from the spec: the flatbuffers schema is not part of the sources; the
watch flags are "a set taken from {Variables, Events, VMExecutionState}", here the
bit each stream has in the `flags` word of a `WatchNode` request. -/
def WatchableInfo.bit : WatchableInfo → Nat
  | .Variables => 1
  | .Events => 2
  | .VMExecutionState => 4

/-- Modelled from the spec: the flatbuffers schema is not part of the sources;
`capabilities: flags ⊆ {ForceResetAndStop, Rename}`, the bit of `Rename`. -/
def NodeCapability.Rename : Nat := 1

/-- Modelled from the spec: the flatbuffers schema is not part of the sources;
`capabilities: flags ⊆ {ForceResetAndStop, Rename}`, the bit of `ForceResetAndStop`. -/
def NodeCapability.ForceResetAndStop : Nat := 2

/-- The type `aseba_node::variables_map`: values by name (the endpoint never looks
inside a value). -/
abbrev variables_map := List (String × List Int)

/-- The type `aseba_node::events_table`: `(name, fixed_size)` in order. -/
abbrev events_table := List (String × Nat)

/-- The type `aseba_node::vm_execution_state`, as the endpoint sees it. -/
abbrev vm_execution_state := Nat

/-- The payload of `node_emitted_events`, `aseba_node::event_changed_payload`: a
variant of emitted events and of a new events table. -/
inductive event_changed_payload where
  | events (map : variables_map)
  | description (desc : events_table)
  deriving DecidableEq, Repr

/-- A call the endpoint makes on an `aseba_node`, as recorded in the node's log.
The callbacks the endpoint passes are recorded by what they capture: the request
id and the endpoint. -/
inductive node_call where
  | rename (new_name : String)
  | set_node_variables (m : variables_map) (request_id : Nat) (app : endpoint_id)
  | set_node_events_table (events : events_table)
  | emit_events (m : variables_map) (request_id : Nat) (app : endpoint_id)
  | compile_and_send_program (language : Nat) (program : String) (request_id : Nat)
      (app : endpoint_id)
  | compile_program (language : Nat) (program : String) (request_id : Nat) (app : endpoint_id)
  | set_vm_execution_state (cmd : VMExecutionStateCommand) (request_id : Nat) (app : endpoint_id)
  | set_breakpoints (breakpoints : List Nat) (request_id : Nat) (app : endpoint_id)
  | connect_to_variables_changes (app : endpoint_id)
  | connect_to_events (app : endpoint_id)
  | connect_to_execution_state_changes (app : endpoint_id)
  deriving DecidableEq, Repr

/-- Modelled from the spec: the class `aseba_node` is not part of the sources. A node
has a name, a type, a status, variables, an events description, an execution state
and `lock_holder: optional<ClientEndpointId>`, at most one (`m_connected_app`).
`rejects` lists the variable maps the node cannot map to its VM types and
`rejects_events` the events tables with shape or name errors; `calls` is the log of
the operations invoked on the node, latest last. -/
structure aseba_node where
  m_connected_app : Option endpoint_id
  m_status : status
  m_type : Nat
  m_friendly_name : String
  m_can_be_renamed : Bool
  m_variables : variables_map
  m_events_description : events_table
  m_execution_state : vm_execution_state
  rejects : List variables_map
  rejects_events : List events_table
  calls : List node_call
  deriving DecidableEq, Repr

/-- Modelled from the spec: `aseba_node::lock` is not part of the sources.
`lock(ep)`: precondition `lock_holder ∈ {none, ep}`, idempotent ack, sets holder=ep;
fails when the node is held by another. Returns the node and the result. -/
def aseba_node.lock (n : aseba_node) (app : endpoint_id) : aseba_node × Bool :=
  match n.m_connected_app with
  | none => ({ n with m_connected_app := some app }, true)
  | some holder => if holder = app then (n, true) else (n, false)

/-- Modelled from the spec: `aseba_node::unlock` is not part of the sources.
`unlock(ep)`: precondition `lock_holder = ep`, ack, clears holder; fails otherwise. -/
def aseba_node.unlock (n : aseba_node) (app : endpoint_id) : aseba_node × Bool :=
  if n.m_connected_app = some app then ({ n with m_connected_app := none }, true)
  else (n, false)

/-- Modelled from the spec: `aseba_node::rename` is not part of the sources; the
name of a node is mutable and `rename` sets it. -/
def aseba_node.rename (n : aseba_node) (new_name : String) : aseba_node :=
  { n with m_friendly_name := new_name, calls := n.calls ++ [node_call.rename new_name] }

/-- Records a call in the log of a node: the model of the operations of `aseba_node`
whose effect on the device is outside the endpoint. -/
def aseba_node.record (n : aseba_node) (c : node_call) : aseba_node :=
  { n with calls := n.calls ++ [c] }

/-- The table `fb::Node`, an entry of a `NodesChanged` message. -/
structure fb_Node where
  node_id : node_id
  status : status
  type : Nat
  name : String
  capabilities : Nat
  deriving DecidableEq, Repr

/-- The result a compilation callback receives, `aseba_node::compilation_result`. -/
abbrev compilation_result := Nat

/-- The messages the endpoint sends, `tagged_detached_flatbuffer`: the tag and the
fields the endpoint puts in. -/
inductive message where
  | ConnectionHandshake (minProtocolVersion protocolVersion maxMessageSize : Nat)
  | NodesChanged (nodes : List fb_Node)
  | NodeAsebaVMDescription (request_id : Nat) (node : node_ref) (id : node_id)
  | RequestCompleted (request_id : Nat)
  | Error (request_id : Nat) (error : ErrorType)
  | CompilationResult (request_id : Nat) (result : compilation_result)
  | SetBreakpointsResponse (request_id : Nat) (error : ErrorType) (breakpoints : List Nat)
  | NodeVariablesChanged (node : node_ref) (vars : variables_map)
  | EventsEmitted (node : node_ref) (events : variables_map)
  | EventsDescriptionChanged (node : node_ref) (desc : events_table)
  | VMExecutionStateChanged (node : node_ref) (state : vm_execution_state)
  deriving DecidableEq, Repr

/-- The messages the endpoint receives, `fb_message_ptr`, by `message_type()`;
`other` stands for every kind `handle_read` has no case for. -/
inductive request where
  | ConnectionHandshake (protocolVersion minProtocolVersion maxMessageSize : Nat)
      (token : Option (List Nat))
  | RequestListOfNodes
  | RequestNodeAsebaVMDescription (request_id : Nat) (id : node_id)
  | SetNodeVariables (request_id : Nat) (id : node_id) (vars : variables_map)
  | RegisterEvents (request_id : Nat) (id : node_id) (events : events_table)
  | SendEvents (request_id : Nat) (id : node_id) (events : variables_map)
  | RenameNode (request_id : Nat) (id : node_id) (new_name : String)
  | LockNode (request_id : Nat) (id : node_id)
  | UnlockNode (request_id : Nat) (id : node_id)
  | CompileAndLoadCodeOnVM (request_id : Nat) (id : node_id) (language : Nat)
      (program : String) (options : Nat)
  | SetVMExecutionState (request_id : Nat) (id : node_id) (command : VMExecutionStateCommand)
  | WatchNode (request_id : Nat) (id : node_id) (info_type : Nat)
  | SetBreakpoints (request_id : Nat) (id : node_id) (breakpoints : List Nat)
  | other
  deriving DecidableEq, Repr

/-- A task waiting on the strand of an endpoint: the body of a lambda given to
`boost::asio::post` or `boost::asio::defer`, with what it captured. A shared pointer
a signal hands over may be null (`none`). -/
inductive strand_task where
  | do_node_changed (node : node_ref) (id : node_id) (st : status)
  | do_node_variables_changed (node : Option node_ref) (map : variables_map)
  | do_node_emitted_events (node : Option node_ref) (payload : event_changed_payload)
  | do_node_execution_state_changed (node : Option node_ref) (state : vm_execution_state)
  | device_write_completion (request_id : Nat) (ec : Bool)
  | compilation_completion (request_id : Nat) (ec : Bool) (result : compilation_result)
  | breakpoints_completion (request_id : Nat) (ec : Bool) (bps : List Nat)
  deriving DecidableEq, Repr

/-- The constants of `tdm.h`, which is not part of the sources: they are parameters
of the embedding. -/
structure tdm where
  protocolVersion : Nat
  minProtocolVersion : Nat
  maxAppEndPointMessageSize : Nat
  deriving DecidableEq, Repr

/-- The handler a posted read will call with the next incoming message. -/
inductive read_handler where
  | handle_handshake
  | handle_read
  deriving DecidableEq, Repr

/-- The members of `application_endpoint`, with the logs of what it asked of its
transport: `written` are the buffers handed to `base::do_write_message`, in order,
and `reads` the calls of `base::read_message`, by the handler they were given.
`m_strand` holds the tasks posted or deferred to the strand, oldest first, and
`monitoring` tells whether the endpoint is subscribed to the node changes of the
registry (the base class `node_status_monitor`). -/
structure application_endpoint where
  m_queue : List message
  m_locked_nodes : List (node_id × node_ref)
  m_watch_nodes : WatchableInfo → List (node_id × node_ref)
  m_protocol_version : Nat
  m_max_out_going_packet_size : Nat
  m_local_endpoint : Bool
  m_strand : List strand_task
  monitoring : Bool
  written : List message
  reads : List read_handler

/-- A newly constructed endpoint (the member initialisers of the class). -/
def application_endpoint.fresh : application_endpoint :=
  { m_queue := [], m_locked_nodes := [], m_watch_nodes := fun _ => [],
    m_protocol_version := 0, m_max_out_going_packet_size := 0, m_local_endpoint := false,
    m_strand := [], monitoring := false, written := [], reads := [] }

/-- What a member function of an endpoint reads and writes: `self` is `this`, `cfg`
the constants of `tdm.h`, `reg` the map of the registry (`registery().nodes()`, weak
pointers by node id), `nodes` the store of node objects and `ep` the members. -/
structure context where
  self : endpoint_id
  cfg : tdm
  reg : List (node_id × node_ref)
  nodes : node_ref → Option aseba_node
  ep : application_endpoint

/-! ## Maps and pointers -/

/-- The call `std::unordered_map::erase(key)`. -/
def map_erase (m : List (node_id × node_ref)) (id : node_id) : List (node_id × node_ref) :=
  m.filter (fun p => p.1 != id)

/-- The assignment `m[key] = value` of `std::unordered_map`. -/
def map_assign (m : List (node_id × node_ref)) (id : node_id) (r : node_ref) :
    List (node_id × node_ref) :=
  (id, r) :: map_erase m id

/-- The call `std::unordered_map::find(key)`: the mapped value when there is one. -/
def map_find (m : List (node_id × node_ref)) (id : node_id) : Option node_ref :=
  m.lookup id

/-- The call `std::unordered_map::count(key)` as a test. -/
def map_contains (m : List (node_id × node_ref)) (id : node_id) : Bool :=
  (map_find m id).isSome

/-- The call `std::weak_ptr::lock()`: the node when the object is still there. -/
def weak_lock (nodes : node_ref → Option aseba_node) (r : node_ref) : Option node_ref :=
  if (nodes r).isSome then some r else none

/-- Replaces the object a reference designates. -/
def store (nodes : node_ref → Option aseba_node) (r : node_ref) (n : aseba_node) :
    node_ref → Option aseba_node :=
  fun x => if x = r then some n else nodes x

/-- Modelled from the spec: `aseba_node_registery::node_from_id` is not part of the
sources; `get(NodeId) → Node?`, the node the registry maps the id to, when there is
one and it is still alive. -/
def node_from_id (c : context) (id : node_id) : Option node_ref :=
  match map_find c.reg id with
  | none => none
  | some r => weak_lock c.nodes r

/-- Modelled from the spec: the flatbuffers schema is not part of the sources; "on
success loads bytecode iff `opts & LoadOnTarget`", the bit of `LoadOnTarget`. -/
def CompilationOptions.LoadOnTarget : Nat := 1

/-- Applies an operation of `aseba_node` through a shared pointer (`n->op(...)`). A
shared pointer the endpoint got from `weak_ptr::lock()` or from the registry always
designates an object; this has no effect on a reference without one. -/
def update_node (c : context) (r : node_ref) (f : aseba_node → aseba_node) : context :=
  match c.nodes r with
  | some n => { c with nodes := store c.nodes r (f n) }
  | none => c

/-- The call `node->lock(this)`: the node is updated and the result returned. -/
def node_lock (node : node_ref) (c : context) : context × Bool :=
  match c.nodes node with
  | some n => ({ c with nodes := store c.nodes node (n.lock c.self).1 }, (n.lock c.self).2)
  | none => (c, false)

/-- The call `node->unlock(this)`: the node is updated and the result returned. -/
def node_unlock (node : node_ref) (c : context) : context × Bool :=
  match c.nodes node with
  | some n => ({ c with nodes := store c.nodes node (n.unlock c.self).1 }, (n.unlock c.self).2)
  | none => (c, false)

/-- Replaces the members of the endpoint in a context. -/
def context.with_ep (c : context) (f : application_endpoint → application_endpoint) : context :=
  { c with ep := f c.ep }

/-! ## The transport -/

/-- The call `base::do_write_message(buffer)`: an asynchronous write of the buffer is
started; `handle_write` is called when it completes. -/
def do_write_message (buffer : message) (e : application_endpoint) : application_endpoint :=
  { e with written := e.written ++ [buffer] }

/-- The member `application_endpoint::write_message`. -/
def write_message (buffer : message) (e : application_endpoint) : application_endpoint :=
  let e1 := { e with m_queue := e.m_queue ++ [buffer] }
  if e1.m_queue.length > 1 || e1.m_protocol_version == 0 then e1
  else
    match e1.m_queue with
    | front :: _ => do_write_message front e1
    | [] => e1

/-- The call `write_message(buffer)` inside a member function. -/
def context.write (c : context) (buffer : message) : context :=
  c.with_ep (write_message buffer)

/-- The member `read_message(handler)`: a read is posted, its completion calls the
handler with the next incoming message. -/
def read_message (h : read_handler) (c : context) : context :=
  c.with_ep (fun e => { e with reads := e.reads ++ [h] })

/-- The messages `create_error_response(request_id, error)`. -/
def create_error_response (request_id : Nat) (error : ErrorType) : message :=
  message.Error request_id error

/-- The messages `create_ack_response(request_id)`. -/
def create_ack_response (request_id : Nat) : message :=
  message.RequestCompleted request_id

/-! ## Notifications -/

/-- The member `get_locked_node`. -/
def get_locked_node (c : context) (id : node_id) : Option node_ref :=
  match map_find c.ep.m_locked_nodes id with
  | none => none
  | some r => weak_lock c.nodes r

/-- The call `node->can_be_renamed()`. -/
def can_be_renamed (c : context) (node : node_ref) : Bool :=
  match c.nodes node with
  | some n => n.m_can_be_renamed
  | none => false

/-- The member `node_capabilities`. -/
def node_capabilities (c : context) (node : node_ref) : Nat :=
  let caps := 0
  if c.ep.m_local_endpoint then
    let caps := caps ||| NodeCapability.ForceResetAndStop
    if can_be_renamed c node then caps ||| NodeCapability.Rename else caps
  else caps

/-- The entry `fb::CreateNodeDirect(builder, id, status, node->type(),
node->friendly_name(), node_capabilities(node))`. -/
def create_node (c : context) (id : node_id) (st : status) (node : node_ref) (n : aseba_node) :
    fb_Node :=
  { node_id := id, status := st, type := n.m_type, name := n.m_friendly_name,
    capabilities := node_capabilities c node }

/-- The member `do_node_changed`. The node is a shared pointer the registry hands
over with the notification; without an object behind it nothing is done. -/
def do_node_changed (node : node_ref) (id : node_id) (st : status) (c : context) : context :=
  let st := if st = status.busy ∧ (get_locked_node c id).isSome then status.ready else st
  match c.nodes node with
  | none => c
  | some n =>
    let c1 := c.write (message.NodesChanged [create_node c id st node n])
    if st = status.disconnected then
      c1.with_ep (fun e => { e with m_locked_nodes := map_erase e.m_locked_nodes id })
    else c1

/-- The member `do_node_variables_changed`. -/
def do_node_variables_changed (node : Option node_ref) (map : variables_map) (c : context) :
    context :=
  match node with
  | none => c
  | some r => c.write (message.NodeVariablesChanged r map)

/-- The member `do_node_emitted_events`. -/
def do_node_emitted_events (node : Option node_ref) (payload : event_changed_payload)
    (c : context) : context :=
  match node with
  | none => c
  | some r =>
    match payload with
    | .events map => c.write (message.EventsEmitted r map)
    | .description desc => c.write (message.EventsDescriptionChanged r desc)

/-- The member `do_node_execution_state_changed`. -/
def do_node_execution_state_changed (node : Option node_ref) (state : vm_execution_state)
    (c : context) : context :=
  match node with
  | none => c
  | some r => c.write (message.VMExecutionStateChanged r state)

/-- The call `boost::asio::post(m_strand, task)` / `boost::asio::defer(m_strand, task)`
made while a handler of the strand is running: the task runs after the handler
has returned, behind the tasks already waiting. -/
def defer (t : strand_task) (c : context) : context :=
  c.with_ep (fun e => { e with m_strand := e.m_strand ++ [t] })

/-- The member `node_changed`. -/
def node_changed (node : node_ref) (id : node_id) (st : status) (c : context) : context :=
  defer (strand_task.do_node_changed node id st) c

/-- The member `node_variables_changed`. -/
def node_variables_changed (node : Option node_ref) (map : variables_map) (c : context) :
    context :=
  defer (strand_task.do_node_variables_changed node map) c

/-- The member `node_emitted_events`. -/
def node_emitted_events (node : Option node_ref) (payload : event_changed_payload)
    (c : context) : context :=
  defer (strand_task.do_node_emitted_events node payload) c

/-- The member `node_execution_state_changed`. -/
def node_execution_state_changed (node : Option node_ref) (state : vm_execution_state)
    (c : context) : context :=
  defer (strand_task.do_node_execution_state_changed node state) c

/-- The entry of `send_full_node_list` for one pair of the registry's map, none for
an expired node. -/
def full_node_entry (c : context) (p : node_id × node_ref) : Option fb_Node :=
  match weak_lock c.nodes p.2 with
  | none => none
  | some ptr =>
    match c.nodes ptr with
    | none => none
    | some n => some (create_node c p.1 n.m_status ptr n)

/-- The member `send_full_node_list`. -/
def send_full_node_list (c : context) : context :=
  c.write (message.NodesChanged (c.reg.filterMap (full_node_entry c)))

/-! ## Requests -/

/-- The member `send_aseba_vm_description`. -/
def send_aseba_vm_description (request_id : Nat) (id : node_id) (c : context) : context :=
  match node_from_id c id with
  | none => c
  | some node => c.write (message.NodeAsebaVMDescription request_id node id)

/-- The member `rename_node`. -/
def rename_node (request_id : Nat) (id : node_id) (new_name : String) (c : context) : context :=
  match node_from_id c id with
  | none => c.write (create_error_response request_id ErrorType.unknown_node)
  | some n =>
    if node_capabilities c n &&& NodeCapability.Rename = 0 then
      c.write (create_error_response request_id ErrorType.unknown_node)
    else
      (update_node c n (fun x => x.rename new_name)).write (create_ack_response request_id)

/-- The member `lock_node`. -/
def lock_node (request_id : Nat) (id : node_id) (c : context) : context :=
  match node_from_id c id with
  | none => c.write (create_error_response request_id ErrorType.unknown_node)
  | some node =>
    let c1 := c.with_ep (fun e => { e with m_locked_nodes := map_assign e.m_locked_nodes id node })
    let (c2, res) := node_lock node c1
    if !res then
      (c2.with_ep (fun e => { e with m_locked_nodes := map_erase e.m_locked_nodes id })).write
        (create_error_response request_id ErrorType.node_busy)
    else
      c2.write (create_ack_response request_id)

/-- The member `unlock_node`. -/
def unlock_node (request_id : Nat) (id : node_id) (c : context) : context :=
  let it := map_find c.ep.m_locked_nodes id
  let node := match it with
    | some wp => weak_lock c.nodes wp
    | none => none
  let c1 := match it with
    | some _ => c.with_ep (fun e => { e with m_locked_nodes := map_erase e.m_locked_nodes id })
    | none => c
  match node with
  | none => c1.write (create_error_response request_id ErrorType.unknown_node)
  | some n =>
    let (c2, res) := node_unlock n c1
    if !res then c2.write (create_error_response request_id ErrorType.node_busy)
    else c2.write (create_ack_response request_id)

/-- Modelled from the spec: `aseba_node::set_node_variables` is not part of the
sources; `unsupported_variable_type` if any value can't be mapped to the node's VM
type. The call is recorded with its completion callback; the result tells whether
the node rejected the values. -/
def node_set_node_variables (n : node_ref) (m : variables_map) (request_id : Nat)
    (c : context) : context × Bool :=
  match c.nodes n with
  | some x =>
    (update_node c n (fun y => y.record (node_call.set_node_variables m request_id c.self)),
      decide (m ∈ x.rejects))
  | none => (c, false)

/-- Modelled from the spec: `aseba_node::emit_events` is not part of the sources;
its failure modes are those of `set_variables`. -/
def node_emit_events (n : node_ref) (m : variables_map) (request_id : Nat)
    (c : context) : context × Bool :=
  match c.nodes n with
  | some x =>
    (update_node c n (fun y => y.record (node_call.emit_events m request_id c.self)),
      decide (m ∈ x.rejects))
  | none => (c, false)

/-- Modelled from the spec: `aseba_node::set_node_events_table` is not part of the
sources; `unsupported_variable_type` on shape/name errors. -/
def node_set_node_events_table (n : node_ref) (events : events_table) (c : context) :
    context × Bool :=
  match c.nodes n with
  | some x =>
    (update_node c n (fun y => y.record (node_call.set_node_events_table events)),
      decide (events ∈ x.rejects_events))
  | none => (c, false)

/-- The member `set_node_variables`. -/
def set_node_variables (request_id : Nat) (id : node_id) (m : variables_map) (c : context) :
    context :=
  match get_locked_node c id with
  | none => c.write (create_error_response request_id ErrorType.unknown_node)
  | some n =>
    let (c1, err) := node_set_node_variables n m request_id c
    if err then c1.write (create_error_response request_id ErrorType.unsupported_variable_type)
    else c1

/-- The member `set_node_events_table`. -/
def set_node_events_table (request_id : Nat) (id : node_id) (events : events_table)
    (c : context) : context :=
  match get_locked_node c id with
  | none => c.write (create_error_response request_id ErrorType.unknown_node)
  | some n =>
    let (c1, err) := node_set_node_events_table n events c
    if err then c1.write (create_error_response request_id ErrorType.unsupported_variable_type)
    else c1.write (create_ack_response request_id)

/-- The member `emit_events`. -/
def emit_events (request_id : Nat) (id : node_id) (m : variables_map) (c : context) : context :=
  match get_locked_node c id with
  | none => c.write (create_error_response request_id ErrorType.unknown_node)
  | some n =>
    let (c1, err) := node_emit_events n m request_id c
    if err then c1.write (create_error_response request_id ErrorType.unsupported_variable_type)
    else c1

/-- The member `compile_and_send_program`. -/
def compile_and_send_program (request_id : Nat) (id : node_id) (language : Nat)
    (program : String) (opts : Nat) (c : context) : context :=
  match get_locked_node c id with
  | none => c.write (create_error_response request_id ErrorType.unknown_node)
  | some n =>
    if opts &&& CompilationOptions.LoadOnTarget ≠ 0 then
      update_node c n
        (fun x => x.record (node_call.compile_and_send_program language program request_id c.self))
    else
      update_node c n
        (fun x => x.record (node_call.compile_program language program request_id c.self))

/-- The member `set_vm_execution_state`. -/
def set_vm_execution_state (request_id : Nat) (id : node_id) (cmd : VMExecutionStateCommand)
    (c : context) : context :=
  let n := get_locked_node c id
  let n1 :=
    if n.isNone ∧ cmd = VMExecutionStateCommand.Stop then
      match node_from_id c id with
      | some r => if node_capabilities c r &&& NodeCapability.Rename ≠ 0 then none else some r
      | none => none
    else n
  match n1 with
  | none => c.write (create_error_response request_id ErrorType.unknown_node)
  | some r =>
    update_node c r (fun x => x.record (node_call.set_vm_execution_state cmd request_id c.self))

/-- The member `set_breakpoints`. -/
def set_breakpoints (request_id : Nat) (id : node_id) (breakpoints : List Nat) (c : context) :
    context :=
  match get_locked_node c id with
  | none => c.write (create_error_response request_id ErrorType.unknown_node)
  | some n =>
    update_node c n (fun x => x.record (node_call.set_breakpoints breakpoints request_id c.self))

/-- The assignment `m_watch_nodes[w][id] = node->connect_to_...(...)`: the node gets
a new connection and the scoped connection stored for `(w, id)`, if any, is replaced
by it. -/
def watch_connect (w : WatchableInfo) (id : node_id) (node : node_ref) (call : node_call)
    (c : context) : context :=
  (update_node c node (fun x => x.record call)).with_ep (fun e =>
    { e with m_watch_nodes := fun x =>
        if x = w then map_assign (e.m_watch_nodes w) id node else e.m_watch_nodes x })

/-- The call `m_watch_nodes[w].erase(id)`. -/
def watch_erase (w : WatchableInfo) (id : node_id) (c : context) : context :=
  c.with_ep (fun e =>
    { e with m_watch_nodes := fun x =>
        if x = w then map_erase (e.m_watch_nodes w) id else e.m_watch_nodes x })

/-- The data `node->variables()`. -/
def node_variables (c : context) (node : node_ref) : variables_map :=
  match c.nodes node with
  | some n => n.m_variables
  | none => []

/-- The data `node->events_description()`. -/
def node_events_description (c : context) (node : node_ref) : events_table :=
  match c.nodes node with
  | some n => n.m_events_description
  | none => []

/-- The data `node->execution_state()`. -/
def node_execution_state (c : context) (node : node_ref) : vm_execution_state :=
  match c.nodes node with
  | some n => n.m_execution_state
  | none => 0

/-- The first block of `watch_node`, the stream `Variables`. -/
def watch_variables (id : node_id) (flags : Nat) (node : node_ref) (c : context) : context :=
  if flags &&& WatchableInfo.Variables.bit ≠ 0 then
    let c1 :=
      if !(map_contains (c.ep.m_watch_nodes WatchableInfo.Variables) id) then
        node_variables_changed (some node) (node_variables c node) c
      else c
    watch_connect WatchableInfo.Variables id node (node_call.connect_to_variables_changes c.self) c1
  else watch_erase WatchableInfo.Variables id c

/-- The second block of `watch_node`, the stream `Events`. -/
def watch_events (id : node_id) (flags : Nat) (node : node_ref) (c : context) : context :=
  if flags &&& WatchableInfo.Events.bit ≠ 0 then
    let c1 := watch_connect WatchableInfo.Events id node (node_call.connect_to_events c.self) c
    node_emitted_events (some node)
      (event_changed_payload.description (node_events_description c1 node)) c1
  else watch_erase WatchableInfo.Events id c

/-- The third block of `watch_node`, the stream `VMExecutionState`. -/
def watch_execution_state (id : node_id) (flags : Nat) (node : node_ref) (c : context) :
    context :=
  if flags &&& WatchableInfo.VMExecutionState.bit ≠ 0 then
    let c1 := watch_connect WatchableInfo.VMExecutionState id node
      (node_call.connect_to_execution_state_changes c.self) c
    node_execution_state_changed (some node) (node_execution_state c1 node) c1
  else watch_erase WatchableInfo.VMExecutionState id c

/-- The member `watch_node`. -/
def watch_node (request_id : Nat) (id : node_id) (flags : Nat) (c : context) : context :=
  match node_from_id c id with
  | none => c.write (create_error_response request_id ErrorType.unknown_node)
  | some node =>
    (watch_execution_state id flags node
      (watch_events id flags node (watch_variables id flags node c))).write
      (create_ack_response request_id)

/-! ## Reading, the handshake and the end of an endpoint -/

/-- The member `read_message()` without argument: the next message goes to
`handle_read`. -/
def read_next (c : context) : context :=
  read_message read_handler.handle_read c

/-- The member `handle_read`; `ec` tells whether the read failed. -/
def handle_read (ec : Bool) (msg : request) (c : context) : context :=
  if ec then c
  else
    let c1 := read_next c
    match msg with
    | .RequestListOfNodes => send_full_node_list c1
    | .RequestNodeAsebaVMDescription request_id id => send_aseba_vm_description request_id id c1
    | .SetNodeVariables request_id id vars => set_node_variables request_id id vars c1
    | .RegisterEvents request_id id events => set_node_events_table request_id id events c1
    | .SendEvents request_id id events => emit_events request_id id events c1
    | .RenameNode request_id id new_name => rename_node request_id id new_name c1
    | .LockNode request_id id => lock_node request_id id c1
    | .UnlockNode request_id id => unlock_node request_id id c1
    | .CompileAndLoadCodeOnVM request_id id language program options =>
      compile_and_send_program request_id id language program options c1
    | .SetVMExecutionState request_id id command => set_vm_execution_state request_id id command c1
    | .WatchNode request_id id info_type => watch_node request_id id info_type c1
    | .SetBreakpoints request_id id breakpoints => set_breakpoints request_id id breakpoints c1
    | .ConnectionHandshake _ _ _ _ => c1
    | .other => c1

/-- The member `handle_handshake`; `ec` tells whether the read failed. The members
`m_protocol_version` and `m_max_out_going_packet_size` are `uint16_t`: what is stored
in them is reduced modulo 2^16. The result of `check_token` is not used. -/
def handle_handshake (ec : Bool) (msg : request) (c : context) : context :=
  if ec then c
  else
    match msg with
    | .ConnectionHandshake protocolVersion minProtocolVersion maxMessageSize _ =>
      let c1 :=
        if protocolVersion < c.cfg.minProtocolVersion ∨ c.cfg.protocolVersion < minProtocolVersion
        then c
        else
          c.with_ep (fun e =>
            { e with
              m_protocol_version := (min protocolVersion c.cfg.protocolVersion) % 2 ^ 16,
              m_max_out_going_packet_size := maxMessageSize % 2 ^ 16 })
      let c2 := c1.write
        (message.ConnectionHandshake c1.cfg.minProtocolVersion c1.ep.m_protocol_version
          c1.cfg.maxAppEndPointMessageSize)
      if c2.ep.m_protocol_version = 0 then c2
      else read_next (send_full_node_list c2)
    | _ => c

/-- The member `on_initialized`. -/
def on_initialized (c : context) : context :=
  (read_message read_handler.handle_handshake c).with_ep (fun e => { e with monitoring := true })

/-- The member `handle_write`, the completion of the write started last, `none` when
the queue is empty (`front()` and `pop()` are then undefined). -/
def handle_write (_ec : Bool) (e : application_endpoint) : Option application_endpoint :=
  match e.m_queue with
  | [] => none
  | _ :: rest =>
    let e1 := { e with m_queue := rest }
    match rest with
    | front :: _ => some (do_write_message front e1)
    | [] => some e1

/-- The body of the loop of the destructor for one entry of `m_locked_nodes`. -/
def unlock_entry (c : context) (p : node_id × node_ref) : context :=
  match weak_lock c.nodes p.2 with
  | some ptr => (node_unlock ptr c).1
  | none => c

/-- The destructor `~application_endpoint`: the monitoring of the node changes is
disconnected, then every locked node still alive is unlocked. The endpoint is gone
afterwards; what the result keeps of interest is the store of nodes. -/
def destroy (c : context) : context :=
  let c1 := c.with_ep (fun e => { e with monitoring := false })
  c1.ep.m_locked_nodes.foldl unlock_entry c1

/-- Runs one task of the strand. A task that captured a weak pointer to the
endpoint finds it alive here, since the task is run on the endpoint. -/
def run_task (t : strand_task) (c : context) : context :=
  match t with
  | .do_node_changed node id st => do_node_changed node id st c
  | .do_node_variables_changed node map => do_node_variables_changed node map c
  | .do_node_emitted_events node payload => do_node_emitted_events node payload c
  | .do_node_execution_state_changed node state => do_node_execution_state_changed node state c
  | .device_write_completion request_id ec =>
    if !ec then c.write (create_ack_response request_id)
    else c.write (create_error_response request_id ErrorType.node_busy)
  | .compilation_completion request_id ec result =>
    if ec then c.write (create_error_response request_id ErrorType.unknown_node)
    else c.write (message.CompilationResult request_id result)
  | .breakpoints_completion request_id ec bps =>
    c.write (message.SetBreakpointsResponse request_id
      (if ec then ErrorType.unknown_error else ErrorType.no_error) bps)

/-- The strand runs its oldest waiting task, if any. -/
def run_one (c : context) : context :=
  match c.ep.m_strand with
  | [] => c
  | t :: rest => run_task t (c.with_ep (fun e => { e with m_strand := rest }))

/-- The strand runs tasks until none is waiting or `fuel` tasks were run. -/
def run_strand : Nat → context → context
  | 0, c => c
  | fuel + 1, c =>
    match c.ep.m_strand with
    | [] => c
    | _ :: _ => run_strand fuel (run_one c)

/-! ## Several endpoints on one registry -/

/-- The broker: the registry, the node objects and the endpoints that exist. -/
structure broker where
  cfg : tdm
  reg : List (node_id × node_ref)
  nodes : node_ref → Option aseba_node
  endpoints : endpoint_id → Option application_endpoint

/-- Runs a member function on the endpoint `a` of the broker, if it exists. -/
def broker.call (b : broker) (a : endpoint_id) (f : context → context) : broker :=
  match b.endpoints a with
  | none => b
  | some e =>
    let c := f { self := a, cfg := b.cfg, reg := b.reg, nodes := b.nodes, ep := e }
    { b with nodes := c.nodes,
             endpoints := fun x => if x = a then some c.ep else b.endpoints x }

/-- Destroys the endpoint `a` of the broker, if it exists: the destructor runs and
the endpoint is no more. -/
def broker.teardown (b : broker) (a : endpoint_id) : broker :=
  match b.endpoints a with
  | none => b
  | some e =>
    let c := destroy { self := a, cfg := b.cfg, reg := b.reg, nodes := b.nodes, ep := e }
    { b with nodes := c.nodes,
             endpoints := fun x => if x = a then none else b.endpoints x }

/-- The operations on locks an endpoint goes through: a `LockNode` request, an
`UnlockNode` request, the notification that a node is disconnected, and the
destruction of the endpoint. -/
inductive lock_op where
  | lock_node (a : endpoint_id) (request_id : Nat) (id : node_id)
  | unlock_node (a : endpoint_id) (request_id : Nat) (id : node_id)
  | node_disconnected (a : endpoint_id) (node : node_ref) (id : node_id)
  | teardown (a : endpoint_id)
  deriving DecidableEq, Repr

/-- One operation on the broker. -/
def broker.step (b : broker) : lock_op → broker
  | .lock_node a request_id id => b.call a (lock_node request_id id)
  | .unlock_node a request_id id => b.call a (unlock_node request_id id)
  | .node_disconnected a node id => b.call a (do_node_changed node id status.disconnected)
  | .teardown a => b.teardown a

/-- A sequence of operations on the broker, first to last. -/
def broker.run (b : broker) (ops : List lock_op) : broker :=
  ops.foldl broker.step b

/-- No endpoint of the broker has a locked node: the state of a broker whose
endpoints have just been accepted. -/
def broker.no_locks (b : broker) : Prop :=
  ∀ a e, b.endpoints a = some e → e.m_locked_nodes = []

/-- Lock exclusivity: at most one endpoint has a given node id in `m_locked_nodes`. -/
def broker.exclusive (b : broker) : Prop :=
  ∀ a₁ a₂ e₁ e₂ id, b.endpoints a₁ = some e₁ → b.endpoints a₂ = some e₂ →
    map_contains e₁.m_locked_nodes id = true → map_contains e₂.m_locked_nodes id = true →
    a₁ = a₂

/-- The registry maps at most one id to a node object ("NodeId: globally unique per
node instance"). -/
def registry_injective (reg : List (node_id × node_ref)) : Prop :=
  ∀ id₁ id₂ r, map_find reg id₁ = some r → map_find reg id₂ = some r → id₁ = id₂

/-- The lock holder of the object behind a reference, if both exist. -/
def holder (nodes : node_ref → Option aseba_node) (r : node_ref) : Option endpoint_id :=
  match nodes r with
  | some n => n.m_connected_app
  | none => none

/-- The locks recorded by the endpoint of a context are its own: every entry of
`m_locked_nodes` is the node the registry has for that id, and the endpoint holds
the lock of that node. -/
def context.owns_locks (c : context) : Prop :=
  ∀ id r, (id, r) ∈ c.ep.m_locked_nodes →
    map_find c.reg id = some r ∧ holder c.nodes r = some c.self

/-- The locks recorded by the endpoints of a broker are their own. -/
def broker.locks_held (b : broker) : Prop :=
  ∀ a e id r, b.endpoints a = some e → (id, r) ∈ e.m_locked_nodes →
    map_find b.reg id = some r ∧ holder b.nodes r = some a

/-- A member function keeps the lock bookkeeping sound: it changes neither `this`
nor the registry, the locks it records afterwards are its own, and it leaves the
locks of the other endpoints alone. -/
def lock_safe (f : context → context) : Prop :=
  ∀ c, registry_injective c.reg → c.owns_locks →
    (f c).self = c.self ∧ (f c).reg = c.reg ∧ (f c).cfg = c.cfg ∧ (f c).owns_locks ∧
      ∀ x other, other ≠ c.self → holder c.nodes x = some other →
        holder (f c).nodes x = some other

/-! ## Concrete inputs -/

/-- A node nobody holds: a renameable Thymio with one variable. -/
def sample_node : aseba_node :=
  { m_connected_app := none, m_status := status.available, m_type := 0,
    m_friendly_name := "thymio", m_can_be_renamed := true, m_variables := [("x", [7])],
    m_events_description := [("ping", 1)], m_execution_state := 0, rejects := [],
    rejects_events := [], calls := [] }

/-- Constants for `tdm.h`: protocol version 1 only. -/
def sample_cfg : tdm :=
  { protocolVersion := 1, minProtocolVersion := 1, maxAppEndPointMessageSize := 102400 }

/-- A registry with one node: id 7 is the node object 0. -/
def sample_reg : List (node_id × node_ref) := [(7, 0)]

/-- The node store in which object 0 is `sample_node`. -/
def sample_nodes : node_ref → Option aseba_node :=
  fun r => if r = 0 then some sample_node else none

/-- A broker with the node 7 and two endpoints, 1 and 2, just accepted. -/
def sample_broker : broker :=
  { cfg := sample_cfg, reg := sample_reg, nodes := sample_nodes,
    endpoints := fun a => if a = 1 ∨ a = 2 then some application_endpoint.fresh else none }

/-- Endpoint 1 locks node 7, endpoint 2 tries to, endpoint 1 goes away, endpoint 2
tries again. -/
def sample_ops : List lock_op :=
  [lock_op.lock_node 1 10 7, lock_op.lock_node 2 20 7, lock_op.teardown 1,
    lock_op.lock_node 2 21 7]

/-- The members of the endpoint `a` of a broker, those of a new endpoint when there
is no such endpoint. -/
def broker.endpoint (b : broker) (a : endpoint_id) : application_endpoint :=
  (b.endpoints a).getD application_endpoint.fresh

/-- The node store in which object 0 is `sample_node` held by the endpoint `a`, with
the status `st`. -/
def held_nodes (a : endpoint_id) (st : status) : node_ref → Option aseba_node :=
  fun r => if r = 0 then some { sample_node with m_connected_app := some a, m_status := st }
    else none

/-- The context of a new endpoint `self` on the sample registry, node 7 being free. -/
def sample_context (self : endpoint_id) : context :=
  { self := self, cfg := sample_cfg, reg := sample_reg, nodes := sample_nodes,
    ep := application_endpoint.fresh }

/-- The context of a new endpoint `self` on the sample registry, node 7 being held by
the endpoint `a`. -/
def held_context (self a : endpoint_id) : context :=
  { self := self, cfg := sample_cfg, reg := sample_reg, nodes := held_nodes a status.busy,
    ep := application_endpoint.fresh }

/-- The node object behind a reference exists and nobody holds its lock. -/
def free (nodes : node_ref → Option aseba_node) (r : node_ref) : Prop :=
  (nodes r).isSome = true ∧ holder nodes r = none

/-- The operation is a `LockNode` request for the node id `id`. -/
def lock_op.locks (op : lock_op) (id : node_id) : Bool :=
  match op with
  | .lock_node _ _ id' => id' == id
  | _ => false

/-- The endpoint of `c` does not hold the lock of the node id, as `get_locked_node`
sees it: the id is not in `m_locked_nodes`, or the node recorded there is gone. -/
def context.not_locked (c : context) (id : node_id) : Prop :=
  map_find c.ep.m_locked_nodes id = none ∨
    ∃ wp, map_find c.ep.m_locked_nodes id = some wp ∧ c.nodes wp = none

/-- The context `c'` is `c` after exactly one message, `Error{r, unknown_node}`, was
enqueued and no operation was invoked on any node: the node store (with the logs of
the calls on each node) is the same, and so are the locks and the subscriptions of
the endpoint and the tasks waiting on its strand. -/
def context.rejected (c c' : context) (r : Nat) : Prop :=
  c'.ep.m_queue = c.ep.m_queue ++ [message.Error r ErrorType.unknown_node] ∧
    c'.nodes = c.nodes ∧ c'.ep.m_locked_nodes = c.ep.m_locked_nodes ∧
    c'.ep.m_watch_nodes = c.ep.m_watch_nodes ∧ c'.ep.m_strand = c.ep.m_strand

/-- The context of a new endpoint `self` accepted on the local listener
(`set_local(true)`), on the sample registry, node 7 being free. -/
def local_context (self : endpoint_id) : context :=
  { self := self, cfg := sample_cfg, reg := sample_reg, nodes := sample_nodes,
    ep := { application_endpoint.fresh with m_local_endpoint := true } }

/-- The name of the node object behind a reference. -/
def friendly_name (nodes : node_ref → Option aseba_node) (r : node_ref) : Option String :=
  (nodes r).map (fun n => n.m_friendly_name)

/-- The log of the calls made on the node object behind a reference. -/
def calls_of (nodes : node_ref → Option aseba_node) (r : node_ref) : List node_call :=
  match nodes r with
  | some n => n.calls
  | none => []

/-- The backend changes the status of a node object. -/
def backend_set_status (r : node_ref) (st : status) (c : context) : context :=
  update_node c r (fun n => { n with m_status := st })

/-- The endpoint 2 after its handshake. -/
def connected_context : context :=
  handle_handshake false (request.ConnectionHandshake 1 1 1024 none)
    (on_initialized (sample_context 2))

/-- The endpoint 2 after its handshake and a `LockNode` request for node 7, the
backend reporting the locked node as busy: the failing input of the status masking. -/
def locked_context : context :=
  backend_set_status 0 status.busy (handle_read false (request.LockNode 5 7) connected_context)

/-- The statuses a list of messages reports for the node id `id` in `NodesChanged`
messages, in order. -/
def reported_statuses (id : node_id) (q : List message) : List status :=
  q.flatMap (fun m =>
    match m with
    | .NodesChanged nodes => (nodes.filter (fun n => n.node_id == id)).map (fun n => n.status)
    | _ => [])

/-- The endpoint 2 after its handshake and a `WatchNode` request for the three
streams of node 7, the three initial snapshots being delivered: the failing input of
the watch renewal. -/
def watching_context : context :=
  run_strand 3 (handle_read false (request.WatchNode 8 7 7) connected_context)

/-- The endpoint 2 after a handshake whose version range is disjoint from the
server's (the client asks for version 99 at least): the failing input of the version
mismatch reply. -/
def mismatch_context : context :=
  handle_handshake false (request.ConnectionHandshake 99 99 1024 none)
    (on_initialized (sample_context 2))

/-! ## The event loop of one endpoint -/

/-- What can happen to an endpoint once it is started: the completion of the read it
posted (`receive`, with the error code and the message), the completion of the write
it started (`write_done`), a callback posted or deferred to its strand by the
registry, a node or a device (`post`), the strand running its oldest task (`run`),
and the backend changing a node object (`backend`). -/
inductive event where
  | receive (ec : Bool) (msg : request)
  | write_done (ec : Bool)
  | post (t : strand_task)
  | run
  | backend (r : node_ref) (n : aseba_node)
  deriving DecidableEq, Repr

/-- An endpoint with the state of its transport: `reads_done` of the posted reads and
`writes_done` of the started writes have completed; `dispatched` are the messages
`handle_read` went through its `switch` with, in order. -/
structure session where
  c : context
  reads_done : Nat
  writes_done : Nat
  dispatched : List request

/-- The endpoint is started: `start()` calls `on_initialized()`. -/
def session.start (c : context) : session :=
  { c := on_initialized c, reads_done := 0, writes_done := 0, dispatched := [] }

/-- One event. A read completes only if one is posted and not yet completed, and
calls the handler that read was posted with; a write completes only if one is
started and not yet completed, and calls `handle_write`. -/
def session.step (s : session) : event → session
  | .receive ec msg =>
    match s.c.ep.reads[s.reads_done]? with
    | none => s
    | some read_handler.handle_handshake =>
      { s with c := handle_handshake ec msg s.c, reads_done := s.reads_done + 1 }
    | some read_handler.handle_read =>
      { s with c := handle_read ec msg s.c, reads_done := s.reads_done + 1,
               dispatched := if ec then s.dispatched else s.dispatched ++ [msg] }
  | .write_done ec =>
    if s.writes_done < s.c.ep.written.length then
      match handle_write ec s.c.ep with
      | some e => { s with c := { s.c with ep := e }, writes_done := s.writes_done + 1 }
      | none => s
    else s
  | .post t => { s with c := defer t s.c }
  | .run => { s with c := run_one s.c }
  | .backend r n => { s with c := { s.c with nodes := store s.c.nodes r n } }

/-- A sequence of events, first to last. -/
def session.run (s : session) (evs : List event) : session :=
  evs.foldl session.step s

/-- The event is the arrival of a message. -/
def event.is_receive : event → Bool
  | .receive _ _ => true
  | _ => false

/-- The test of `handle_handshake` on the first message: it is a
`ConnectionHandshake` and its version range meets the server's. -/
def handshake_compatible (cfg : tdm) : request → Bool
  | .ConnectionHandshake protocolVersion minProtocolVersion _ _ =>
    !(decide (protocolVersion < cfg.minProtocolVersion) ||
      decide (cfg.protocolVersion < minProtocolVersion))
  | _ => false

/-- The endpoint has completed no handshake and started nothing: its negotiated
version is 0 and it has posted no read and started no write. -/
def context.unstarted (c : context) : Prop :=
  c.ep.m_protocol_version = 0 ∧ c.ep.reads = [] ∧ c.ep.written = []

/-- The endpoint after a handshake that failed or has not happened: the negotiated
version is 0, no write was ever started, the only read ever posted is the one for the
handshake, `k` reads have completed and no message went through `handle_read`. -/
def session.stalled (s : session) (k : Nat) : Prop :=
  s.c.ep.m_protocol_version = 0 ∧ s.c.ep.written = [] ∧
    s.c.ep.reads = [read_handler.handle_handshake] ∧ s.reads_done = k ∧ s.dispatched = []

/-- Events after a failed handshake: the client sends a `LockNode` request, the
registry notifies a change of node 7 and the strand runs the notification. -/
def sample_after : List event :=
  [event.receive false (request.LockNode 5 7),
    event.post (strand_task.do_node_changed 0 7 status.busy), event.run]

/-- The session of the endpoint 2 whose first message is not a handshake, followed by
`sample_after`. -/
def failed_session : session :=
  (((session.start (sample_context 2)).run []).step
    (event.receive false request.RequestListOfNodes)).run sample_after

/-- The session of the endpoint 2 after its handshake. -/
def connected_session : session :=
  (session.start (sample_context 2)).step
    (event.receive false (request.ConnectionHandshake 1 1 1024 none))

/-- The session of the endpoint 2 after its handshake, a second `ConnectionHandshake`
message and a `LockNode` request for node 7. -/
def second_handshake_session : session :=
  (connected_session.step (event.receive false (request.ConnectionHandshake 1 1 1024 none))).step
    (event.receive false (request.LockNode 5 7))

/-- The constants of `tdm.h` are protocol versions that fit `uint16_t`, none being 0
(the value the endpoint keeps for "no handshake yet"). -/
def tdm.versions_valid (cfg : tdm) : Prop :=
  0 < cfg.minProtocolVersion ∧ 0 < cfg.protocolVersion ∧ cfg.protocolVersion < 2 ^ 16

/-- The ids of the registry whose node is still alive, in the order of the registry. -/
def alive_ids (c : context) : List node_id :=
  (c.reg.filter (fun p => (c.nodes p.2).isSome)).map Prod.fst

/-! ## The outbound queue -/

/-- What happens to the outbound queue of one endpoint: a call of `write_message`, the
completion of the write in flight (a call of `handle_write`), and the handshake
storing a negotiated version. -/
inductive queue_op where
  | write (buffer : message)
  | complete (ec : Bool)
  | negotiate (version : Nat)
  deriving DecidableEq, Repr

/-- An endpoint with the history of its outbound queue: `passed` are the buffers
passed to `write_message`, in order, and `completed` counts the completions of writes
delivered to `handle_write`. -/
structure writer where
  ep : application_endpoint
  passed : List message
  completed : Nat

/-- The history starts: nothing was passed to `write_message`, nothing completed. -/
def writer.start (e : application_endpoint) : writer :=
  { ep := e, passed := [], completed := 0 }

/-- The number of writes started and not yet completed. -/
def writer.in_flight (w : writer) : Nat :=
  w.ep.written.length - w.completed

/-- One operation on the queue. A completion happens only for a write that was
started and has not completed yet. -/
def writer.step (w : writer) : queue_op → writer
  | .write buffer => { w with ep := write_message buffer w.ep, passed := w.passed ++ [buffer] }
  | .complete ec =>
    if w.completed < w.ep.written.length then
      match handle_write ec w.ep with
      | some e => { w with ep := e, completed := w.completed + 1 }
      | none => w
    else w
  | .negotiate version => { w with ep := { w.ep with m_protocol_version := version } }

/-- A sequence of operations on the queue, first to last. -/
def writer.run (w : writer) (ops : List queue_op) : writer :=
  ops.foldl writer.step w

/-- The state of the outbound queue is consistent with its history: the buffers
passed to `write_message` are those already popped (`done`) followed by the queue;
either no write is in flight and the buffers written are those popped, or one write
is in flight, of the front of the queue, and the buffers written are those popped
followed by that front. -/
def writer.consistent (w : writer) : Prop :=
  ∃ done, w.passed = done ++ w.ep.m_queue ∧
    ((w.completed = w.ep.written.length ∧ w.ep.written = done) ∨
      (w.completed + 1 = w.ep.written.length ∧
        ∃ front rest, w.ep.m_queue = front :: rest ∧ w.ep.written = done ++ [front]))

/-- A short history: two messages before the handshake, the handshake, its reply and
the completions. -/
def sample_queue_ops : List queue_op :=
  [queue_op.negotiate 1, queue_op.write (message.ConnectionHandshake 1 1 102400),
    queue_op.write (message.NodesChanged []), queue_op.write (message.RequestCompleted 5),
    queue_op.complete false, queue_op.complete false]

/-! ## The client endpoint: framing

The class `ThymioDeviceManagerClientEndpoint` of
`aseba/qt-thymio-dm-client-lib/thymiodevicemanagerclientendpoint.cpp`. A byte is a
natural number below 256, the socket is the list of the bytes that arrived and were
not read yet (`bytesAvailable()` is its length), and the host is little-endian. -/

/-- The four bytes of a `uint32_t` in memory, on a little-endian host. -/
def le32 (n : Nat) : List Nat :=
  [n % 256, n / 256 % 256, n / 65536 % 256, n / 16777216 % 256]

/-- The `uint32_t` that four bytes of memory hold (`*reinterpret_cast<quint32*>(data)`),
on a little-endian host. -/
def read_le32 (data : List Nat) : Nat :=
  match data with
  | [b0, b1, b2, b3] => b0 + 256 * b1 + 65536 * b2 + 16777216 * b3
  | _ => 0

/-- The members of `ThymioDeviceManagerClientEndpoint` the framing uses, with logs:
`m_socket` are the bytes available for reading, `sent` the bytes written to the
socket, `incoming` the payloads given to `handleIncommingMessage`, in order, and
`warnings` counts the "Invalid incomming message" warnings. -/
structure ThymioDeviceManagerClientEndpoint where
  m_socket : List Nat
  m_message_size : Nat
  sent : List Nat
  incoming : List (List Nat)
  warnings : Nat
  deriving DecidableEq, Repr

/-- The endpoint after its constructor: `m_message_size(0)`, nothing received. -/
def ThymioDeviceManagerClientEndpoint.fresh : ThymioDeviceManagerClientEndpoint :=
  { m_socket := [], m_message_size := 0, sent := [], incoming := [], warnings := 0 }

/-- The bytes `write(buffer)` writes to the socket: the size of the buffer as a
`uint32_t`, then the buffer. -/
def frame (buffer : List Nat) : List Nat :=
  le32 (buffer.length % 2 ^ 32) ++ buffer

/-- The member `write(const flatbuffers::DetachedBuffer&)`. -/
def ThymioDeviceManagerClientEndpoint.write (s : ThymioDeviceManagerClientEndpoint)
    (buffer : List Nat) : ThymioDeviceManagerClientEndpoint :=
  { s with sent := s.sent ++ frame buffer }

/-- The call `handleIncommingMessage(fb_message_ptr(std::move(data)))` as far as the
framing is concerned: the payload is handed over. -/
def ThymioDeviceManagerClientEndpoint.handleIncommingMessage
    (s : ThymioDeviceManagerClientEndpoint) (data : List Nat) :
    ThymioDeviceManagerClientEndpoint :=
  { s with incoming := s.incoming ++ [data] }

/-- The first statement of the loop of `onReadyRead`: without a message size, four
bytes are read as the size once they are there; `none` is the `return`. -/
def read_header (s : ThymioDeviceManagerClientEndpoint) :
    Option ThymioDeviceManagerClientEndpoint :=
  if s.m_message_size = 0 then
    if s.m_socket.length < 4 then none
    else some { s with m_message_size := read_le32 (s.m_socket.take 4),
                       m_socket := s.m_socket.drop 4 }
  else some s

/-- The rest of the loop of `onReadyRead`: once the payload is there it is read,
verified and handed to `handleIncommingMessage`. `verify` is
`fb::VerifyMessageBuffer`. The result tells whether the loop goes on (`false` is the
`return`). -/
def read_payload (verify : List Nat → Bool) (s : ThymioDeviceManagerClientEndpoint) :
    ThymioDeviceManagerClientEndpoint × Bool :=
  if s.m_socket.length < s.m_message_size then (s, false)
  else
    let data := s.m_socket.take s.m_message_size
    let s1 := { s with m_socket := s.m_socket.drop s.m_message_size, m_message_size := 0 }
    let s2 := if !verify data then { s1 with warnings := s1.warnings + 1 } else s1
    (s2.handleIncommingMessage data, true)

/-- One turn of the loop of `onReadyRead`, and whether the loop goes on. -/
def read_iteration (verify : List Nat → Bool) (s : ThymioDeviceManagerClientEndpoint) :
    ThymioDeviceManagerClientEndpoint × Bool :=
  match read_header s with
  | none => (s, false)
  | some s1 => read_payload verify s1

/-- The loop `while(true)` of `onReadyRead`, for at most `fuel` turns: `none` when
the loop has not returned by then. -/
def read_loop (verify : List Nat → Bool) :
    Nat → ThymioDeviceManagerClientEndpoint → Option ThymioDeviceManagerClientEndpoint
  | 0, _ => none
  | fuel + 1, s =>
    if (read_iteration verify s).2 then read_loop verify fuel (read_iteration verify s).1
    else some (read_iteration verify s).1

/-- The member `onReadyRead`. Every turn of the loop but the last reads at least one
byte, so one turn more than there are bytes available is enough for it to return. -/
def ThymioDeviceManagerClientEndpoint.onReadyRead (verify : List Nat → Bool)
    (s : ThymioDeviceManagerClientEndpoint) : ThymioDeviceManagerClientEndpoint :=
  (read_loop verify (s.m_socket.length + 1) s).getD s

/-- Bytes arrive on the socket. -/
def ThymioDeviceManagerClientEndpoint.arrive (s : ThymioDeviceManagerClientEndpoint)
    (bytes : List Nat) : ThymioDeviceManagerClientEndpoint :=
  { s with m_socket := s.m_socket ++ bytes }

/-- A chunk of bytes arrives and the socket signals `readyRead`. -/
def ThymioDeviceManagerClientEndpoint.receive (verify : List Nat → Bool)
    (s : ThymioDeviceManagerClientEndpoint) (chunk : List Nat) :
    ThymioDeviceManagerClientEndpoint :=
  (s.arrive chunk).onReadyRead verify

/-- The bytes a client that writes the payloads one after the other puts on the wire. -/
def written_stream (payloads : List (List Nat)) : List Nat :=
  (payloads.foldl ThymioDeviceManagerClientEndpoint.write
    ThymioDeviceManagerClientEndpoint.fresh).sent

/-- Two payloads, of three bytes and of one byte. -/
def sample_payloads : List (List Nat) := [[10, 20, 30], [40]]

/-- The frames of `sample_payloads` cut in three chunks, in the middle of the first
header and in the middle of the second one. -/
def sample_chunks : List (List Nat) := [[3, 0], [0, 0, 10, 20, 30, 1, 0], [0, 0, 40]]

/-- A verifier standing for `fb::VerifyMessageBuffer` that accepts the payload `[40]`
only. -/
def sample_verify (data : List Nat) : Bool := data == [40]

/-! ## The client endpoint: node ids -/

/-- The class `QUuid`: `data1` is a `uint`, `data2` and `data3` are `ushort`, `data4`
is an array of eight bytes. -/
structure QUuid where
  data1 : Nat
  data2 : Nat
  data3 : Nat
  data4 : List Nat
  deriving DecidableEq, Repr

/-- The fields of a `QUuid` are in the range of their types. -/
def QUuid.valid (u : QUuid) : Prop :=
  u.data1 < 2 ^ 32 ∧ u.data2 < 2 ^ 16 ∧ u.data3 < 2 ^ 16 ∧ u.data4.length = 8

/-- The Qt function `qFromBigEndian<quint32>` on a little-endian host: the four
bytes are swapped. -/
def qFromBigEndian32 (x : Nat) : Nat :=
  x % 256 * 16777216 + x / 256 % 256 * 65536 + x / 65536 % 256 * 256 + x / 16777216 % 256

/-- The Qt function `qFromBigEndian<quint16>` on a little-endian host: the two bytes
are swapped. -/
def qFromBigEndian16 (x : Nat) : Nat :=
  x % 256 * 256 + x / 256 % 256

/-- The two bytes of a `uint16_t` in memory, on a little-endian host. -/
def le16 (n : Nat) : List Nat :=
  [n % 256, n / 256 % 256]

/-- The bytes `serialize_uuid` fills `data` with and makes the `NodeId` of: a
`uint32_t` at offset 0, a `uint16_t` at offsets 4 and 6, and the eight bytes of
`data4` copied at offset 8. -/
def serialize_uuid (uuid : QUuid) : List Nat :=
  le32 (qFromBigEndian32 uuid.data1) ++ le16 (qFromBigEndian16 uuid.data2) ++
    le16 (qFromBigEndian16 uuid.data3) ++ uuid.data4.take 8

/-- The uuid `12345678-9abc-def0-0102-030405060708`. -/
def sample_uuid : QUuid :=
  { data1 := 0x12345678, data2 := 0x9abc, data3 := 0xdef0,
    data4 := [1, 2, 3, 4, 5, 6, 7, 8] }

/-! ## The completion of a device write, and more concrete inputs -/

/-- The lambda that the callback of `create_device_write_completion_cb` posts, when
the strand runs it: `ptr.lock()` gives the endpoint `a` if it still exists, and
nothing is done otherwise. -/
def broker.device_write_completion (b : broker) (a : endpoint_id) (request_id : Nat)
    (ec : Bool) : broker :=
  match b.endpoints a with
  | none => b
  | some _ => b.call a (run_task (strand_task.device_write_completion request_id ec))

/-- The answer the completion of a device write enqueues for the request. -/
def device_write_answer (request_id : Nat) (ec : Bool) : message :=
  if ec then create_error_response request_id ErrorType.node_busy
  else create_ack_response request_id

/-- What `set_node_variables` and `emit_events` enqueue before they return, on a node
whose list of rejected values is `rejects`. -/
def synchronous_answer (request_id : Nat) (m : variables_map) (rejects : List variables_map) :
    List message :=
  if m ∈ rejects then [create_error_response request_id ErrorType.unsupported_variable_type]
  else []

/-- The endpoint 2 after its handshake and a `LockNode` request for node 7, the node
rejecting the values `[("x", [40000])]`. -/
def rejecting_context : context :=
  update_node locked_context 0 (fun n => { n with rejects := [[("x", [40000])]] })

/-- The sample broker in which the endpoint 2 is `locked_context`. -/
def locked_broker : broker :=
  { cfg := sample_cfg, reg := sample_reg, nodes := locked_context.nodes,
    endpoints := fun a => if a = 2 then some locked_context.ep else none }

/-- Two buffers are queued after the handshake and the write of the first one fails:
the failing input of the write error. -/
def failed_write_ops : List queue_op :=
  [queue_op.negotiate 1, queue_op.write (message.RequestCompleted 1),
    queue_op.write (message.RequestCompleted 2), queue_op.complete true]

/-- The registry notifies a change of node 7 to a started endpoint and the strand runs
the notification before the client's handshake arrives: the failing input of the flush
of the pending messages. -/
def early_notification : List event :=
  [event.post (strand_task.do_node_changed 0 7 status.available), event.run,
    event.receive false (request.ConnectionHandshake 1 1 1024 none)]

/-- The session of the endpoint 2 after `early_notification`. -/
def pending_session : session :=
  (session.start (sample_context 2)).run early_notification

/-! ## The client endpoint: pending requests

The classes of `aseba/qt-thymio-dm-client-lib/request.h` and the members of
`ThymioDeviceManagerClientEndpoint` that keep the requests waiting for an answer. A
request object is shared between the endpoint and the caller that made the request: a
shared pointer is a reference into the store of the request objects. -/

/-- A shared pointer to a request object. -/
abbrev request_ptr := Nat

/-- The signals of `RequestDataBase`. -/
inductive request_signal where
  | finished
  | canceled
  deriving DecidableEq, Repr

/-- The results a request holds in `m_data`: the one of `SimpleRequestResult`, the
two of `CompilationResult` (`make_error`, `make_success`), the lines of
`SetBreakpointRequestResult` and the description of `AsebaVMDescriptionRequestResult`. -/
inductive request_result where
  | simple
  | make_error (message : String) (character line column : Nat)
  | make_success (bytecode_size variables_size total_bytecode_size total_variables_size : Nat)
  | breakpoints (lines : List Nat)
  | description (r : Nat)
  deriving DecidableEq, Repr

/-- The members of `RequestDataBase` and of `RequestData<Result>`, with the log of
the signals emitted. -/
structure RequestData where
  m_id : Nat
  m_type : Nat
  m_canceled : Bool
  m_error : Option ErrorType
  m_data : Option request_result
  emitted : List request_signal
  deriving DecidableEq, Repr

/-- The member `RequestDataBase::cancel`. -/
def RequestData.cancel (r : RequestData) : RequestData :=
  { r with m_canceled := true,
           emitted := r.emitted ++ [request_signal.finished, request_signal.canceled] }

/-- The member `RequestDataBase::isCanceled`. -/
def RequestData.isCanceled (r : RequestData) : Bool :=
  r.m_canceled

/-- The member `RequestDataBase::setError`. -/
def RequestData.setError (r : RequestData) (e : ErrorType) : RequestData :=
  { r with m_error := some e, emitted := r.emitted ++ [request_signal.finished] }

/-- The member `RequestData<Result>::setResult`. -/
def RequestData.setResult (r : RequestData) (x : request_result) : RequestData :=
  { r with m_data := some x, emitted := r.emitted ++ [request_signal.finished] }

/-- The member `RequestData<Result>::isFinished`. -/
def RequestData.isFinished (r : RequestData) : Bool :=
  r.m_canceled || r.m_error.isSome || r.m_data.isSome

/-- The member `RequestData<Result>::success`. -/
def RequestData.success (r : RequestData) : Bool :=
  !r.m_canceled && r.m_data.isSome

/-- The member `RequestDataBase::as<T>`, `type` being `T::type`: the request itself
when it is of that type, null otherwise. -/
def RequestData.as (r : RequestData) (type : Nat) : Option RequestData :=
  if type ≠ r.m_type then none else some r

/-- The constant `SimpleRequestResult::type`. -/
def SimpleRequestResult.type : Nat := 0x8543ec0d

/-- The constants `Result::type` of the result classes that `thymio-api.h` declares. -/
structure result_types where
  CompilationResult : Nat
  SetBreakpointRequestResult : Nat
  AsebaVMDescriptionRequestResult : Nat
  deriving DecidableEq, Repr

/-- The messages `handleIncommingMessage` tells apart, with what it reads of those
that answer a request. The messages about nodes act on `m_nodes` only. -/
inductive AnyMessage where
  | NodesChanged
  | RequestCompleted (request_id : Nat)
  | Error (request_id : Nat) (error : ErrorType)
  | CompilationResultFailure (request_id : Nat) (message : String)
      (character line column : Nat)
  | CompilationResultSuccess (request_id : Nat)
      (bytecode_size variables_size total_bytecode_size total_variables_size : Nat)
  | SetBreakpointsResponse (request_id : Nat) (breakpoints : List (Option Nat))
  | VMExecutionStateChanged
  | NodeVariablesChanged
  | EventsEmitted
  | EventsDescriptionChanged
  | NodeAsebaVMDescription (request_id : Nat) (r : Nat)
  | other
  deriving DecidableEq, Repr

/-- The member `m_pending_requests`, a map with one entry per request id, and the
store of the request objects. -/
structure client_requests where
  m_pending_requests : List (Nat × request_ptr)
  requests : request_ptr → Option RequestData

/-- Applies a member function of a request through a shared pointer. -/
def client_requests.update (s : client_requests) (p : request_ptr)
    (f : RequestData → RequestData) : client_requests :=
  match s.requests p with
  | some r => { s with requests := fun x => if x = p then some (f r) else s.requests x }
  | none => s

/-- The member `get_request`: the request is taken out of the map. -/
def client_requests.get_request (s : client_requests) (id : Nat) :
    client_requests × Option request_ptr :=
  match map_find s.m_pending_requests id with
  | none => (s, none)
  | some res => ({ s with m_pending_requests := map_erase s.m_pending_requests id }, some res)

/-- The member `cancelAllRequests`. -/
def client_requests.cancelAllRequests (s : client_requests) : client_requests :=
  { s.m_pending_requests.foldl (fun s1 r => s1.update r.2 RequestData.cancel) s with
    m_pending_requests := [] }

/-- The statement `if(auto req = basic_req->as<T>()) req->setResult(x)`. -/
def set_result_as (type : Nat) (x : request_result) (r : RequestData) : RequestData :=
  match r.as type with
  | some req => req.setResult x
  | none => r

/-- The cases of `handleIncommingMessage` for the answer `msg` to the request
`request_id`: the request is taken out of the map, if there, and `f` is applied to it. -/
def client_requests.answer (s : client_requests) (request_id : Nat)
    (f : RequestData → RequestData) : client_requests :=
  match s.get_request request_id with
  | (s1, none) => s1
  | (s1, some basic_req) => s1.update basic_req f

/-- The member `handleIncommingMessage`, as far as the requests are concerned. -/
def client_requests.handleIncommingMessage (t : result_types) (msg : AnyMessage)
    (s : client_requests) : client_requests :=
  match msg with
  | .RequestCompleted request_id =>
    s.answer request_id (set_result_as SimpleRequestResult.type request_result.simple)
  | .Error request_id error => s.answer request_id (fun r => r.setError error)
  | .CompilationResultFailure request_id message character line column =>
    s.answer request_id
      (set_result_as t.CompilationResult (request_result.make_error message character line column))
  | .CompilationResultSuccess request_id bytecode_size variables_size total_bytecode_size
      total_variables_size =>
    s.answer request_id
      (set_result_as t.CompilationResult
        (request_result.make_success bytecode_size variables_size total_bytecode_size
          total_variables_size))
  | .SetBreakpointsResponse request_id breakpoints =>
    s.answer request_id
      (set_result_as t.SetBreakpointRequestResult
        (request_result.breakpoints (breakpoints.filterMap id)))
  | .NodeAsebaVMDescription request_id r =>
    s.answer request_id
      (set_result_as t.AsebaVMDescriptionRequestResult (request_result.description r))
  | _ => s

/-- The request id of a message that answers a request. -/
def AnyMessage.response_id : AnyMessage → Option Nat
  | .RequestCompleted request_id => some request_id
  | .Error request_id _ => some request_id
  | .CompilationResultFailure request_id _ _ _ _ => some request_id
  | .CompilationResultSuccess request_id _ _ _ _ => some request_id
  | .SetBreakpointsResponse request_id _ => some request_id
  | .NodeAsebaVMDescription request_id _ => some request_id
  | _ => none

/-- The message is an `Error`, or a result for a request of the type `type`: the one
`handleIncommingMessage` casts the pending request to before it sets the result. -/
def AnyMessage.answers (t : result_types) (msg : AnyMessage) (type : Nat) : Bool :=
  match msg with
  | .RequestCompleted _ => type == SimpleRequestResult.type
  | .Error _ _ => true
  | .CompilationResultFailure _ _ _ _ _ => type == t.CompilationResult
  | .CompilationResultSuccess _ _ _ _ _ => type == t.CompilationResult
  | .SetBreakpointsResponse _ _ => type == t.SetBreakpointRequestResult
  | .NodeAsebaVMDescription _ _ => type == t.AsebaVMDescriptionRequestResult
  | _ => false

/-- Type ids standing for those of `thymio-api.h`, different from each other and
from `SimpleRequestResult::type`. -/
def sample_types : result_types :=
  { CompilationResult := 1, SetBreakpointRequestResult := 2,
    AsebaVMDescriptionRequestResult := 3 }

/-- A request object that was just made by `make_request`. -/
def new_request (id type : Nat) : RequestData :=
  { m_id := id, m_type := type, m_canceled := false, m_error := none, m_data := none,
    emitted := [] }

/-- A client with two pending requests: the request 5, a `Request`, and the request 6,
a `CompilationRequest`. -/
def sample_requests : client_requests :=
  { m_pending_requests := [(5, 0), (6, 1)],
    requests := fun p =>
      if p = 0 then some (new_request 5 SimpleRequestResult.type)
      else if p = 1 then some (new_request 6 sample_types.CompilationResult)
      else none }

/-! ## The tree of the variables in Studio

The class `VariablesModel` of `aseba/clients/studio/VariablesModel.cpp` (namespace
`Aseba`). The tree of `TreeItem`s is a value: a pointer to a child of an item is the
position of the child among the children of the item, and the `parent` pointer is left
out. The signals of the model (`layoutChanged`, `dataChanged`) do not change the tree
and are left out as well. -/

/-- The Qt class `QVariant`, for the values the variables of a node take: none, an
integer (`QVariant::Int`), a string (`QVariant::String`), a list (`QVariant::List`)
and a map (`QVariant::Map`, a `QMap` whose entries are sorted by key, one entry per
key). -/
inductive QVariant where
  | Invalid
  | fromInt (i : Int)
  | fromString (s : String)
  | fromList (l : List QVariant)
  | fromMap (m : List (String × QVariant))
  deriving Repr

/-- The Qt function `QVariant::toString`: empty for a list, a map and no value. -/
def QVariant.toString (v : QVariant) : String :=
  match v with
  | .fromInt i => ToString.toString i
  | .fromString s => s
  | _ => ""

mutual
/-- The Qt operator `==` of `QVariant`, on two values of one type; values of two
types are taken to differ. -/
def QVariant.eq : QVariant → QVariant → Bool
  | .Invalid, .Invalid => true
  | .fromInt i, .fromInt j => i == j
  | .fromString s, .fromString t => s == t
  | .fromList l, .fromList k => QVariant.eq_list l k
  | .fromMap m, .fromMap n => QVariant.eq_map m n
  | _, _ => false
/-- The operator `==` of `QVariantList`. -/
def QVariant.eq_list : List QVariant → List QVariant → Bool
  | [], [] => true
  | a :: l, b :: k => QVariant.eq a b && QVariant.eq_list l k
  | _, _ => false
/-- The operator `==` of `QVariantMap`. -/
def QVariant.eq_map : List (String × QVariant) → List (String × QVariant) → Bool
  | [], [] => true
  | (s, a) :: l, (t, b) :: k => s == t && QVariant.eq a b && QVariant.eq_map l k
  | _, _ => false
end

/-- The Qt operator `<` of `QVariant`: two integers by value, otherwise the texts of
the two values, character by character. -/
def QVariant.lt (a b : QVariant) : Bool :=
  match a, b with
  | .fromInt i, .fromInt j => decide (i < j)
  | _, _ => decide (a.toString.data < b.toString.data)

/-- The Qt function `QString::startsWith`. -/
def QString.startsWith (s p : String) : Bool :=
  p.data.isPrefixOf s.data

/-- The Qt function `QString::contains`. -/
def QString.contains (s p : String) : Bool :=
  s.data.tails.any (fun t => p.data.isPrefixOf t)

/-- The structure `VariablesModel::TreeItem`. -/
inductive TreeItem where
  | mk (key : QVariant) (value : QVariant) (constant : Bool) (modified : Bool)
      (children : List TreeItem)
  deriving Repr

/-- The member `key`. -/
def TreeItem.key : TreeItem → QVariant
  | .mk key _ _ _ _ => key

/-- The member `value`. -/
def TreeItem.value : TreeItem → QVariant
  | .mk _ value _ _ _ => value

/-- The member `constant`. -/
def TreeItem.constant : TreeItem → Bool
  | .mk _ _ constant _ _ => constant

/-- The member `children`. -/
def TreeItem.children : TreeItem → List TreeItem
  | .mk _ _ _ _ children => children

/-- The assignment `item.constant = constant`. -/
def TreeItem.set_constant : TreeItem → Bool → TreeItem
  | .mk key value _ modified children, constant => .mk key value constant modified children

/-- The assignment `item.value = v`. -/
def TreeItem.set_value : TreeItem → QVariant → TreeItem
  | .mk key _ constant modified children, v => .mk key v constant modified children

/-- The assignment `item.key = key`. -/
def TreeItem.set_key : TreeItem → QVariant → TreeItem
  | .mk _ value constant modified children, key => .mk key value constant modified children

/-- The assignment of the children of an item. -/
def TreeItem.set_children : TreeItem → List TreeItem → TreeItem
  | .mk key value constant modified _, children => .mk key value constant modified children

/-- The item `std::make_unique<TreeItem>()`. -/
def TreeItem.new : TreeItem :=
  .mk .Invalid .Invalid false false []

/-- The child at a position; a pointer to a child always designates one. -/
def TreeItem.child (item : TreeItem) (node : Nat) : TreeItem :=
  (item.children.get? node).getD TreeItem.new

/-- The child at a position is replaced (the child was changed through a pointer). -/
def TreeItem.set_child (item : TreeItem) (node : Nat) (c : TreeItem) : TreeItem :=
  item.set_children (item.children.set node c)

/-- The function `lessThan`. -/
def lessThan (a b : QVariant) : Bool :=
  let sa := a.toString
  let sb := b.toString
  let ah := QString.startsWith sa "_" || QString.contains sa "._"
  let bh := QString.startsWith sb "_" || QString.contains sb "._"
  if ah == bh then a.lt b else bh

/-- The call `std::lower_bound(children.begin(), children.end(), key, ...)` with the
comparison `lessThan(ptr->key, key)`, on children partitioned by it as sorted children
are: the position of the first child whose key is not less than `key`. -/
def lower_bound (children : List TreeItem) (key : QVariant) : Nat :=
  (children.takeWhile (fun ptr => lessThan ptr.key key)).length

/-- The function `child_by_name`: the position of the child, if there is one. -/
def child_by_name (item : TreeItem) (key : QVariant) : Option Nat :=
  let it := lower_bound item.children key
  match item.children.get? it with
  | some c => if c.key.eq key then some it else none
  | none => none

/-- The function `find_or_create_child`: the item and the position of the child. -/
def find_or_create_child (item : TreeItem) (key : QVariant) : TreeItem × Nat :=
  let it := lower_bound item.children key
  let found :=
    match item.children.get? it with
    | some c => c.key.eq key
    | none => false
  if found then (item, it)
  else
    let newItem := TreeItem.new.set_key key
    (item.set_children (item.children.take it ++ newItem :: item.children.drop it), it)

mutual
/-- The member `setVariable(item, key, v, constant, parent)`; the result is the item
afterwards. -/
def setVariable (item : TreeItem) (key : QVariant) (v : QVariant) (constant : Bool) :
    TreeItem :=
  let created := (child_by_name item key).isNone
  let found :=
    match child_by_name item key with
    | some node => (item, node)
    | none => find_or_create_child item key
  let item1 := found.1
  let node := found.2
  let n0 := (item1.child node).set_constant constant
  if !created && n0.value.eq v then item1.set_child node n0
  else
    let n1 := n0.set_value v
    match v with
    | .fromList l =>
      let n2 := setVariable_list n1 0 l constant
      item1.set_child node (n2.set_children (n2.children.take l.length))
    | .fromMap m =>
      let keys := m.map Prod.fst
      let n2 := n1.set_children (n1.children.filter (fun c => !(keys.contains c.key.toString)))
      item1.set_child node (setVariable_map n2 m constant)
    | _ => item1.set_child node n1
/-- The loop of `setVariable` over the elements of a list, from the index `idx` on. -/
def setVariable_list (node : TreeItem) (idx : Nat) (l : List QVariant) (constant : Bool) :
    TreeItem :=
  match l with
  | [] => node
  | e :: rest =>
    setVariable_list (setVariable node (QVariant.fromInt idx) e constant) (idx + 1) rest constant
/-- The loop of `setVariable` over the keys of a map: `k` and `m[k]` are the entries
of the map, in order. -/
def setVariable_map (node : TreeItem) (m : List (String × QVariant)) (constant : Bool) :
    TreeItem :=
  match m with
  | [] => node
  | (k, e) :: rest =>
    setVariable_map (setVariable node (QVariant.fromString k) e constant) rest constant
end

/-- The keys of the children of the variable `name` of a root item, as texts. -/
def children_keys (root : TreeItem) (name : String) : List String :=
  match child_by_name root (QVariant.fromString name) with
  | some node => (root.child node).children.map (fun c => c.key.toString)
  | none => []

/-- The values of the children of the variable `name` of a root item, as texts. -/
def children_values (root : TreeItem) (name : String) : List String :=
  match child_by_name root (QVariant.fromString name) with
  | some node => (root.child node).children.map (fun c => c.value.toString)
  | none => []

/-- A root with the variable `v` set to the map `a: 1, b: 2`. -/
def sample_tree : TreeItem :=
  setVariable TreeItem.new (QVariant.fromString "v")
    (QVariant.fromMap [("a", QVariant.fromInt 1), ("b", QVariant.fromInt 2)]) false

/-- A root with the variable `l` set to the list `1, 2`. -/
def sample_list_tree : TreeItem :=
  setVariable TreeItem.new (QVariant.fromString "l")
    (QVariant.fromList [QVariant.fromInt 1, QVariant.fromInt 2]) false

/-! # Theorems -/

/-! ## Maps -/

theorem mem_map_erase (m : List (node_id × node_ref)) (id id' : node_id) (r : node_ref) :
    (id', r) ∈ map_erase m id ↔ (id', r) ∈ m ∧ id' ≠ id := by
  simp [map_erase, List.mem_filter]

theorem mem_map_assign (m : List (node_id × node_ref)) (id id' : node_id) (x r : node_ref) :
    (id', r) ∈ map_assign m id x ↔ (id' = id ∧ r = x) ∨ ((id', r) ∈ m ∧ id' ≠ id) := by
  simp [map_assign, mem_map_erase]

theorem map_find_mem (m : List (node_id × node_ref)) (id : node_id) (r : node_ref)
    (h : map_find m id = some r) : (id, r) ∈ m := by
  induction m with
  | nil => simp [map_find] at h
  | cons p m ih =>
    obtain ⟨k, v⟩ := p
    unfold map_find at h ih
    rw [List.lookup_cons] at h
    by_cases hk : id = k
    · subst hk
      simp at h
      simp [h]
    · have : (id == k) = false := by simpa using hk
      rw [this] at h
      simp only [List.mem_cons]
      exact Or.inr (ih h)

theorem map_contains_mem (m : List (node_id × node_ref)) (id : node_id)
    (h : map_contains m id = true) : ∃ r, (id, r) ∈ m := by
  unfold map_contains at h
  cases hf : map_find m id with
  | none => simp [hf] at h
  | some r => exact ⟨r, map_find_mem m id r hf⟩

theorem map_find_erase_self (m : List (node_id × node_ref)) (id : node_id) :
    map_find (map_erase m id) id = none := by
  induction m with
  | nil => rfl
  | cons p m ih =>
    obtain ⟨k, v⟩ := p
    unfold map_find map_erase at *
    by_cases hk : k = id
    · subst hk
      simpa [List.filter_cons] using ih
    · have h1 : (k != id) = true := by simpa using hk
      have h2 : (id == k) = false := by simpa using (Ne.symm hk)
      simp only [List.filter_cons, h1, if_true, List.lookup_cons, h2]
      exact ih

theorem map_contains_erase_self (m : List (node_id × node_ref)) (id : node_id) :
    map_contains (map_erase m id) id = false := by
  simp [map_contains, map_find_erase_self]

theorem map_find_assign_self (m : List (node_id × node_ref)) (id : node_id) (r : node_ref) :
    map_find (map_assign m id r) id = some r := by
  simp [map_find, map_assign, List.lookup_cons]

theorem map_contains_assign_self (m : List (node_id × node_ref)) (id : node_id) (r : node_ref) :
    map_contains (map_assign m id r) id = true := by
  simp [map_contains, map_find_assign_self]

/-! ## The lock of a node -/

theorem holder_store (nodes : node_ref → Option aseba_node) (r x : node_ref) (n : aseba_node) :
    holder (store nodes r n) x = if x = r then n.m_connected_app else holder nodes x := by
  unfold holder store
  by_cases h : x = r <;> simp [h]

theorem store_isSome (nodes : node_ref → Option aseba_node) (r x : node_ref) (n : aseba_node) :
    (nodes x).isSome = true → (store nodes r n x).isSome = true := by
  intro h
  unfold store
  by_cases hx : x = r <;> simp [hx, h]

theorem lock_result (n : aseba_node) (app : endpoint_id) :
    ((n.lock app).2 = true ∧ (n.lock app).1.m_connected_app = some app ∧
        (n.m_connected_app = none ∨ n.m_connected_app = some app)) ∨
      ((n.lock app).2 = false ∧ (n.lock app).1 = n ∧
        ∃ other, other ≠ app ∧ n.m_connected_app = some other) := by
  unfold aseba_node.lock
  cases hh : n.m_connected_app with
  | none => simp
  | some holder =>
    by_cases he : holder = app
    · simp [he, hh]
    · simp [he]

theorem unlock_result (n : aseba_node) (app : endpoint_id) :
    (n.m_connected_app = some app ∧ (n.unlock app).2 = true ∧
        (n.unlock app).1.m_connected_app = none) ∨
      (n.m_connected_app ≠ some app ∧ (n.unlock app).2 = false ∧ (n.unlock app).1 = n) := by
  unfold aseba_node.unlock
  by_cases h : n.m_connected_app = some app <;> simp [h]

/-- What `node->unlock(this)` does to the holders: the node loses the holder `self`,
every other holder stays. -/
theorem node_unlock_holder (node : node_ref) (c : context) (x : node_ref) :
    holder (node_unlock node c).1.nodes x =
      if x = node ∧ holder c.nodes node = some c.self then none else holder c.nodes x := by
  unfold node_unlock
  cases hn : c.nodes node with
  | none => simp [holder, hn]
  | some n =>
    simp only [holder_store]
    by_cases hx : x = node
    · subst hx
      rcases unlock_result n c.self with ⟨h1, _, h3⟩ | ⟨h1, _, h3⟩
      · simp [holder, hn, h1, h3]
      · simp [holder, hn, h1, h3]
    · simp [hx]

theorem node_unlock_frame (node : node_ref) (c : context) :
    (node_unlock node c).1.self = c.self ∧ (node_unlock node c).1.reg = c.reg ∧
      (node_unlock node c).1.ep = c.ep ∧ (node_unlock node c).1.cfg = c.cfg := by
  unfold node_unlock
  cases c.nodes node <;> simp

theorem node_lock_frame (node : node_ref) (c : context) :
    (node_lock node c).1.self = c.self ∧ (node_lock node c).1.reg = c.reg ∧
      (node_lock node c).1.ep = c.ep ∧ (node_lock node c).1.cfg = c.cfg := by
  unfold node_lock
  cases c.nodes node <;> simp

/-- What `node->lock(this)` does to the holders when it succeeds. -/
theorem node_lock_holder_ok (node : node_ref) (c : context) (h : (node_lock node c).2 = true)
    (x : node_ref) :
    (holder c.nodes node = none ∨ holder c.nodes node = some c.self) ∧
      holder (node_lock node c).1.nodes x =
        if x = node then some c.self else holder c.nodes x := by
  unfold node_lock at h ⊢
  cases hn : c.nodes node with
  | none => simp [hn] at h
  | some n =>
    simp only [hn] at h
    simp only [holder_store]
    rcases lock_result n c.self with ⟨_, h2, h3⟩ | ⟨h1, _, _⟩
    · refine ⟨by simpa [holder, hn] using h3, ?_⟩
      by_cases hx : x = node <;> simp [hx, h2]
    · rw [h1] at h
      exact absurd h (by simp)

/-- What `node->lock(this)` does when it fails: nothing. -/
theorem node_lock_holder_fail (node : node_ref) (c : context)
    (h : (node_lock node c).2 = false) (x : node_ref) :
    holder (node_lock node c).1.nodes x = holder c.nodes x := by
  unfold node_lock at h ⊢
  cases hn : c.nodes node with
  | none => rfl
  | some n =>
    simp only [hn] at h
    simp only [holder_store]
    rcases lock_result n c.self with ⟨h1, _, _⟩ | ⟨_, h2, _⟩
    · rw [h1] at h
      exact absurd h (by simp)
    · by_cases hx : x = node
      · subst hx
        simp [h2, holder, hn]
      · simp [hx]

/-! ## Lock exclusivity -/

@[simp] theorem write_self (c : context) (m : message) : (c.write m).self = c.self := rfl

@[simp] theorem write_reg (c : context) (m : message) : (c.write m).reg = c.reg := rfl

@[simp] theorem write_cfg (c : context) (m : message) : (c.write m).cfg = c.cfg := rfl

@[simp] theorem write_nodes (c : context) (m : message) : (c.write m).nodes = c.nodes := rfl

@[simp] theorem write_message_queue (m : message) (e : application_endpoint) :
    (write_message m e).m_queue = e.m_queue ++ [m] := by
  unfold write_message do_write_message
  simp only
  split
  · rfl
  · split <;> rfl

@[simp] theorem write_message_locked (m : message) (e : application_endpoint) :
    (write_message m e).m_locked_nodes = e.m_locked_nodes := by
  unfold write_message do_write_message
  simp only
  split
  · rfl
  · split <;> rfl

@[simp] theorem write_queue (c : context) (m : message) :
    (c.write m).ep.m_queue = c.ep.m_queue ++ [m] := by
  simp [context.write, context.with_ep]

@[simp] theorem write_locked (c : context) (m : message) :
    (c.write m).ep.m_locked_nodes = c.ep.m_locked_nodes := by
  simp [context.write, context.with_ep]

theorem write_owns_locks (c : context) (m : message) (h : c.owns_locks) :
    (c.write m).owns_locks := by
  intro id r hm
  simpa using h id r (by simpa using hm)

theorem node_from_id_some (c : context) (id : node_id) (r : node_ref)
    (h : node_from_id c id = some r) :
    map_find c.reg id = some r ∧ (c.nodes r).isSome = true := by
  unfold node_from_id at h
  cases hf : map_find c.reg id with
  | none => simp [hf] at h
  | some x =>
    simp only [hf, weak_lock] at h
    by_cases hx : (c.nodes x).isSome = true
    · simp [hx] at h
      subst h
      exact ⟨rfl, hx⟩
    · simp [hx] at h

theorem lock_node_safe (request_id : Nat) (id : node_id) : lock_safe (lock_node request_id id) := by
  intro c _ hown
  unfold lock_node
  cases hn : node_from_id c id with
  | none => exact ⟨rfl, rfl, rfl, write_owns_locks c _ hown, fun _ _ _ h => h⟩
  | some node =>
    obtain ⟨hreg, _⟩ := node_from_id_some c id node hn
    simp only
    generalize hc1 : c.with_ep
      (fun e => { e with m_locked_nodes := map_assign e.m_locked_nodes id node }) = c1
    have hself : c1.self = c.self := by rw [← hc1]; rfl
    have hnodes : c1.nodes = c.nodes := by rw [← hc1]; rfl
    have hregs : c1.reg = c.reg := by rw [← hc1]; rfl
    have hcfg : c1.cfg = c.cfg := by rw [← hc1]; rfl
    have hlocked : c1.ep.m_locked_nodes = map_assign c.ep.m_locked_nodes id node := by
      rw [← hc1]; rfl
    obtain ⟨f1, f2, f3, f4⟩ := node_lock_frame node c1
    cases hres : (node_lock node c1).2 with
    | false =>
      have hh := node_lock_holder_fail node c1 hres
      simp only [Bool.not_false, if_true]
      refine ⟨by simp [context.with_ep, f1, hself], by simp [context.with_ep, f2, hregs],
        by simp [context.with_ep, f4, hcfg], ?_, ?_⟩
      · intro id' r' hm
        simp only [write_locked, context.with_ep, f3, hlocked, mem_map_erase, mem_map_assign] at hm
        obtain ⟨h1 | h1, h2⟩ := hm
        · exact absurd h1.1 h2
        · have := hown id' r' h1.1
          simp only [write_self, write_reg, write_nodes, context.with_ep, f1, f2, hself, hregs]
          exact ⟨this.1, by rw [hh, hnodes]; exact this.2⟩
      · intro x other _ hx
        simp only [write_nodes, context.with_ep]
        rw [hh, hnodes]
        exact hx
    | true =>
      have hh := node_lock_holder_ok node c1 hres
      simp only [Bool.not_true, Bool.false_eq_true, if_false]
      refine ⟨by simp [f1, hself], by simp [f2, hregs], by simp [f4, hcfg], ?_, ?_⟩
      · intro id' r' hm
        simp only [write_locked, f3, hlocked, mem_map_assign] at hm
        simp only [write_self, write_reg, write_nodes, f1, f2, hself, hregs]
        rcases hm with ⟨h1, h2⟩ | ⟨h1, _⟩
        · subst h1 h2
          refine ⟨hreg, ?_⟩
          rw [(hh r').2]
          simp [hself]
        · have := hown id' r' h1
          refine ⟨this.1, ?_⟩
          rw [(hh r').2, hself, hnodes]
          by_cases hr : r' = node
          · simp [hr]
          · simpa [hr] using this.2
      · intro x other hne hx
        simp only [write_nodes]
        rw [(hh x).2, hnodes]
        by_cases hxn : x = node
        · subst hxn
          have := (hh x).1
          rw [hnodes, hself, hx] at this
          rcases this with h | h
          · exact absurd h (by simp)
          · exact absurd (Option.some.inj h) hne
        · simpa [hxn] using hx

theorem unlock_node_safe (request_id : Nat) (id : node_id) :
    lock_safe (unlock_node request_id id) := by
  intro c hinj hown
  unfold unlock_node
  cases hf : map_find c.ep.m_locked_nodes id with
  | none => exact ⟨rfl, rfl, rfl, write_owns_locks c _ hown, fun _ _ _ h => h⟩
  | some wp =>
    obtain ⟨hreg, hhold⟩ := hown id wp (map_find_mem _ _ _ hf)
    have halive : weak_lock c.nodes wp = some wp := by
      unfold weak_lock
      unfold holder at hhold
      cases hn : c.nodes wp with
      | none => simp [hn] at hhold
      | some n => simp
    simp only [halive]
    generalize hc1 : c.with_ep
      (fun e => { e with m_locked_nodes := map_erase e.m_locked_nodes id }) = c1
    have hself : c1.self = c.self := by rw [← hc1]; rfl
    have hnodes : c1.nodes = c.nodes := by rw [← hc1]; rfl
    have hregs : c1.reg = c.reg := by rw [← hc1]; rfl
    have hcfg : c1.cfg = c.cfg := by rw [← hc1]; rfl
    have hlocked : c1.ep.m_locked_nodes = map_erase c.ep.m_locked_nodes id := by
      rw [← hc1]; rfl
    obtain ⟨f1, f2, f3, f4⟩ := node_unlock_frame wp c1
    have hh := node_unlock_holder wp c1
    have key : ∀ (m : message),
        ((node_unlock wp c1).1.write m).self = c.self ∧
        ((node_unlock wp c1).1.write m).reg = c.reg ∧
        ((node_unlock wp c1).1.write m).cfg = c.cfg ∧
        ((node_unlock wp c1).1.write m).owns_locks ∧
        ∀ x other, other ≠ c.self → holder c.nodes x = some other →
          holder ((node_unlock wp c1).1.write m).nodes x = some other := by
      intro m
      refine ⟨by simp [f1, hself], by simp [f2, hregs], by simp [f4, hcfg], ?_, ?_⟩
      · intro id' r' hm
        simp only [write_locked, f3, hlocked, mem_map_erase] at hm
        simp only [write_self, write_reg, write_nodes, f1, f2, hself, hregs]
        obtain ⟨h1, h2⟩ := hown id' r' hm.1
        refine ⟨h1, ?_⟩
        have hne : r' ≠ wp := by
          intro he
          subst he
          exact hm.2 (hinj id' id r' h1 hreg)
        rw [hh r', hnodes]
        simpa [hne] using h2
      · intro x other hne hx
        simp only [write_nodes]
        rw [hh x, hnodes, hself]
        by_cases hxw : x = wp
        · subst hxw
          rw [hhold] at hx
          exact absurd (Option.some.inj hx).symm hne
        · simpa [hxw] using hx
    cases hres : (node_unlock wp c1).2 with
    | false => simpa using key _
    | true => simpa using key _

theorem node_disconnected_safe (node : node_ref) (id : node_id) :
    lock_safe (do_node_changed node id status.disconnected) := by
  intro c _ hown
  unfold do_node_changed
  have hst : (if status.disconnected = status.busy ∧ (get_locked_node c id).isSome = true
      then status.ready else status.disconnected) = status.disconnected := by
    simp
  simp only [hst]
  cases hn : c.nodes node with
  | none => exact ⟨rfl, rfl, rfl, hown, fun _ _ _ h => h⟩
  | some n =>
    simp only [if_true]
    refine ⟨rfl, rfl, rfl, ?_, fun _ _ _ h => h⟩
    intro id' r' hm
    simp only [context.with_ep, write_locked, mem_map_erase] at hm
    exact hown id' r' hm.1

theorem unlock_entry_frame (c : context) (p : node_id × node_ref) :
    (unlock_entry c p).self = c.self ∧ (unlock_entry c p).reg = c.reg ∧
      (unlock_entry c p).cfg = c.cfg ∧ (unlock_entry c p).ep = c.ep := by
  unfold unlock_entry
  cases weak_lock c.nodes p.2 with
  | none => exact ⟨rfl, rfl, rfl, rfl⟩
  | some ptr =>
    obtain ⟨f1, f2, f3, f4⟩ := node_unlock_frame ptr c
    exact ⟨f1, f2, f4, f3⟩

/-- What one turn of the destructor's loop does to the holders. -/
theorem unlock_entry_holder (c : context) (p : node_id × node_ref) (x : node_ref) :
    holder (unlock_entry c p).nodes x =
      if x = p.2 ∧ holder c.nodes p.2 = some c.self then none else holder c.nodes x := by
  unfold unlock_entry weak_lock
  cases hn : c.nodes p.2 with
  | none =>
    have : holder c.nodes p.2 = none := by simp [holder, hn]
    simp [this]
  | some n =>
    simp only [Option.isSome_some, if_true]
    exact node_unlock_holder p.2 c x

/-- What the destructor's loop does to the holders: the nodes of the list held by
the endpoint lose their holder, every other node keeps its own. -/
theorem unlock_all_holder (l : List (node_id × node_ref)) (c : context) (x : node_ref) :
    (l.foldl unlock_entry c).self = c.self ∧
    holder (l.foldl unlock_entry c).nodes x =
      if x ∈ l.map Prod.snd ∧ holder c.nodes x = some c.self then none
      else holder c.nodes x := by
  induction l generalizing c with
  | nil => simp
  | cons p l ih =>
    obtain ⟨f1, _, _, _⟩ := unlock_entry_frame c p
    obtain ⟨i1, i2⟩ := ih (unlock_entry c p)
    simp only [List.foldl_cons]
    refine ⟨by rw [i1, f1], ?_⟩
    rw [i2, f1, unlock_entry_holder]
    obtain ⟨k, v⟩ := p
    by_cases hx : x = v
    · subst hx
      by_cases hh : holder c.nodes x = some c.self
      · simp [hh]
      · simp [hh]
    · have h1 : ¬ (x = v ∧ holder c.nodes v = some c.self) := fun h => hx h.1
      have h2 : x ∈ v :: List.map Prod.snd l ↔ x ∈ List.map Prod.snd l := by
        simp [hx]
      simp only [List.map_cons, if_neg h1, h2]

theorem destroy_holder (c : context) (x : node_ref) :
    holder (destroy c).nodes x =
      if x ∈ c.ep.m_locked_nodes.map Prod.snd ∧ holder c.nodes x = some c.self then none
      else holder c.nodes x := by
  unfold destroy
  exact (unlock_all_holder _ _ x).2

theorem call_locks_held (b : broker) (a : endpoint_id) (f : context → context)
    (hf : lock_safe f) (hinj : registry_injective b.reg) (h : b.locks_held) :
    (b.call a f).locks_held ∧ (b.call a f).reg = b.reg := by
  unfold broker.call
  cases he : b.endpoints a with
  | none => exact ⟨h, rfl⟩
  | some e =>
    have hown : context.owns_locks
        { self := a, cfg := b.cfg, reg := b.reg, nodes := b.nodes, ep := e } :=
      fun id r hm => h a e id r he hm
    obtain ⟨g1, g2, _, g4, g5⟩ := hf _ hinj hown
    refine ⟨?_, rfl⟩
    intro a' e' id r he' hm
    simp only at he' ⊢
    by_cases ha : a' = a
    · subst ha
      simp only [if_true, Option.some.injEq] at he'
      subst he'
      have := g4 id r hm
      rw [g1, g2] at this
      exact this
    · simp only [ha, if_false] at he'
      obtain ⟨h1, h2⟩ := h a' e' id r he' hm
      exact ⟨h1, g5 r a' ha h2⟩

theorem teardown_locks_held (b : broker) (a : endpoint_id) (h : b.locks_held) :
    (b.teardown a).locks_held ∧ (b.teardown a).reg = b.reg := by
  unfold broker.teardown
  cases he : b.endpoints a with
  | none => exact ⟨h, rfl⟩
  | some e =>
    refine ⟨?_, rfl⟩
    intro a' e' id r he' hm
    simp only at he' ⊢
    by_cases ha : a' = a
    · simp [ha] at he'
    · simp only [ha, if_false] at he'
      obtain ⟨h1, h2⟩ := h a' e' id r he' hm
      refine ⟨h1, ?_⟩
      rw [destroy_holder]
      have : ¬ (r ∈ List.map Prod.snd e.m_locked_nodes ∧ holder b.nodes r = some a) := by
        rintro ⟨_, h3⟩
        rw [h2] at h3
        exact ha (Option.some.inj h3)
      simp only [if_neg this]
      exact h2

theorem step_locks_held (b : broker) (op : lock_op) (hinj : registry_injective b.reg)
    (h : b.locks_held) : (b.step op).locks_held ∧ (b.step op).reg = b.reg := by
  cases op with
  | lock_node a request_id id => exact call_locks_held b a _ (lock_node_safe request_id id) hinj h
  | unlock_node a request_id id =>
    exact call_locks_held b a _ (unlock_node_safe request_id id) hinj h
  | node_disconnected a node id =>
    exact call_locks_held b a _ (node_disconnected_safe node id) hinj h
  | teardown a => exact teardown_locks_held b a h

theorem run_locks_held (ops : List lock_op) (b : broker) (hinj : registry_injective b.reg)
    (h : b.locks_held) : (b.run ops).locks_held ∧ (b.run ops).reg = b.reg := by
  induction ops generalizing b with
  | nil => exact ⟨h, rfl⟩
  | cons op ops ih =>
    obtain ⟨h1, h2⟩ := step_locks_held b op hinj h
    obtain ⟨h3, h4⟩ := ih (b.step op) (by rw [h2]; exact hinj) h1
    exact ⟨h3, by rw [← h2, ← h4]; rfl⟩

theorem no_locks_locks_held (b : broker) (h : b.no_locks) : b.locks_held := by
  intro a e id r he hm
  rw [h a e he] at hm
  exact absurd hm (List.not_mem_nil _)

theorem locks_held_exclusive (b : broker) (h : b.locks_held) : b.exclusive := by
  intro a₁ a₂ e₁ e₂ id h₁ h₂ c₁ c₂
  obtain ⟨r₁, m₁⟩ := map_contains_mem _ _ c₁
  obtain ⟨r₂, m₂⟩ := map_contains_mem _ _ c₂
  obtain ⟨k₁, l₁⟩ := h a₁ e₁ id r₁ h₁ m₁
  obtain ⟨k₂, l₂⟩ := h a₂ e₂ id r₂ h₂ m₂
  rw [k₁] at k₂
  have := Option.some.inj k₂
  subst this
  rw [l₁] at l₂
  exact Option.some.inj l₂

/-- C1 (lock exclusivity). On a registry that gives each node object one id, start
from endpoints without locks and let any endpoints run any finite sequence of
`lock_node`, `unlock_node`, node-disconnected notifications and teardowns: after
every step (after the first `k` operations, for every `k`) at most one endpoint has a
given node id in its `m_locked_nodes`. The lock of a node is the spec's `lock_holder`,
no holder or one endpoint. -/
theorem C1_lock_exclusivity (b : broker) (hinj : registry_injective b.reg) (h0 : b.no_locks)
    (ops : List lock_op) (k : Nat) : (b.run (ops.take k)).exclusive :=
  locks_held_exclusive _ (run_locks_held _ b hinj (no_locks_locks_held b h0)).1

theorem sample_reg_injective : registry_injective sample_reg := by
  intro id₁ id₂ r h₁ h₂
  simp only [sample_reg, map_find, List.lookup_cons, List.lookup_nil] at h₁ h₂
  by_cases e₁ : id₁ = 7
  · by_cases e₂ : id₂ = 7
    · rw [e₁, e₂]
    · have : (id₂ == 7) = false := by simpa using e₂
      simp [this] at h₂
  · have : (id₁ == 7) = false := by simpa using e₁
    simp [this] at h₁

theorem sample_broker_no_locks : sample_broker.no_locks := by
  intro a e h
  simp only [sample_broker] at h
  split at h
  · simp only [Option.some.injEq] at h
    rw [← h]
    rfl
  · exact absurd h (by simp)

/-- Witness of C1: in the sample run endpoint 1 has node 7 after the second
operation, endpoint 2 does not, and the locked sets are exclusive. -/
theorem C1_lock_exclusivity_witness :
    registry_injective sample_broker.reg ∧ sample_broker.no_locks ∧
      map_contains ((sample_broker.run (sample_ops.take 2)).endpoint 1).m_locked_nodes 7 = true ∧
      map_contains ((sample_broker.run (sample_ops.take 2)).endpoint 2).m_locked_nodes 7 = false ∧
      (sample_broker.run (sample_ops.take 2)).exclusive :=
  ⟨sample_reg_injective, sample_broker_no_locks, by decide, by decide,
    C1_lock_exclusivity sample_broker sample_reg_injective sample_broker_no_locks sample_ops 2⟩

/-! ## The answer to a lock request -/

theorem node_lock_result (node : node_ref) (c : context) :
    (node_lock node c).2 =
      decide (holder c.nodes node = none ∧ (c.nodes node).isSome = true ∨
        holder c.nodes node = some c.self) := by
  unfold node_lock holder
  cases hn : c.nodes node with
  | none => simp
  | some n =>
    simp only [Option.isSome_some, and_true]
    rcases lock_result n c.self with ⟨h1, _, h3⟩ | ⟨h1, _, other, hne, ho⟩
    · rw [h1]
      exact (decide_eq_true h3).symm
    · rw [h1, ho]
      symm
      apply decide_eq_false
      rintro (h | h)
      · exact absurd h (by simp)
      · exact hne (Option.some.inj h)

theorem lock_node_some (r : Nat) (n : node_id) (c : context) (node : node_ref)
    (h : node_from_id c n = some node) (c1 : context)
    (hc1 : c.with_ep
      (fun e => { e with m_locked_nodes := map_assign e.m_locked_nodes n node }) = c1) :
    lock_node r n c =
      if (node_lock node c1).2 = true then
        (node_lock node c1).1.write (create_ack_response r)
      else
        ((node_lock node c1).1.with_ep
          (fun e => { e with m_locked_nodes := map_erase e.m_locked_nodes n })).write
          (create_error_response r ErrorType.node_busy) := by
  subst hc1
  unfold lock_node
  simp only [h]
  generalize c.with_ep
      (fun e => { e with m_locked_nodes := map_assign e.m_locked_nodes n node }) = c1
  cases (node_lock node c1).2 <;> simp

/-- The three outcomes of `lock_node`: unknown node, lock granted, node busy. -/
theorem lock_node_cases (r : Nat) (n : node_id) (c : context) :
    (node_from_id c n = none →
      (lock_node r n c).ep.m_queue = c.ep.m_queue ++ [message.Error r ErrorType.unknown_node] ∧
        (lock_node r n c).ep.m_locked_nodes = c.ep.m_locked_nodes) ∧
    (∀ node, node_from_id c n = some node →
      (holder c.nodes node = none ∨ holder c.nodes node = some c.self) →
      (lock_node r n c).ep.m_queue = c.ep.m_queue ++ [message.RequestCompleted r] ∧
        map_contains (lock_node r n c).ep.m_locked_nodes n = true) ∧
    (∀ node other, node_from_id c n = some node → holder c.nodes node = some other →
      other ≠ c.self →
      (lock_node r n c).ep.m_queue = c.ep.m_queue ++ [message.Error r ErrorType.node_busy] ∧
        map_contains (lock_node r n c).ep.m_locked_nodes n = false) := by
  refine ⟨?_, ?_, ?_⟩
  · intro h
    simp [lock_node, h, create_error_response]
  · intro node h hh
    obtain ⟨_, halive⟩ := node_from_id_some c n node h
    rw [lock_node_some r n c node h _ rfl]
    generalize hc1 : c.with_ep
      (fun e => { e with m_locked_nodes := map_assign e.m_locked_nodes n node }) = c1
    have hself : c1.self = c.self := by rw [← hc1]; rfl
    have hnodes : c1.nodes = c.nodes := by rw [← hc1]; rfl
    have hq : c1.ep.m_queue = c.ep.m_queue := by rw [← hc1]; rfl
    have hlocked : c1.ep.m_locked_nodes = map_assign c.ep.m_locked_nodes n node := by
      rw [← hc1]; rfl
    have hres : (node_lock node c1).2 = true := by
      rw [node_lock_result, hnodes, hself]
      apply decide_eq_true
      rcases hh with hh | hh
      · exact Or.inl ⟨hh, halive⟩
      · exact Or.inr hh
    obtain ⟨_, _, f3, _⟩ := node_lock_frame node c1
    simp only [hres, if_true, write_queue, write_locked, f3, hq, hlocked, create_ack_response]
    exact ⟨trivial, map_contains_assign_self _ _ _⟩
  · intro node other h hh hne
    rw [lock_node_some r n c node h _ rfl]
    generalize hc1 : c.with_ep
      (fun e => { e with m_locked_nodes := map_assign e.m_locked_nodes n node }) = c1
    have hself : c1.self = c.self := by rw [← hc1]; rfl
    have hnodes : c1.nodes = c.nodes := by rw [← hc1]; rfl
    have hq : c1.ep.m_queue = c.ep.m_queue := by rw [← hc1]; rfl
    have hres : (node_lock node c1).2 = false := by
      rw [node_lock_result, hnodes, hself, hh]
      apply decide_eq_false
      rintro (⟨h1, _⟩ | h1)
      · exact absurd h1 (by simp)
      · exact hne (Option.some.inj h1)
    obtain ⟨_, _, f3, _⟩ := node_lock_frame node c1
    simp only [hres, Bool.false_eq_true, if_false, write_queue, write_locked, context.with_ep,
      f3, hq, create_error_response]
    exact ⟨trivial, map_contains_erase_self _ _⟩

/-- C2 (the answer to `LockNode`). For every request id `r` and node id `n` handled
by `lock_node`: if the registry has no live node for `n`, exactly `Error{r,
unknown_node}` is enqueued and `m_locked_nodes` is unchanged; if the node has no
holder or is held by this endpoint, exactly `RequestCompleted{r}` is enqueued and `n`
is in `m_locked_nodes` afterwards; if it is held by another endpoint, exactly
`Error{r, node_busy}` is enqueued and `n` is not in `m_locked_nodes` afterwards. -/
theorem C2_lock_node_answer (r : Nat) (n : node_id) (c : context) :
    (node_from_id c n = none →
      (lock_node r n c).ep.m_queue = c.ep.m_queue ++ [message.Error r ErrorType.unknown_node] ∧
        (lock_node r n c).ep.m_locked_nodes = c.ep.m_locked_nodes) ∧
    (∀ node, node_from_id c n = some node →
      (holder c.nodes node = none ∨ holder c.nodes node = some c.self) →
      (lock_node r n c).ep.m_queue = c.ep.m_queue ++ [message.RequestCompleted r] ∧
        map_contains (lock_node r n c).ep.m_locked_nodes n = true) ∧
    (∀ node other, node_from_id c n = some node → holder c.nodes node = some other →
      other ≠ c.self →
      (lock_node r n c).ep.m_queue = c.ep.m_queue ++ [message.Error r ErrorType.node_busy] ∧
        map_contains (lock_node r n c).ep.m_locked_nodes n = false) :=
  lock_node_cases r n c

/-- Witness of C2: endpoint 2 asks for the unknown node 99, for the free node 7, for
the node 7 it already holds, and for the node 7 that endpoint 1 holds. -/
theorem C2_lock_node_answer_witness :
    ((lock_node 5 99 (sample_context 2)).ep.m_queue = [message.Error 5 ErrorType.unknown_node] ∧
      (lock_node 5 99 (sample_context 2)).ep.m_locked_nodes = []) ∧
    ((lock_node 5 7 (sample_context 2)).ep.m_queue = [message.RequestCompleted 5] ∧
      map_contains (lock_node 5 7 (sample_context 2)).ep.m_locked_nodes 7 = true) ∧
    ((lock_node 5 7 (held_context 2 2)).ep.m_queue = [message.RequestCompleted 5] ∧
      map_contains (lock_node 5 7 (held_context 2 2)).ep.m_locked_nodes 7 = true) ∧
    ((lock_node 5 7 (held_context 2 1)).ep.m_queue = [message.Error 5 ErrorType.node_busy] ∧
      map_contains (lock_node 5 7 (held_context 2 1)).ep.m_locked_nodes 7 = false) :=
  ⟨(C2_lock_node_answer 5 99 (sample_context 2)).1 (by decide),
    (C2_lock_node_answer 5 7 (sample_context 2)).2.1 0 (by decide) (Or.inl (by decide)),
    (C2_lock_node_answer 5 7 (held_context 2 2)).2.1 0 (by decide) (Or.inr (by decide)),
    (C2_lock_node_answer 5 7 (held_context 2 1)).2.2 0 1 (by decide) (by decide) (by decide)⟩

/-! ## Lock release when an endpoint goes away -/

theorem node_unlock_alive (node : node_ref) (c : context) (x : node_ref) :
    ((node_unlock node c).1.nodes x).isSome = (c.nodes x).isSome := by
  unfold node_unlock
  cases hn : c.nodes node with
  | none => rfl
  | some n =>
    simp only [store]
    by_cases hx : x = node
    · simp [hx, hn]
    · simp [hx]

theorem node_lock_alive (node : node_ref) (c : context) (x : node_ref) :
    ((node_lock node c).1.nodes x).isSome = (c.nodes x).isSome := by
  unfold node_lock
  cases hn : c.nodes node with
  | none => rfl
  | some n =>
    simp only [store]
    by_cases hx : x = node
    · simp [hx, hn]
    · simp [hx]

theorem node_unlock_free (node : node_ref) (c : context) (x : node_ref)
    (h : free c.nodes x) : free (node_unlock node c).1.nodes x := by
  refine ⟨by rw [node_unlock_alive]; exact h.1, ?_⟩
  rw [node_unlock_holder]
  split
  · rfl
  · exact h.2

theorem unlock_node_free (request_id : Nat) (id : node_id) (c : context) (x : node_ref)
    (h : free c.nodes x) : free (unlock_node request_id id c).nodes x := by
  unfold unlock_node
  cases map_find c.ep.m_locked_nodes id with
  | none => exact h
  | some wp =>
    simp only
    cases weak_lock c.nodes wp with
    | none => exact h
    | some n =>
      simp only
      generalize hc1 : c.with_ep
        (fun e => { e with m_locked_nodes := map_erase e.m_locked_nodes id }) = c1
      have hnodes : c1.nodes = c.nodes := by rw [← hc1]; rfl
      have := node_unlock_free n c1 x (by rw [hnodes]; exact h)
      cases (node_unlock n c1).2 <;> simpa using this

theorem node_disconnected_nodes (node : node_ref) (id : node_id) (st : status) (c : context) :
    (do_node_changed node id st c).nodes = c.nodes := by
  unfold do_node_changed
  simp only
  cases c.nodes node with
  | none => rfl
  | some n =>
    simp only
    split <;> split <;> rfl

theorem unlock_all_alive (l : List (node_id × node_ref)) (c : context) (x : node_ref) :
    ((l.foldl unlock_entry c).nodes x).isSome = (c.nodes x).isSome := by
  induction l generalizing c with
  | nil => rfl
  | cons p l ih =>
    simp only [List.foldl_cons]
    rw [ih]
    unfold unlock_entry
    cases weak_lock c.nodes p.2 with
    | none => rfl
    | some ptr => exact node_unlock_alive ptr c x

theorem destroy_free (c : context) (x : node_ref) (h : free c.nodes x) :
    free (destroy c).nodes x := by
  refine ⟨?_, ?_⟩
  · unfold destroy
    rw [unlock_all_alive]
    exact h.1
  · rw [destroy_holder]
    split
    · rfl
    · exact h.2

theorem lock_node_free (request_id : Nat) (id : node_id) (c : context) (x : node_ref)
    (hx : map_find c.reg id ≠ some x) (h : free c.nodes x) :
    free (lock_node request_id id c).nodes x := by
  cases hn : node_from_id c id with
  | none =>
    unfold lock_node
    simp only [hn]
    exact h
  | some node =>
    obtain ⟨hreg, _⟩ := node_from_id_some c id node hn
    have hne : x ≠ node := by
      intro he
      subst he
      exact hx hreg
    rw [lock_node_some request_id id c node hn _ rfl]
    generalize hc1 : c.with_ep
      (fun e => { e with m_locked_nodes := map_assign e.m_locked_nodes id node }) = c1
    have hnodes : c1.nodes = c.nodes := by rw [← hc1]; rfl
    have halive := node_lock_alive node c1 x
    cases hres : (node_lock node c1).2 with
    | false =>
      have hh := node_lock_holder_fail node c1 hres x
      simp only [Bool.false_eq_true, if_false, write_nodes, context.with_ep]
      exact ⟨by rw [halive, hnodes]; exact h.1, by rw [hh, hnodes]; exact h.2⟩
    | true =>
      have hh := (node_lock_holder_ok node c1 hres x).2
      simp only [if_true, write_nodes]
      refine ⟨by rw [halive, hnodes]; exact h.1, ?_⟩
      rw [hh, hnodes]
      simpa [hne] using h.2

theorem call_nodes (b : broker) (a : endpoint_id) (f : context → context) (x : node_ref)
    (hf : ∀ c, c.reg = b.reg → free c.nodes x → free (f c).nodes x) (h : free b.nodes x) :
    free (b.call a f).nodes x := by
  unfold broker.call
  cases b.endpoints a with
  | none => exact h
  | some e => exact hf _ rfl h

/-- A free node stays free through every operation that is not a lock request for
the id the registry gives it. -/
theorem step_free (b : broker) (op : lock_op) (id : node_id) (x : node_ref)
    (hinj : registry_injective b.reg) (hreg : map_find b.reg id = some x)
    (hop : op.locks id = false) (h : free b.nodes x) : free (b.step op).nodes x := by
  cases op with
  | lock_node a request_id id' =>
    have hne : id' ≠ id := by simpa [lock_op.locks] using hop
    refine call_nodes b a _ x (fun c hc hfree => lock_node_free request_id id' c x ?_ hfree) h
    rw [hc]
    intro h'
    exact hne (hinj id' id x h' hreg)
  | unlock_node a request_id id' =>
    exact call_nodes b a _ x (fun c _ hfree => unlock_node_free request_id id' c x hfree) h
  | node_disconnected a node id' =>
    refine call_nodes b a _ x (fun c _ hfree => ?_) h
    rw [node_disconnected_nodes]
    exact hfree
  | teardown a =>
    simp only [broker.step, broker.teardown]
    cases b.endpoints a with
    | none => exact h
    | some e => exact destroy_free _ x h

theorem step_reg (b : broker) (op : lock_op) : (b.step op).reg = b.reg := by
  cases op <;> simp only [broker.step, broker.call, broker.teardown] <;> split <;> rfl

theorem run_free (ops : List lock_op) (b : broker) (id : node_id) (x : node_ref)
    (hinj : registry_injective b.reg) (hreg : map_find b.reg id = some x)
    (hops : ∀ op ∈ ops, op.locks id = false) (h : free b.nodes x) :
    free (b.run ops).nodes x ∧ (b.run ops).reg = b.reg := by
  induction ops generalizing b with
  | nil => exact ⟨h, rfl⟩
  | cons op ops ih =>
    have h1 := step_free b op id x hinj hreg (hops op (List.mem_cons_self _ _)) h
    have h2 := step_reg b op
    obtain ⟨h3, h4⟩ := ih (b.step op) (by rw [h2]; exact hinj) (by rw [h2]; exact hreg)
      (fun o ho => hops o (List.mem_cons_of_mem _ ho)) h1
    exact ⟨h3, by rw [← h2, ← h4]; rfl⟩

theorem teardown_frees (b : broker) (a : endpoint_id) (e : application_endpoint)
    (h : b.locks_held) (he : b.endpoints a = some e) (id : node_id) (x : node_ref)
    (hm : (id, x) ∈ e.m_locked_nodes) : free (b.teardown a).nodes x := by
  obtain ⟨_, hh⟩ := h a e id x he hm
  have halive : (b.nodes x).isSome = true := by
    unfold holder at hh
    cases hn : b.nodes x with
    | none => simp [hn] at hh
    | some n => rfl
  simp only [broker.teardown, he]
  refine ⟨?_, ?_⟩
  · unfold destroy
    rw [unlock_all_alive]
    exact halive
  · rw [destroy_holder]
    have : x ∈ List.map Prod.snd e.m_locked_nodes ∧ holder b.nodes x = some a :=
      ⟨List.mem_map.mpr ⟨(id, x), hm, rfl⟩, hh⟩
    simp only [this, and_self, if_true]

theorem teardown_reg (b : broker) (a : endpoint_id) : (b.teardown a).reg = b.reg := by
  unfold broker.teardown
  split <;> rfl

theorem call_endpoint (b : broker) (a : endpoint_id) (e : application_endpoint)
    (f : context → context) (he : b.endpoints a = some e) :
    (b.call a f).endpoint a =
      (f { self := a, cfg := b.cfg, reg := b.reg, nodes := b.nodes, ep := e }).ep := by
  simp [broker.call, broker.endpoint, he]

/-- C3 (lock release on disconnect). In a broker reached from endpoints without locks
by any operations, let the endpoint `a` be torn down. Then every node recorded in its
`m_locked_nodes` is alive with no holder left; and for every node id `id` it had
locked, the next `lock_node` for `id`, issued by any endpoint `a'` that exists then
(after any operations `ops₂` that are not lock requests for `id`), is answered with
`RequestCompleted`, not `node_busy`. -/
theorem C3_lock_release_on_teardown (b : broker) (hinj : registry_injective b.reg)
    (h0 : b.no_locks) (ops₁ ops₂ : List lock_op) (a a' : endpoint_id)
    (e e' : application_endpoint) (id : node_id) (r : Nat)
    (he : (b.run ops₁).endpoints a = some e)
    (hid : map_contains e.m_locked_nodes id = true)
    (hops : ∀ op ∈ ops₂, op.locks id = false)
    (he' : (((b.run ops₁).teardown a).run ops₂).endpoints a' = some e') :
    (∀ id₁ x, (id₁, x) ∈ e.m_locked_nodes → free ((b.run ops₁).teardown a).nodes x) ∧
    (((((b.run ops₁).teardown a).run ops₂).step (lock_op.lock_node a' r id)).endpoint a').m_queue
      = e'.m_queue ++ [message.RequestCompleted r] := by
  obtain ⟨hheld, hreg⟩ := run_locks_held ops₁ b hinj (no_locks_locks_held b h0)
  refine ⟨fun id₁ x hm => teardown_frees _ a e hheld he id₁ x hm, ?_⟩
  obtain ⟨x, hm⟩ := map_contains_mem _ _ hid
  obtain ⟨hx, _⟩ := hheld a e id x he hm
  have hfree := teardown_frees _ a e hheld he id x hm
  have hreg1 : ((b.run ops₁).teardown a).reg = b.reg := by rw [teardown_reg, hreg]
  obtain ⟨hfree2, hreg2⟩ := run_free ops₂ ((b.run ops₁).teardown a) id x
    (by rw [hreg1]; exact hinj) (by rw [teardown_reg]; exact hx) hops hfree
  simp only [broker.step]
  rw [call_endpoint _ a' e' _ he']
  generalize ((b.run ops₁).teardown a).run ops₂ = s at hfree2 hreg2 he'
  have hfrom : node_from_id
      { self := a', cfg := s.cfg, reg := s.reg, nodes := s.nodes, ep := e' } id = some x := by
    simp only [node_from_id]
    rw [hreg2, teardown_reg, hx]
    simp [weak_lock, hfree2.1]
  exact ((lock_node_cases r id _).2.1 x hfrom (Or.inl hfree2.2)).1

/-- Witness of C3, the scenario of two clients: endpoint 1 locks node 7, endpoint 2 is
refused, endpoint 1 goes away, endpoint 2 sends an unlock and then asks again: it
gets the lock. -/
theorem C3_lock_release_on_teardown_witness :
    free ((sample_broker.run (sample_ops.take 2)).teardown 1).nodes 0 ∧
    (((((sample_broker.run (sample_ops.take 2)).teardown 1).run
        [lock_op.unlock_node 2 22 7]).step (lock_op.lock_node 2 21 7)).endpoint 2).m_queue
      = [message.Error 20 ErrorType.node_busy, message.Error 22 ErrorType.unknown_node,
          message.RequestCompleted 21] :=
  have h := C3_lock_release_on_teardown sample_broker sample_reg_injective
    sample_broker_no_locks (sample_ops.take 2) [lock_op.unlock_node 2 22 7] 1 2
    ((sample_broker.run (sample_ops.take 2)).endpoint 1)
    ((((sample_broker.run (sample_ops.take 2)).teardown 1).run
      [lock_op.unlock_node 2 22 7]).endpoint 2) 7 21
    rfl (by decide) (by decide) rfl
  ⟨h.1 7 0 (by decide), h.2⟩

/-! ## Requests that need the lock -/

theorem not_locked_get (c : context) (id : node_id) (h : c.not_locked id) :
    get_locked_node c id = none := by
  unfold get_locked_node
  rcases h with h | ⟨wp, h, hn⟩
  · simp [h]
  · simp [h, weak_lock, hn]

theorem get_locked_node_read_next (c : context) (id : node_id) :
    get_locked_node (read_next c) id = get_locked_node c id := rfl

@[simp] theorem write_message_watch (m : message) (e : application_endpoint) :
    (write_message m e).m_watch_nodes = e.m_watch_nodes := by
  unfold write_message do_write_message
  simp only
  split
  · rfl
  · split <;> rfl

@[simp] theorem write_message_strand (m : message) (e : application_endpoint) :
    (write_message m e).m_strand = e.m_strand := by
  unfold write_message do_write_message
  simp only
  split
  · rfl
  · split <;> rfl

theorem write_rejected (c : context) (r : Nat) :
    c.rejected ((read_next c).write (create_error_response r ErrorType.unknown_node)) r := by
  simp [context.rejected, context.write, context.with_ep, read_next, read_message,
    create_error_response]

/-- C4 (requests on a node the endpoint has not locked). For a node id that is not in
the endpoint's `m_locked_nodes`, or whose recorded node is gone, each of the requests
`SetNodeVariables`, `RegisterEvents`, `SendEvents`, `CompileAndLoadCodeOnVM` and
`SetBreakpoints` with request id `r`, read without error, makes the endpoint enqueue
exactly one message, `Error{r, unknown_node}`, and invoke no operation on any node. -/
theorem C4_unlocked_requests_rejected (c : context) (r : Nat) (id : node_id)
    (h : c.not_locked id) :
    (∀ vars, c.rejected (handle_read false (request.SetNodeVariables r id vars) c) r) ∧
    (∀ events, c.rejected (handle_read false (request.RegisterEvents r id events) c) r) ∧
    (∀ events, c.rejected (handle_read false (request.SendEvents r id events) c) r) ∧
    (∀ language program options,
      c.rejected
        (handle_read false (request.CompileAndLoadCodeOnVM r id language program options) c) r) ∧
    (∀ breakpoints, c.rejected (handle_read false (request.SetBreakpoints r id breakpoints) c) r)
    := by
  have hg : get_locked_node (read_next c) id = none := by
    rw [get_locked_node_read_next]
    exact not_locked_get c id h
  refine ⟨fun vars => ?_, fun events => ?_, fun events => ?_,
    fun language program options => ?_, fun breakpoints => ?_⟩
  · simp only [handle_read, Bool.false_eq_true, if_false, set_node_variables, hg]
    exact write_rejected c r
  · simp only [handle_read, Bool.false_eq_true, if_false, set_node_events_table, hg]
    exact write_rejected c r
  · simp only [handle_read, Bool.false_eq_true, if_false, emit_events, hg]
    exact write_rejected c r
  · simp only [handle_read, Bool.false_eq_true, if_false, compile_and_send_program, hg]
    exact write_rejected c r
  · simp only [handle_read, Bool.false_eq_true, if_false, set_breakpoints, hg]
    exact write_rejected c r

/-- Witness of C4: endpoint 2 has locked nothing and sends `SetNodeVariables` with
request id 3 for node 7 (the scenario "set without lock"). -/
theorem C4_unlocked_requests_rejected_witness :
    (sample_context 2).not_locked 7 ∧
      (handle_read false (request.SetNodeVariables 3 7 [("x", [1])]) (sample_context 2)).ep.m_queue
        = [message.Error 3 ErrorType.unknown_node] ∧
      (handle_read false (request.SetNodeVariables 3 7 [("x", [1])]) (sample_context 2)).nodes
        = sample_nodes :=
  have h : (sample_context 2).not_locked 7 := Or.inl rfl
  have k := (C4_unlocked_requests_rejected (sample_context 2) 3 7 h).1 [("x", [1])]
  ⟨h, k.1, k.2.1⟩

/-! ## Renaming a node -/

/-- The endpoint sees the `Rename` capability on a node exactly when it is a local
endpoint and the node can be renamed. -/
theorem node_capabilities_rename (c : context) (node : node_ref) :
    node_capabilities c node &&& NodeCapability.Rename ≠ 0 ↔
      c.ep.m_local_endpoint = true ∧ can_be_renamed c node = true := by
  unfold node_capabilities NodeCapability.Rename NodeCapability.ForceResetAndStop
  cases c.ep.m_local_endpoint <;> cases can_be_renamed c node <;> decide

/-- C5, counterexample. The local endpoint 2 has locked nothing; its `RenameNode`
request for the renameable node 7 is answered with `RequestCompleted`, not with
`Error{unknown_node}`, and the node is renamed. -/
theorem C5_rename_without_lock_counterexample :
    (local_context 2).not_locked 7 ∧
      (rename_node 4 7 "bob" (local_context 2)).ep.m_queue = [message.RequestCompleted 4] ∧
      (rename_node 4 7 "bob" (local_context 2)).ep.m_queue ≠
        [message.Error 4 ErrorType.unknown_node] ∧
      friendly_name (local_context 2).nodes 0 = some "thymio" ∧
      friendly_name (rename_node 4 7 "bob" (local_context 2)).nodes 0 = some "bob" :=
  ⟨Or.inl rfl, by decide, by decide, by decide, by decide⟩

/-- C5, amended. `rename_node` does not look at the lock. A `RenameNode` request
(request id `r`, node id `n`) is answered with `Error{r, unknown_node}`, the node not
being renamed, when the registry has no live node for `n` or when the endpoint does
not see the `Rename` capability on it (the endpoint is not local, or the node cannot
be renamed). When the node exists and has the `Rename` capability, the node is
renamed and exactly `RequestCompleted{r}` is enqueued, whether or not the endpoint
has `n` in `m_locked_nodes`. -/
theorem C5_rename_node_by_capability (r : Nat) (n : node_id) (new_name : String) (c : context) :
    (node_from_id c n = none → c.rejected (rename_node r n new_name c) r) ∧
    (∀ node, node_from_id c n = some node →
      (c.ep.m_local_endpoint = false ∨ can_be_renamed c node = false) →
      c.rejected (rename_node r n new_name c) r) ∧
    (∀ node, node_from_id c n = some node → c.ep.m_local_endpoint = true →
      can_be_renamed c node = true →
      (rename_node r n new_name c).ep.m_queue = c.ep.m_queue ++ [message.RequestCompleted r] ∧
      friendly_name (rename_node r n new_name c).nodes node = some new_name ∧
      ∀ x, x ≠ node → (rename_node r n new_name c).nodes x = c.nodes x) := by
  have hrej : c.rejected (c.write (create_error_response r ErrorType.unknown_node)) r := by
    simp [context.rejected, context.write, context.with_ep, create_error_response]
  refine ⟨fun h => ?_, fun node h hcap => ?_, fun node h hl hr => ?_⟩
  · simp only [rename_node, h]
    exact hrej
  · have : node_capabilities c node &&& NodeCapability.Rename = 0 := by
      by_contra hne
      obtain ⟨h1, h2⟩ := (node_capabilities_rename c node).mp hne
      rcases hcap with h3 | h3
      · rw [h1] at h3
        exact absurd h3 (by simp)
      · rw [h2] at h3
        exact absurd h3 (by simp)
    simp only [rename_node, h, this, if_true]
    exact hrej
  · have hne : ¬ (node_capabilities c node &&& NodeCapability.Rename = 0) :=
      (node_capabilities_rename c node).mpr ⟨hl, hr⟩
    obtain ⟨_, halive⟩ := node_from_id_some c n node h
    simp only [rename_node, h, hne, if_false, write_queue, write_nodes, create_ack_response]
    cases hn : c.nodes node with
    | none => simp [hn] at halive
    | some x =>
      simp only [update_node, hn]
      refine ⟨trivial, ?_, ?_⟩
      · simp [friendly_name, store, aseba_node.rename]
      · intro y hy
        simp [store, hy]

/-- Witness of C5 amended: the non-local endpoint 2 is refused, the local endpoint 2
renames node 7, neither holding its lock. -/
theorem C5_rename_node_by_capability_witness :
    ((sample_context 2).rejected (rename_node 4 7 "bob" (sample_context 2)) 4) ∧
    ((rename_node 4 7 "bob" (local_context 2)).ep.m_queue = [message.RequestCompleted 4] ∧
      friendly_name (rename_node 4 7 "bob" (local_context 2)).nodes 0 = some "bob" ∧
      ∀ x, x ≠ 0 → (rename_node 4 7 "bob" (local_context 2)).nodes x = (local_context 2).nodes x) :=
  ⟨(C5_rename_node_by_capability 4 7 "bob" (sample_context 2)).2.1 0 (by decide)
      (Or.inl (by decide)),
    (C5_rename_node_by_capability 4 7 "bob" (local_context 2)).2.2 0 (by decide) (by decide)
      (by decide)⟩

/-! ## Execution state commands without the lock -/

/-- C6, counterexample. The endpoint 2 is not local and has locked nothing; its
`SetVMExecutionState` request with the command `Stop` for node 7 is forwarded to the
node and no `Error` is enqueued. -/
theorem C6_stop_from_remote_endpoint_counterexample :
    (sample_context 2).not_locked 7 ∧ (sample_context 2).ep.m_local_endpoint = false ∧
      (set_vm_execution_state 6 7 VMExecutionStateCommand.Stop (sample_context 2)).ep.m_queue
        = [] ∧
      calls_of (set_vm_execution_state 6 7 VMExecutionStateCommand.Stop (sample_context 2)).nodes 0
        = [node_call.set_vm_execution_state VMExecutionStateCommand.Stop 6 2] :=
  ⟨Or.inl rfl, rfl, by decide, by decide⟩

/-- C6, amended. For a `SetVMExecutionState` request (request id `r`, node id `n`,
command `cmd`) from an endpoint that does not hold the lock of `n`: the command is
forwarded to the node, nothing being enqueued, when `cmd = Stop`, the registry has a
live node for `n`, and the endpoint does not see the `Rename` capability on it (the
endpoint is not local, or the node cannot be renamed); in every other case (`cmd`
other than `Stop`, node absent, or renameable node seen through a local endpoint) the
endpoint enqueues `Error{r, unknown_node}` and does not touch the node. -/
theorem C6_execution_state_without_lock (r : Nat) (n : node_id) (cmd : VMExecutionStateCommand)
    (c : context) (h : c.not_locked n) :
    (∀ node, cmd = VMExecutionStateCommand.Stop → node_from_id c n = some node →
      (c.ep.m_local_endpoint = false ∨ can_be_renamed c node = false) →
      (set_vm_execution_state r n cmd c).ep.m_queue = c.ep.m_queue ∧
      calls_of (set_vm_execution_state r n cmd c).nodes node =
        calls_of c.nodes node ++ [node_call.set_vm_execution_state cmd r c.self] ∧
      ∀ x, x ≠ node → (set_vm_execution_state r n cmd c).nodes x = c.nodes x) ∧
    ((cmd ≠ VMExecutionStateCommand.Stop ∨ node_from_id c n = none ∨
        ∃ node, node_from_id c n = some node ∧ c.ep.m_local_endpoint = true ∧
          can_be_renamed c node = true) →
      c.rejected (set_vm_execution_state r n cmd c) r) := by
  have hg := not_locked_get c n h
  have hrej : c.rejected (c.write (create_error_response r ErrorType.unknown_node)) r := by
    simp [context.rejected, context.write, context.with_ep, create_error_response]
  refine ⟨fun node hcmd hnode hcap => ?_, fun hcase => ?_⟩
  · have hz : ¬ (node_capabilities c node &&& NodeCapability.Rename ≠ 0) := by
      intro hne
      obtain ⟨h1, h2⟩ := (node_capabilities_rename c node).mp hne
      rcases hcap with h3 | h3
      · rw [h1] at h3
        exact absurd h3 (by simp)
      · rw [h2] at h3
        exact absurd h3 (by simp)
    obtain ⟨_, halive⟩ := node_from_id_some c n node hnode
    simp only [set_vm_execution_state, hg, hcmd, Option.isNone_none, and_self, if_true, hnode,
      hz, if_false]
    cases hn : c.nodes node with
    | none => simp [hn] at halive
    | some x =>
      simp only [update_node, hn]
      refine ⟨trivial, ?_, ?_⟩
      · simp [calls_of, store, hn, aseba_node.record]
      · intro y hy
        simp [store, hy]
  · rcases hcase with hcmd | hnone | ⟨node, hnode, hl, hr⟩
    · simp only [set_vm_execution_state, hg, hcmd, and_false, if_false]
      exact hrej
    · by_cases hcmd : cmd = VMExecutionStateCommand.Stop
      · simp only [set_vm_execution_state, hg, hcmd, Option.isNone_none, and_self, if_true,
          hnone]
        exact hrej
      · simp only [set_vm_execution_state, hg, hcmd, and_false, if_false]
        exact hrej
    · have hne := (node_capabilities_rename c node).mpr ⟨hl, hr⟩
      by_cases hcmd : cmd = VMExecutionStateCommand.Stop
      · simp only [set_vm_execution_state, hg, hcmd, Option.isNone_none, and_self, if_true,
          hnode, if_pos hne]
        exact hrej
      · simp only [set_vm_execution_state, hg, hcmd, and_false, if_false]
        exact hrej

/-- Witness of C6 amended: without the lock of node 7, `Stop` from the remote
endpoint 2 reaches the node, `Stop` from the local endpoint 2 is refused (the node can
be renamed), and `Run` from the remote endpoint is refused. -/
theorem C6_execution_state_without_lock_witness :
    ((set_vm_execution_state 6 7 VMExecutionStateCommand.Stop (sample_context 2)).ep.m_queue
        = (sample_context 2).ep.m_queue ∧
      calls_of (set_vm_execution_state 6 7 VMExecutionStateCommand.Stop (sample_context 2)).nodes 0
        = calls_of (sample_context 2).nodes 0 ++
            [node_call.set_vm_execution_state VMExecutionStateCommand.Stop 6 2] ∧
      ∀ x, x ≠ 0 →
        (set_vm_execution_state 6 7 VMExecutionStateCommand.Stop (sample_context 2)).nodes x
          = (sample_context 2).nodes x) ∧
    (local_context 2).rejected
      (set_vm_execution_state 6 7 VMExecutionStateCommand.Stop (local_context 2)) 6 ∧
    (sample_context 2).rejected
      (set_vm_execution_state 6 7 VMExecutionStateCommand.Run (sample_context 2)) 6 :=
  ⟨(C6_execution_state_without_lock 6 7 VMExecutionStateCommand.Stop (sample_context 2)
      (Or.inl rfl)).1 0 rfl (by decide) (Or.inl rfl),
    (C6_execution_state_without_lock 6 7 VMExecutionStateCommand.Stop (local_context 2)
      (Or.inl rfl)).2 (Or.inr (Or.inr ⟨0, by decide, rfl, by decide⟩)),
    (C6_execution_state_without_lock 6 7 VMExecutionStateCommand.Run (sample_context 2)
      (Or.inl rfl)).2 (Or.inl (by decide))⟩

/-! ## Status masking -/

/-- C7, the code at the failing input. The endpoint 2 holds the lock of node 7 (the
id is in `m_locked_nodes`, `get_locked_node` finds the node and the node's holder is
the endpoint), and the status of the node is busy. A node-change notification
reports it as ready (`do_node_changed` masks the status), but the answer to
`RequestListOfNodes` reports it as busy: `send_full_node_list` does not mask. -/
theorem C7_node_list_reports_busy_to_holder :
    map_contains locked_context.ep.m_locked_nodes 7 = true ∧
      get_locked_node locked_context 7 = some 0 ∧
      holder locked_context.nodes 0 = some locked_context.self ∧
      reported_statuses 7
          ((do_node_changed 0 7 status.busy locked_context).ep.m_queue.drop
            locked_context.ep.m_queue.length)
        = [status.ready] ∧
      reported_statuses 7
          ((handle_read false request.RequestListOfNodes locked_context).ep.m_queue.drop
            locked_context.ep.m_queue.length)
        = [status.busy] ∧
      (handle_read false request.RequestListOfNodes locked_context).ep.m_queue
        = locked_context.ep.m_queue ++
          [message.NodesChanged
            [{ node_id := 7, status := status.busy, type := 0, name := "thymio",
               capabilities := 0 }]] := by
  refine ⟨by decide, by decide, by decide, by decide, by decide, by decide⟩

/-! ## The order of the acknowledgement and of the snapshot of a watch -/

@[simp] theorem write_strand (c : context) (m : message) :
    (c.write m).ep.m_strand = c.ep.m_strand := by
  simp [context.write, context.with_ep]

@[simp] theorem write_watch (c : context) (m : message) :
    (c.write m).ep.m_watch_nodes = c.ep.m_watch_nodes := by
  simp [context.write, context.with_ep]

theorem do_node_changed_queue (node : node_ref) (id : node_id) (st : status) (c : context) :
    ∃ ms, (do_node_changed node id st c).ep.m_queue = c.ep.m_queue ++ ms ∧
      (do_node_changed node id st c).ep.m_strand = c.ep.m_strand := by
  unfold do_node_changed
  generalize (if st = status.busy ∧ (get_locked_node c id).isSome = true then status.ready
    else st) = st'
  cases c.nodes node with
  | none => exact ⟨[], by simp, rfl⟩
  | some n =>
    simp only
    by_cases hd : st' = status.disconnected
    · simp only [hd, if_true]
      exact ⟨[message.NodesChanged [create_node c id status.disconnected node n]],
        by simp only [context.with_ep, write_queue], by simp [context.with_ep]⟩
    · simp only [hd, if_false]
      exact ⟨_, write_queue _ _, write_strand _ _⟩

theorem run_strand_succ (fuel : Nat) (c : context) (t : strand_task) (rest : List strand_task)
    (h : c.ep.m_strand = t :: rest) : run_strand (fuel + 1) c = run_strand fuel (run_one c) := by
  simp only [run_strand, h]

/-- A task of the strand only appends to the outbound queue and posts no task. -/
theorem run_task_queue (t : strand_task) (c : context) :
    ∃ ms, (run_task t c).ep.m_queue = c.ep.m_queue ++ ms ∧
      (run_task t c).ep.m_strand = c.ep.m_strand := by
  cases t with
  | do_node_changed node id st => exact do_node_changed_queue node id st c
  | do_node_variables_changed node map =>
    cases node with
    | none => exact ⟨[], by simp [run_task, do_node_variables_changed], rfl⟩
    | some r => exact ⟨_, write_queue _ _, write_strand _ _⟩
  | do_node_emitted_events node payload =>
    cases node with
    | none => exact ⟨[], by simp [run_task, do_node_emitted_events], rfl⟩
    | some r =>
      cases payload with
      | events map => exact ⟨_, write_queue _ _, write_strand _ _⟩
      | description desc => exact ⟨_, write_queue _ _, write_strand _ _⟩
  | do_node_execution_state_changed node state =>
    cases node with
    | none => exact ⟨[], by simp [run_task, do_node_execution_state_changed], rfl⟩
    | some r => exact ⟨_, write_queue _ _, write_strand _ _⟩
  | device_write_completion request_id ec =>
    cases ec with
    | false => exact ⟨_, write_queue _ _, write_strand _ _⟩
    | true => exact ⟨_, write_queue _ _, write_strand _ _⟩
  | compilation_completion request_id ec result =>
    cases ec with
    | false => exact ⟨_, write_queue _ _, write_strand _ _⟩
    | true => exact ⟨_, write_queue _ _, write_strand _ _⟩
  | breakpoints_completion request_id ec bps =>
    exact ⟨_, write_queue _ _, write_strand _ _⟩

theorem run_one_cons (t : strand_task) (rest : List strand_task) (c : context)
    (h : c.ep.m_strand = t :: rest) :
    ∃ ms, (run_one c).ep.m_queue = c.ep.m_queue ++ ms ∧ (run_one c).ep.m_strand = rest := by
  unfold run_one
  simp only [h]
  obtain ⟨ms, h1, h2⟩ := run_task_queue t (c.with_ep (fun e => { e with m_strand := rest }))
  exact ⟨ms, h1, h2⟩

/-- The strand reaches a deferred snapshot of the variables after the tasks that were
waiting before it: the snapshot is appended to the queue as it is then. -/
theorem run_strand_reaches (pending : List strand_task) (node : node_ref) (map : variables_map)
    (rest : List strand_task) (c : context)
    (h : c.ep.m_strand =
      pending ++ strand_task.do_node_variables_changed (some node) map :: rest) :
    ∃ before, (run_strand (pending.length + 1) c).ep.m_queue =
      c.ep.m_queue ++ before ++ [message.NodeVariablesChanged node map] := by
  induction pending generalizing c with
  | nil =>
    simp only [List.nil_append] at h
    refine ⟨[], ?_⟩
    rw [List.length_nil, Nat.zero_add, run_strand_succ 0 c _ _ h]
    simp only [run_strand, run_one, h, run_task, do_node_variables_changed, write_queue,
      context.with_ep, List.append_nil]
  | cons p pending ih =>
    simp only [List.cons_append] at h
    obtain ⟨ms, h1, h2⟩ := run_one_cons p _ c h
    obtain ⟨before, h3⟩ := ih (run_one c) h2
    refine ⟨ms ++ before, ?_⟩
    rw [List.length_cons, run_strand_succ _ c p _ h, h3, h1]
    simp only [List.append_assoc]

theorem watch_connect_frame (w : WatchableInfo) (id : node_id) (node : node_ref)
    (call : node_call) (c : context) :
    (watch_connect w id node call c).ep.m_queue = c.ep.m_queue ∧
      (watch_connect w id node call c).ep.m_strand = c.ep.m_strand := by
  unfold watch_connect update_node
  cases c.nodes node <;> exact ⟨rfl, rfl⟩

theorem watch_variables_frame (id : node_id) (flags : Nat) (node : node_ref) (c : context) :
    (watch_variables id flags node c).ep.m_queue = c.ep.m_queue ∧
      (watch_variables id flags node c).ep.m_strand = c.ep.m_strand ++
        (if flags &&& WatchableInfo.Variables.bit ≠ 0 then
          (if !(map_contains (c.ep.m_watch_nodes WatchableInfo.Variables) id) then
            [strand_task.do_node_variables_changed (some node) (node_variables c node)]
          else [])
        else []) := by
  unfold watch_variables
  by_cases hf : flags &&& WatchableInfo.Variables.bit ≠ 0
  · rw [if_pos hf, if_pos hf]
    by_cases hw : (!(map_contains (c.ep.m_watch_nodes WatchableInfo.Variables) id)) = true
    · rw [if_pos hw, if_pos hw]
      obtain ⟨h1, h2⟩ := watch_connect_frame WatchableInfo.Variables id node
        (node_call.connect_to_variables_changes c.self)
        (node_variables_changed (some node) (node_variables c node) c)
      exact ⟨h1, h2⟩
    · rw [if_neg hw, if_neg hw, List.append_nil]
      exact watch_connect_frame _ _ _ _ _
  · rw [if_neg hf, if_neg hf, List.append_nil]
    exact ⟨rfl, rfl⟩

theorem watch_events_frame (id : node_id) (flags : Nat) (node : node_ref) (c : context) :
    (watch_events id flags node c).ep.m_queue = c.ep.m_queue ∧
      (watch_events id flags node c).ep.m_strand = c.ep.m_strand ++
        (if flags &&& WatchableInfo.Events.bit ≠ 0
          then [strand_task.do_node_emitted_events (some node)
            (event_changed_payload.description (node_events_description
              (watch_connect WatchableInfo.Events id node (node_call.connect_to_events c.self) c)
              node))]
          else []) := by
  unfold watch_events
  by_cases hf : flags &&& WatchableInfo.Events.bit ≠ 0
  · rw [if_pos hf, if_pos hf]
    obtain ⟨h1, h2⟩ := watch_connect_frame WatchableInfo.Events id node
      (node_call.connect_to_events c.self) c
    simp only [node_emitted_events, defer, context.with_ep, h1, h2, and_self]
  · rw [if_neg hf, if_neg hf, List.append_nil]
    exact ⟨rfl, rfl⟩

theorem watch_execution_state_frame (id : node_id) (flags : Nat) (node : node_ref)
    (c : context) :
    (watch_execution_state id flags node c).ep.m_queue = c.ep.m_queue ∧
      (watch_execution_state id flags node c).ep.m_strand = c.ep.m_strand ++
        (if flags &&& WatchableInfo.VMExecutionState.bit ≠ 0
          then [strand_task.do_node_execution_state_changed (some node)
            (node_execution_state
              (watch_connect WatchableInfo.VMExecutionState id node
                (node_call.connect_to_execution_state_changes c.self) c) node)]
          else []) := by
  unfold watch_execution_state
  by_cases hf : flags &&& WatchableInfo.VMExecutionState.bit ≠ 0
  · rw [if_pos hf, if_pos hf]
    obtain ⟨h1, h2⟩ := watch_connect_frame WatchableInfo.VMExecutionState id node
      (node_call.connect_to_execution_state_changes c.self) c
    simp only [node_execution_state_changed, defer, context.with_ep, h1, h2, and_self]
  · rw [if_neg hf, if_neg hf, List.append_nil]
    exact ⟨rfl, rfl⟩

/-- What `watch_node` leaves in the queue and on the strand when the registry has
the node and the flag `Variables` is newly set: the acknowledgement is in the queue,
the snapshot of the variables is a task of the strand. -/
theorem watch_node_new_variables (r : Nat) (id : node_id) (flags : Nat) (c : context)
    (node : node_ref) (hnode : node_from_id c id = some node)
    (hflag : flags &&& WatchableInfo.Variables.bit ≠ 0)
    (hnew : map_contains (c.ep.m_watch_nodes WatchableInfo.Variables) id = false) :
    (watch_node r id flags c).ep.m_queue = c.ep.m_queue ++ [message.RequestCompleted r] ∧
      ∃ rest, (watch_node r id flags c).ep.m_strand = c.ep.m_strand ++
        strand_task.do_node_variables_changed (some node) (node_variables c node) :: rest := by
  simp only [watch_node, hnode, write_queue, write_strand, create_ack_response]
  obtain ⟨a1, a2⟩ := watch_variables_frame id flags node c
  obtain ⟨b1, b2⟩ := watch_events_frame id flags node (watch_variables id flags node c)
  obtain ⟨c1, c2⟩ := watch_execution_state_frame id flags node
    (watch_events id flags node (watch_variables id flags node c))
  refine ⟨by rw [c1, b1, a1], ?_⟩
  rw [c2, b2, a2, if_pos hflag, if_pos (by rw [hnew]; rfl)]
  simp only [List.append_assoc, List.singleton_append]
  exact ⟨_, rfl⟩

/-- C8, counterexample. The endpoint 2 receives `WatchNode` (request id 9, node 7,
flag `Variables`, not watched before). When the handler returns, `RequestCompleted{9}`
is in the outbound queue and the snapshot is not: it is a task waiting on the strand.
When that task has run, the snapshot is in the queue behind the acknowledgement. -/
theorem C8_snapshot_after_ack_counterexample :
    (handle_read false (request.WatchNode 9 7 1) connected_context).ep.m_queue
        = connected_context.ep.m_queue ++ [message.RequestCompleted 9] ∧
      (handle_read false (request.WatchNode 9 7 1) connected_context).ep.m_strand
        = [strand_task.do_node_variables_changed (some 0) [("x", [7])]] ∧
      (run_strand 1 (handle_read false (request.WatchNode 9 7 1) connected_context)).ep.m_queue
        = connected_context.ep.m_queue ++
          [message.RequestCompleted 9, message.NodeVariablesChanged 0 [("x", [7])]] ∧
      List.indexOf (message.RequestCompleted 9)
          (run_strand 1 (handle_read false (request.WatchNode 9 7 1) connected_context)).ep.m_queue
        < List.indexOf (message.NodeVariablesChanged 0 [("x", [7])])
          (run_strand 1
            (handle_read false (request.WatchNode 9 7 1) connected_context)).ep.m_queue := by
  refine ⟨by decide, by decide, by decide, by decide⟩

/-- C8, amended. For every `WatchNode` request (request id `r`) on a node of the
registry with the flag `Variables` newly set, handled on the strand of the endpoint:
the handler puts `RequestCompleted{r}` in the outbound queue and leaves the snapshot
as a deferred task on the strand, behind the tasks already waiting; once the strand
has run up to that task, the `NodeVariablesChanged` snapshot is in the queue after
`RequestCompleted{r}`. -/
theorem C8_watch_ack_then_snapshot (r : Nat) (id : node_id) (flags : Nat) (c : context)
    (node : node_ref) (hnode : node_from_id c id = some node)
    (hflag : flags &&& WatchableInfo.Variables.bit ≠ 0)
    (hnew : map_contains (c.ep.m_watch_nodes WatchableInfo.Variables) id = false) :
    (handle_read false (request.WatchNode r id flags) c).ep.m_queue
        = c.ep.m_queue ++ [message.RequestCompleted r] ∧
      (∃ rest, (handle_read false (request.WatchNode r id flags) c).ep.m_strand
        = c.ep.m_strand ++
          strand_task.do_node_variables_changed (some node) (node_variables c node) :: rest) ∧
      ∃ between,
        (run_strand (c.ep.m_strand.length + 1)
            (handle_read false (request.WatchNode r id flags) c)).ep.m_queue
          = c.ep.m_queue ++ [message.RequestCompleted r] ++ between ++
            [message.NodeVariablesChanged node (node_variables c node)] := by
  have hread : handle_read false (request.WatchNode r id flags) c =
      watch_node r id flags (read_next c) := by
    simp [handle_read]
  obtain ⟨h1, rest, h2⟩ := watch_node_new_variables r id flags (read_next c) node hnode hflag hnew
  rw [hread]
  refine ⟨h1, ⟨rest, h2⟩, ?_⟩
  obtain ⟨between, h3⟩ := run_strand_reaches c.ep.m_strand node (node_variables c node) rest
    (watch_node r id flags (read_next c)) h2
  refine ⟨between, ?_⟩
  rw [h3, h1]
  rfl

/-- Witness of C8 amended: the watch request of the counterexample. -/
theorem C8_watch_ack_then_snapshot_witness :
    (handle_read false (request.WatchNode 9 7 1) connected_context).ep.m_queue
        = connected_context.ep.m_queue ++ [message.RequestCompleted 9] ∧
      (∃ rest, (handle_read false (request.WatchNode 9 7 1) connected_context).ep.m_strand
        = connected_context.ep.m_strand ++
          strand_task.do_node_variables_changed (some 0) (node_variables connected_context 0)
            :: rest) ∧
      ∃ between,
        (run_strand (connected_context.ep.m_strand.length + 1)
            (handle_read false (request.WatchNode 9 7 1) connected_context)).ep.m_queue
          = connected_context.ep.m_queue ++ [message.RequestCompleted 9] ++ between ++
            [message.NodeVariablesChanged 0 (node_variables connected_context 0)] :=
  C8_watch_ack_then_snapshot 9 7 1 connected_context 0 (by decide) (by decide) (by decide)

/-! ## Watch renewal -/

/-- C9, the code at the failing input. The endpoint 2 watches the three streams of
node 7 and nothing is waiting on its strand. A `WatchNode` request with the three
flags set again keeps one subscription for each stream and schedules no snapshot of
the variables, but it schedules a snapshot of the events description and one of the
execution state again: the blocks of `watch_node` for `Events` and `VMExecutionState`
lack the test the block for `Variables` has. A request with the flags cleared removes
the subscriptions. -/
theorem C9_renewal_resends_events_and_state :
    watching_context.ep.m_strand = [] ∧
      (∀ w, watching_context.ep.m_watch_nodes w = [(7, 0)]) ∧
      (∀ w, (handle_read false (request.WatchNode 9 7 7) watching_context).ep.m_watch_nodes w
        = [(7, 0)]) ∧
      (handle_read false (request.WatchNode 9 7 7) watching_context).ep.m_strand
        = [strand_task.do_node_emitted_events (some 0)
              (event_changed_payload.description [("ping", 1)]),
            strand_task.do_node_execution_state_changed (some 0) 0] ∧
      (handle_read false (request.WatchNode 9 7 1) watching_context).ep.m_strand = [] ∧
      (handle_read false (request.WatchNode 9 7 2) watching_context).ep.m_strand
        = [strand_task.do_node_emitted_events (some 0)
              (event_changed_payload.description [("ping", 1)])] ∧
      (∀ w, (handle_read false (request.WatchNode 9 7 0) watching_context).ep.m_watch_nodes w
        = []) := by
  refine ⟨by decide, ?_, ?_, by decide, by decide, by decide, ?_⟩
  · intro w
    cases w <;> decide
  · intro w
    cases w <;> decide
  · intro w
    cases w <;> decide

/-! ## The reply to a handshake with an incompatible version -/

/-- C10, the code at the failing input. The client's handshake asks for protocol
version 99 at least, the server has version 1. `handle_handshake` puts the reply
carrying version 0 in the outbound queue but starts no write: `write_message` returns
before `do_write_message` whenever `m_protocol_version` is 0. No read is posted, and a
later node-change notification starts no write either, so the reply is never
transmitted. A compatible handshake does start the write of its reply. -/
theorem C10_mismatch_reply_is_not_written :
    mismatch_context.ep.m_queue = [message.ConnectionHandshake 1 0 102400] ∧
      mismatch_context.ep.m_protocol_version = 0 ∧
      mismatch_context.ep.written = [] ∧
      mismatch_context.ep.reads = [read_handler.handle_handshake] ∧
      (do_node_changed 0 7 status.available mismatch_context).ep.written = [] ∧
      connected_context.ep.written = [message.ConnectionHandshake 1 1 102400] := by
  refine ⟨by decide, by decide, by decide, by decide, by decide, by decide⟩

theorem write_message_before_handshake (m : message) (e : application_endpoint)
    (h : e.m_protocol_version = 0) :
    (write_message m e).written = e.written ∧ (write_message m e).reads = e.reads ∧
      (write_message m e).m_protocol_version = 0 := by
  unfold write_message
  simp [h]

/-- An incompatible handshake on an endpoint that has not completed a handshake: the
reply carrying version 0 is enqueued, no write is started and no read is posted. -/
theorem handshake_mismatch_starts_no_write (c : context)
    (protocolVersion minProtocolVersion maxMessageSize : Nat) (token : Option (List Nat))
    (h0 : c.ep.m_protocol_version = 0)
    (hbad : protocolVersion < c.cfg.minProtocolVersion ∨
      c.cfg.protocolVersion < minProtocolVersion) :
    (handle_handshake false
        (request.ConnectionHandshake protocolVersion minProtocolVersion maxMessageSize token)
        c).ep.m_queue
      = c.ep.m_queue ++
        [message.ConnectionHandshake c.cfg.minProtocolVersion 0 c.cfg.maxAppEndPointMessageSize] ∧
    (handle_handshake false
        (request.ConnectionHandshake protocolVersion minProtocolVersion maxMessageSize token)
        c).ep.written = c.ep.written ∧
    (handle_handshake false
        (request.ConnectionHandshake protocolVersion minProtocolVersion maxMessageSize token)
        c).ep.reads = c.ep.reads := by
  obtain ⟨h1, h2, h3⟩ := write_message_before_handshake
    (message.ConnectionHandshake c.cfg.minProtocolVersion 0 c.cfg.maxAppEndPointMessageSize)
    c.ep h0
  simp only [handle_handshake, Bool.false_eq_true, if_false, hbad, if_true, h0, context.write,
    context.with_ep, h3, write_message_queue, h1, h2, and_self]

/-! ## After a failed handshake -/

/-- While the negotiated version is 0, `write_message` starts no write. -/
theorem write_idle (c : context) (m : message) (h : c.ep.m_protocol_version = 0) :
    (c.write m).ep.m_protocol_version = 0 ∧ (c.write m).ep.written = c.ep.written ∧
      (c.write m).ep.reads = c.ep.reads := by
  obtain ⟨h1, h2, h3⟩ := write_message_before_handshake m c.ep h
  exact ⟨h3, h1, h2⟩

/-- While the negotiated version is 0, a task of the strand starts no write and
posts no read. -/
theorem run_task_idle (t : strand_task) (c : context) (h : c.ep.m_protocol_version = 0) :
    (run_task t c).ep.m_protocol_version = 0 ∧ (run_task t c).ep.written = c.ep.written ∧
      (run_task t c).ep.reads = c.ep.reads := by
  cases t with
  | do_node_changed node id st =>
    simp only [run_task, do_node_changed]
    generalize (if st = status.busy ∧ (get_locked_node c id).isSome = true then status.ready
      else st) = st'
    cases c.nodes node with
    | none => exact ⟨h, rfl, rfl⟩
    | some n =>
      simp only
      have hw := write_idle c (message.NodesChanged [create_node c id st' node n]) h
      by_cases hd : st' = status.disconnected
      · rw [if_pos hd]
        exact hw
      · rw [if_neg hd]
        exact hw
  | do_node_variables_changed node map =>
    cases node with
    | none => exact ⟨h, rfl, rfl⟩
    | some r => exact write_idle c _ h
  | do_node_emitted_events node payload =>
    cases node with
    | none => exact ⟨h, rfl, rfl⟩
    | some r =>
      cases payload with
      | events map => exact write_idle c _ h
      | description desc => exact write_idle c _ h
  | do_node_execution_state_changed node state =>
    cases node with
    | none => exact ⟨h, rfl, rfl⟩
    | some r => exact write_idle c _ h
  | device_write_completion request_id ec =>
    cases ec with
    | false => exact write_idle c _ h
    | true => exact write_idle c _ h
  | compilation_completion request_id ec result =>
    cases ec with
    | false => exact write_idle c _ h
    | true => exact write_idle c _ h
  | breakpoints_completion request_id ec bps => exact write_idle c _ h

theorem run_one_idle (c : context) (h : c.ep.m_protocol_version = 0) :
    (run_one c).ep.m_protocol_version = 0 ∧ (run_one c).ep.written = c.ep.written ∧
      (run_one c).ep.reads = c.ep.reads := by
  unfold run_one
  cases hs : c.ep.m_strand with
  | nil => exact ⟨h, rfl, rfl⟩
  | cons t rest => exact run_task_idle t _ h

/-- A handshake that fails (read error, another kind of message, or disjoint version
ranges) on an endpoint whose negotiated version is 0 leaves the version at 0, starts
no write and posts no read. -/
theorem handle_handshake_failed (ec : Bool) (msg : request) (c : context)
    (h : c.ep.m_protocol_version = 0)
    (hbad : ec = true ∨ handshake_compatible c.cfg msg = false) :
    (handle_handshake ec msg c).ep.m_protocol_version = 0 ∧
      (handle_handshake ec msg c).ep.written = c.ep.written ∧
      (handle_handshake ec msg c).ep.reads = c.ep.reads := by
  cases ec with
  | true => exact ⟨h, rfl, rfl⟩
  | false =>
    have hc : handshake_compatible c.cfg msg = false := by
      rcases hbad with hb | hb
      · exact absurd hb (by simp)
      · exact hb
    cases msg with
    | ConnectionHandshake pv mv mm tok =>
      have hdis : pv < c.cfg.minProtocolVersion ∨ c.cfg.protocolVersion < mv := by
        have hc' : c.cfg.minProtocolVersion ≤ pv → c.cfg.protocolVersion < mv := by
          simpa [handshake_compatible] using hc
        by_cases hp : pv < c.cfg.minProtocolVersion
        · exact Or.inl hp
        · exact Or.inr (hc' (Nat.le_of_not_lt hp))
      obtain ⟨_, h2, h3⟩ := handshake_mismatch_starts_no_write c pv mv mm tok h hdis
      refine ⟨?_, h2, h3⟩
      have hw := write_idle c
        (message.ConnectionHandshake c.cfg.minProtocolVersion c.ep.m_protocol_version
          c.cfg.maxAppEndPointMessageSize) h
      simp only [handle_handshake, Bool.false_eq_true, if_false, hdis, if_true, hw.1]
    | _ => exact ⟨h, rfl, rfl⟩

theorem start_stalled (c : context) (h : c.unstarted) : (session.start c).stalled 0 := by
  obtain ⟨h1, h2, h3⟩ := h
  simp [session.stalled, session.start, on_initialized, read_message, context.with_ep, h1, h2, h3]

/-- A stalled endpoint stays as it is through every event that is not the arrival of
its first message. -/
theorem step_stalled (s : session) (k : Nat) (ev : event) (h : s.stalled k)
    (hev : ev.is_receive = false ∨ 1 ≤ k) : (s.step ev).stalled k := by
  obtain ⟨h1, h2, h3, h4, h5⟩ := h
  cases ev with
  | receive ec msg =>
    have hk : 1 ≤ k := by
      rcases hev with he | he
      · simp [event.is_receive] at he
      · exact he
    have hnone : s.c.ep.reads[s.reads_done]? = none := by
      rw [h3, h4]
      exact List.getElem?_eq_none (by simpa using hk)
    simp only [session.step, hnone]
    exact ⟨h1, h2, h3, h4, h5⟩
  | write_done ec =>
    have : ¬ s.writes_done < s.c.ep.written.length := by simp [h2]
    simp only [session.step, this, if_false]
    exact ⟨h1, h2, h3, h4, h5⟩
  | post t => exact ⟨h1, h2, h3, h4, h5⟩
  | run =>
    obtain ⟨g1, g2, g3⟩ := run_one_idle s.c h1
    exact ⟨g1, g2.trans h2, g3.trans h3, h4, h5⟩
  | backend r n => exact ⟨h1, h2, h3, h4, h5⟩

theorem run_task_cfg (t : strand_task) (c : context) : (run_task t c).cfg = c.cfg := by
  cases t with
  | do_node_changed node id st =>
    simp only [run_task, do_node_changed]
    cases c.nodes node with
    | none => rfl
    | some n =>
      simp only
      split <;> split <;> rfl
  | do_node_variables_changed node map => cases node <;> rfl
  | do_node_emitted_events node payload =>
    cases node with
    | none => rfl
    | some r => cases payload <;> rfl
  | do_node_execution_state_changed node state => cases node <;> rfl
  | device_write_completion request_id ec => cases ec <;> rfl
  | compilation_completion request_id ec result => cases ec <;> rfl
  | breakpoints_completion request_id ec bps => rfl

theorem run_one_cfg (c : context) : (run_one c).cfg = c.cfg := by
  unfold run_one
  cases c.ep.m_strand with
  | nil => rfl
  | cons t rest => exact run_task_cfg t _

theorem step_stalled_cfg (s : session) (k : Nat) (ev : event) (h : s.stalled k)
    (hev : ev.is_receive = false ∨ 1 ≤ k) : (s.step ev).c.cfg = s.c.cfg := by
  obtain ⟨_, h2, h3, h4, _⟩ := h
  cases ev with
  | receive ec msg =>
    have hk : 1 ≤ k := by
      rcases hev with he | he
      · simp [event.is_receive] at he
      · exact he
    have hnone : s.c.ep.reads[s.reads_done]? = none := by
      rw [h3, h4]
      exact List.getElem?_eq_none (by simpa using hk)
    simp only [session.step, hnone]
  | write_done ec =>
    have : ¬ s.writes_done < s.c.ep.written.length := by simp [h2]
    simp only [session.step, this, if_false]
  | post t => rfl
  | run => exact run_one_cfg s.c
  | backend r n => rfl

theorem run_stalled_cfg (evs : List event) (s : session) (k : Nat) (h : s.stalled k)
    (hev : (∀ ev ∈ evs, ev.is_receive = false) ∨ 1 ≤ k) : (s.run evs).c.cfg = s.c.cfg := by
  induction evs generalizing s with
  | nil => rfl
  | cons ev evs ih =>
    have hev1 : ev.is_receive = false ∨ 1 ≤ k := by
      rcases hev with he | he
      · exact Or.inl (he ev (List.mem_cons_self _ _))
      · exact Or.inr he
    have hev2 : (∀ e ∈ evs, e.is_receive = false) ∨ 1 ≤ k := by
      rcases hev with he | he
      · exact Or.inl (fun e hm => he e (List.mem_cons_of_mem _ hm))
      · exact Or.inr he
    have := ih (s.step ev) (step_stalled s k ev h hev1) hev2
    simp only [session.run, List.foldl_cons] at this ⊢
    rw [this]
    exact step_stalled_cfg s k ev h hev1

theorem run_stalled (evs : List event) (s : session) (k : Nat) (h : s.stalled k)
    (hev : (∀ ev ∈ evs, ev.is_receive = false) ∨ 1 ≤ k) : (s.run evs).stalled k := by
  induction evs generalizing s with
  | nil => exact h
  | cons ev evs ih =>
    refine ih (s.step ev) (step_stalled s k ev h ?_) ?_
    · rcases hev with he | he
      · exact Or.inl (he ev (List.mem_cons_self _ _))
      · exact Or.inr he
    · rcases hev with he | he
      · exact Or.inl (fun e hm => he e (List.mem_cons_of_mem _ hm))
      · exact Or.inr he

/-- The first message fails the handshake: the endpoint stays stalled, with its one
read completed. -/
theorem first_message_stalled (s : session) (ec : Bool) (msg : request) (h : s.stalled 0)
    (hbad : ec = true ∨ handshake_compatible s.c.cfg msg = false) :
    (s.step (event.receive ec msg)).stalled 1 := by
  obtain ⟨h1, h2, h3, h4, h5⟩ := h
  have hsome : s.c.ep.reads[s.reads_done]? = some read_handler.handle_handshake := by
    rw [h3, h4]
    rfl
  obtain ⟨g1, g2, g3⟩ := handle_handshake_failed ec msg s.c h1 hbad
  simp only [session.step, hsome]
  exact ⟨g1, by rw [g2]; exact h2, by rw [g3]; exact h3, by simp [h4], h5⟩

/-- C11 (no processing after a failed handshake). Start an endpoint that has done
nothing yet, let anything but a message happen (`before`), then let the first message
arrive with a read error, or not be a `ConnectionHandshake`, or be a handshake with an
incompatible version range. Whatever happens afterwards (`after`: more bytes from the
client, node-change notifications, the strand running them): the endpoint has posted
no read but the first, no message has gone through `handle_read`, and no write was
started, so no `NodesChanged` was transmitted. -/
theorem C11_no_processing_after_failed_handshake (c : context) (before after : List event)
    (ec : Bool) (msg : request) (h0 : c.unstarted)
    (hbefore : ∀ ev ∈ before, ev.is_receive = false)
    (hbad : ec = true ∨ handshake_compatible c.cfg msg = false) :
    ((((session.start c).run before).step (event.receive ec msg)).run after).c.ep.reads
        = [read_handler.handle_handshake] ∧
      ((((session.start c).run before).step (event.receive ec msg)).run after).dispatched = [] ∧
      ((((session.start c).run before).step (event.receive ec msg)).run after).c.ep.written
        = [] := by
  have h1 := run_stalled before _ 0 (start_stalled c h0) (Or.inl hbefore)
  have hcfg : ((session.start c).run before).c.cfg = c.cfg :=
    run_stalled_cfg before _ 0 (start_stalled c h0) (Or.inl hbefore)
  have h2 := first_message_stalled _ ec msg h1 (by rw [hcfg]; exact hbad)
  obtain ⟨_, g2, g3, _, g5⟩ := run_stalled after _ 1 h2 (Or.inr (Nat.le_refl 1))
  exact ⟨g3, g5, g2⟩

/-- Witness of C11: the first message of the endpoint 2 is `RequestListOfNodes`. The
later `LockNode` request is never read, and the later node-change notification is
queued but not written. -/
theorem C11_no_processing_after_failed_handshake_witness :
    (failed_session.c.ep.reads = [read_handler.handle_handshake] ∧
      failed_session.dispatched = [] ∧ failed_session.c.ep.written = []) ∧
    failed_session.c.ep.m_queue =
      [message.NodesChanged
        [{ node_id := 7, status := status.busy, type := 0, name := "thymio",
           capabilities := 0 }]] :=
  ⟨C11_no_processing_after_failed_handshake (sample_context 2) [] sample_after false
      request.RequestListOfNodes ⟨rfl, rfl, rfl⟩ (by decide) (Or.inr (by decide)),
    by decide⟩

/-! ## The token of a handshake -/

/-- C12, the code at the failing input. The endpoint 2 is not local. Its
version-compatible handshake carries no token, and yet completes: the negotiated
version is 1, the node list is enqueued behind the reply and the next read is posted.
The same holds with any token, whatever the token manager thinks of it: the result of
`check_token` is not used. -/
theorem C12_handshake_completes_without_token :
    (sample_context 2).ep.m_local_endpoint = false ∧
      connected_context.ep.m_protocol_version = 1 ∧
      connected_context.ep.m_queue =
        [message.ConnectionHandshake 1 1 102400,
          message.NodesChanged
            [{ node_id := 7, status := status.available, type := 0, name := "thymio",
               capabilities := 0 }]] ∧
      connected_context.ep.reads = [read_handler.handle_handshake, read_handler.handle_read] ∧
      ∀ token, handle_handshake false (request.ConnectionHandshake 1 1 1024 token)
        (on_initialized (sample_context 2)) = connected_context :=
  ⟨rfl, by decide, by decide, by decide, fun _ => rfl⟩

/-! ## A second handshake -/

/-- C13, counterexample. The endpoint 2 completes its handshake and receives a second
`ConnectionHandshake`. It is not terminated: it posts the next read, and the `LockNode`
request that follows is read, dispatched and answered. -/
theorem C13_second_handshake_counterexample :
    connected_session.c.ep.m_protocol_version = 1 ∧
      second_handshake_session.dispatched =
        [request.ConnectionHandshake 1 1 1024 none, request.LockNode 5 7] ∧
      second_handshake_session.c.ep.reads =
        [read_handler.handle_handshake, read_handler.handle_read, read_handler.handle_read,
          read_handler.handle_read] ∧
      second_handshake_session.c.ep.m_queue.getLast? = some (message.RequestCompleted 5) ∧
      second_handshake_session.c.ep.m_locked_nodes = [(7, 0)] := by
  refine ⟨by decide, by decide, by decide, by decide, by decide⟩

/-- C13, amended. A `ConnectionHandshake` message received by an endpoint whose
handshake already completed (its pending read belongs to `handle_read`) is an
unsupported message: the endpoint posts the next read and does nothing else, and the
inbound message that follows is read and dispatched by `handle_read`. -/
theorem C13_second_handshake_is_ignored (s : session)
    (protocolVersion minProtocolVersion maxMessageSize : Nat) (token : Option (List Nat))
    (msg : request)
    (hread : s.c.ep.reads[s.reads_done]? = some read_handler.handle_read)
    (hone : s.reads_done + 1 = s.c.ep.reads.length) :
    (s.step (event.receive false
        (request.ConnectionHandshake protocolVersion minProtocolVersion maxMessageSize token))).c
      = read_next s.c ∧
    ((s.step (event.receive false
        (request.ConnectionHandshake protocolVersion minProtocolVersion maxMessageSize token))).step
        (event.receive false msg)).c
      = handle_read false msg (read_next s.c) ∧
    ((s.step (event.receive false
        (request.ConnectionHandshake protocolVersion minProtocolVersion maxMessageSize token))).step
        (event.receive false msg)).dispatched
      = s.dispatched ++
          [request.ConnectionHandshake protocolVersion minProtocolVersion maxMessageSize token,
            msg] := by
  have h1 : s.step (event.receive false
      (request.ConnectionHandshake protocolVersion minProtocolVersion maxMessageSize token))
      = { s with c := read_next s.c, reads_done := s.reads_done + 1,
                 dispatched := s.dispatched ++
                  [request.ConnectionHandshake protocolVersion minProtocolVersion
                    maxMessageSize token] } := by
    simp [session.step, hread, handle_read]
  have h2 : (read_next s.c).ep.reads[s.reads_done + 1]? = some read_handler.handle_read := by
    simp only [read_next, read_message, context.with_ep]
    rw [hone, List.getElem?_append_right (Nat.le_refl _)]
    simp
  rw [h1]
  refine ⟨rfl, ?_, ?_⟩
  · simp only [session.step, h2]
  · simp [session.step, h2]

/-- Witness of C13 amended: the second handshake of the counterexample, followed by a
`LockNode` request. -/
theorem C13_second_handshake_is_ignored_witness :
    (connected_session.step
        (event.receive false (request.ConnectionHandshake 1 1 1024 none))).c
      = read_next connected_session.c ∧
    second_handshake_session.c
      = handle_read false (request.LockNode 5 7) (read_next connected_session.c) ∧
    second_handshake_session.dispatched
      = connected_session.dispatched ++
          [request.ConnectionHandshake 1 1 1024 none, request.LockNode 5 7] :=
  C13_second_handshake_is_ignored connected_session 1 1 1024 none (request.LockNode 5 7)
    (by decide) (by decide)

/-! ## A successful handshake -/

@[simp] theorem write_message_version (m : message) (e : application_endpoint) :
    (write_message m e).m_protocol_version = e.m_protocol_version := by
  unfold write_message do_write_message
  simp only
  split
  · rfl
  · split <;> rfl

@[simp] theorem write_message_reads (m : message) (e : application_endpoint) :
    (write_message m e).reads = e.reads := by
  unfold write_message do_write_message
  simp only
  split
  · rfl
  · split <;> rfl

@[simp] theorem write_version (c : context) (m : message) :
    (c.write m).ep.m_protocol_version = c.ep.m_protocol_version := by
  simp [context.write, context.with_ep]

@[simp] theorem write_reads (c : context) (m : message) :
    (c.write m).ep.reads = c.ep.reads := by
  simp [context.write, context.with_ep]

theorem full_node_entry_ids (reg : List (node_id × node_ref)) (c : context) :
    (reg.filterMap (full_node_entry c)).map (fun n => n.node_id) =
      (reg.filter (fun p => (c.nodes p.2).isSome)).map Prod.fst := by
  induction reg with
  | nil => rfl
  | cons p reg ih =>
    cases hn : c.nodes p.2 with
    | none =>
      have h1 : full_node_entry c p = none := by simp [full_node_entry, weak_lock, hn]
      simp only [List.filterMap_cons, h1, List.filter_cons, hn, Option.isSome_none,
        Bool.false_eq_true, if_false]
      exact ih
    | some n =>
      have h1 : full_node_entry c p = some (create_node c p.1 n.m_status p.2 n) := by
        simp [full_node_entry, weak_lock, hn]
      simp only [List.filterMap_cons, h1, List.filter_cons, hn, Option.isSome_some, if_true,
        List.map_cons, ih]
      rfl

/-- The node list `send_full_node_list` enqueues has one entry for each pair of the
registry whose node is alive, in order, and none for the others. -/
theorem send_full_node_list_queue (c : context) :
    ∃ nodes, (send_full_node_list c).ep.m_queue = c.ep.m_queue ++ [message.NodesChanged nodes] ∧
      nodes.map (fun n => n.node_id) = alive_ids c :=
  ⟨_, write_queue _ _, full_node_entry_ids c.reg c⟩

/-- The steps of `handle_handshake` on a handshake whose version range meets the
server's. -/
theorem handle_handshake_compatible (c : context)
    (protocolVersion minProtocolVersion maxMessageSize : Nat) (token : Option (List Nat))
    (hok : ¬ (protocolVersion < c.cfg.minProtocolVersion ∨
      c.cfg.protocolVersion < minProtocolVersion))
    (c2 : context)
    (hc2 : c2 = (c.with_ep (fun e =>
        { e with m_protocol_version := (min protocolVersion c.cfg.protocolVersion) % 2 ^ 16,
                 m_max_out_going_packet_size := maxMessageSize % 2 ^ 16 })).write
      (message.ConnectionHandshake c.cfg.minProtocolVersion
        ((min protocolVersion c.cfg.protocolVersion) % 2 ^ 16)
        c.cfg.maxAppEndPointMessageSize)) :
    handle_handshake false
        (request.ConnectionHandshake protocolVersion minProtocolVersion maxMessageSize token) c
      = if (min protocolVersion c.cfg.protocolVersion) % 2 ^ 16 = 0 then c2
        else read_next (send_full_node_list c2) := by
  subst hc2
  simp only [handle_handshake, Bool.false_eq_true, if_false, hok, write_version, context.with_ep]

/-- C14 (the node list after the handshake). The constants of `tdm.h` being valid
versions, every handshake whose version range meets the server's makes
`handle_handshake` enqueue the server's `ConnectionHandshake` reply immediately
followed by one `NodesChanged` message whose entries are, in order, one for each node
of the registry that is still alive and none for the expired ones, and then post the
next read. On an empty outbound queue these two messages are the queue. -/
theorem C14_handshake_sends_node_list (c : context)
    (protocolVersion minProtocolVersion maxMessageSize : Nat) (token : Option (List Nat))
    (hcfg : c.cfg.versions_valid)
    (hok : ¬ (protocolVersion < c.cfg.minProtocolVersion ∨
      c.cfg.protocolVersion < minProtocolVersion)) :
    ∃ nodes,
      (handle_handshake false
          (request.ConnectionHandshake protocolVersion minProtocolVersion maxMessageSize token)
          c).ep.m_queue
        = c.ep.m_queue ++
          [message.ConnectionHandshake c.cfg.minProtocolVersion
              (min protocolVersion c.cfg.protocolVersion) c.cfg.maxAppEndPointMessageSize,
            message.NodesChanged nodes] ∧
      nodes.map (fun n => n.node_id) = alive_ids c ∧
      (handle_handshake false
          (request.ConnectionHandshake protocolVersion minProtocolVersion maxMessageSize token)
          c).ep.reads = c.ep.reads ++ [read_handler.handle_read] := by
  obtain ⟨h1, h2, h3⟩ := hcfg
  have hle : min protocolVersion c.cfg.protocolVersion ≤ c.cfg.protocolVersion :=
    Nat.min_le_right _ _
  have hpos : 0 < min protocolVersion c.cfg.protocolVersion := by
    have : c.cfg.minProtocolVersion ≤ protocolVersion := by
      by_contra hlt
      exact hok (Or.inl (Nat.lt_of_not_le hlt))
    exact Nat.lt_min.mpr ⟨Nat.lt_of_lt_of_le h1 this, h2⟩
  have hmod : (min protocolVersion c.cfg.protocolVersion) % 2 ^ 16
      = min protocolVersion c.cfg.protocolVersion :=
    Nat.mod_eq_of_lt (Nat.lt_of_le_of_lt hle h3)
  rw [handle_handshake_compatible c protocolVersion minProtocolVersion maxMessageSize token hok
    _ rfl, hmod, if_neg (Nat.pos_iff_ne_zero.mp hpos)]
  generalize hc2 : (c.with_ep (fun e =>
        { e with m_protocol_version := min protocolVersion c.cfg.protocolVersion,
                 m_max_out_going_packet_size := maxMessageSize % 2 ^ 16 })).write
      (message.ConnectionHandshake c.cfg.minProtocolVersion
        (min protocolVersion c.cfg.protocolVersion) c.cfg.maxAppEndPointMessageSize) = c2
  have hq : c2.ep.m_queue = c.ep.m_queue ++
      [message.ConnectionHandshake c.cfg.minProtocolVersion
        (min protocolVersion c.cfg.protocolVersion) c.cfg.maxAppEndPointMessageSize] := by
    rw [← hc2, write_queue]
    rfl
  have hr : c2.ep.reads = c.ep.reads := by
    rw [← hc2, write_reads]
    rfl
  have ha : alive_ids c2 = alive_ids c := by
    rw [← hc2]
    rfl
  obtain ⟨nodes, g1, g2⟩ := send_full_node_list_queue c2
  refine ⟨nodes, ?_, g2.trans ha, ?_⟩
  · show (send_full_node_list c2).ep.m_queue = _
    rw [g1, hq, List.append_assoc]
    rfl
  · show (send_full_node_list c2).ep.reads ++ [read_handler.handle_read] = _
    rw [send_full_node_list, write_reads, hr]

/-- Witness of C14: the handshake of the endpoint 2 on the sample registry. -/
theorem C14_handshake_sends_node_list_witness :
    sample_cfg.versions_valid ∧ alive_ids (on_initialized (sample_context 2)) = [7] ∧
    ∃ nodes,
      connected_context.ep.m_queue
        = (on_initialized (sample_context 2)).ep.m_queue ++
          [message.ConnectionHandshake 1 (min 1 1) 102400, message.NodesChanged nodes] ∧
      nodes.map (fun n => n.node_id) = alive_ids (on_initialized (sample_context 2)) ∧
      connected_context.ep.reads
        = (on_initialized (sample_context 2)).ep.reads ++ [read_handler.handle_read] :=
  ⟨⟨by decide, by decide, by decide⟩, by decide,
    C14_handshake_sends_node_list (on_initialized (sample_context 2)) 1 1 1024 none
      ⟨by decide, by decide, by decide⟩ (by decide)⟩

/-! ## The negotiated version -/

/-- C15 (the negotiated version). On an endpoint that has not completed a handshake,
the server's protocol version fitting `uint16_t`: for every handshake whose version
range meets the server's, the version the endpoint stores, which is also the one the
reply it enqueues carries, is the minimum of the client's and the server's protocol
versions; for every handshake with a disjoint range it is 0. -/
theorem C15_negotiated_version (c : context)
    (protocolVersion minProtocolVersion maxMessageSize : Nat) (token : Option (List Nat))
    (h0 : c.ep.m_protocol_version = 0) (hpv : c.cfg.protocolVersion < 2 ^ 16) :
    (¬ (protocolVersion < c.cfg.minProtocolVersion ∨
        c.cfg.protocolVersion < minProtocolVersion) →
      (handle_handshake false
          (request.ConnectionHandshake protocolVersion minProtocolVersion maxMessageSize token)
          c).ep.m_protocol_version = min protocolVersion c.cfg.protocolVersion ∧
      (handle_handshake false
          (request.ConnectionHandshake protocolVersion minProtocolVersion maxMessageSize token)
          c).ep.m_queue[c.ep.m_queue.length]?
        = some (message.ConnectionHandshake c.cfg.minProtocolVersion
            (min protocolVersion c.cfg.protocolVersion) c.cfg.maxAppEndPointMessageSize)) ∧
    ((protocolVersion < c.cfg.minProtocolVersion ∨
        c.cfg.protocolVersion < minProtocolVersion) →
      (handle_handshake false
          (request.ConnectionHandshake protocolVersion minProtocolVersion maxMessageSize token)
          c).ep.m_protocol_version = 0 ∧
      (handle_handshake false
          (request.ConnectionHandshake protocolVersion minProtocolVersion maxMessageSize token)
          c).ep.m_queue[c.ep.m_queue.length]?
        = some (message.ConnectionHandshake c.cfg.minProtocolVersion 0
            c.cfg.maxAppEndPointMessageSize)) := by
  refine ⟨fun hok => ?_, fun hbad => ?_⟩
  · have hmod : (min protocolVersion c.cfg.protocolVersion) % 2 ^ 16
        = min protocolVersion c.cfg.protocolVersion :=
      Nat.mod_eq_of_lt (Nat.lt_of_le_of_lt (Nat.min_le_right _ _) hpv)
    rw [handle_handshake_compatible c protocolVersion minProtocolVersion maxMessageSize token
      hok _ rfl, hmod]
    generalize hc2 : (c.with_ep (fun e =>
          { e with m_protocol_version := min protocolVersion c.cfg.protocolVersion,
                   m_max_out_going_packet_size := maxMessageSize % 2 ^ 16 })).write
        (message.ConnectionHandshake c.cfg.minProtocolVersion
          (min protocolVersion c.cfg.protocolVersion) c.cfg.maxAppEndPointMessageSize) = c2
    have hq : c2.ep.m_queue = c.ep.m_queue ++
        [message.ConnectionHandshake c.cfg.minProtocolVersion
          (min protocolVersion c.cfg.protocolVersion) c.cfg.maxAppEndPointMessageSize] := by
      rw [← hc2, write_queue]
      rfl
    have hv : c2.ep.m_protocol_version = min protocolVersion c.cfg.protocolVersion := by
      rw [← hc2, write_version]
      rfl
    by_cases hz : min protocolVersion c.cfg.protocolVersion = 0
    · rw [if_pos hz]
      refine ⟨hv, ?_⟩
      rw [hq, List.getElem?_append_right (Nat.le_refl _)]
      simp
    · rw [if_neg hz]
      refine ⟨?_, ?_⟩
      · show (send_full_node_list c2).ep.m_protocol_version = _
        rw [send_full_node_list, write_version, hv]
      · show (send_full_node_list c2).ep.m_queue[c.ep.m_queue.length]? = _
        rw [send_full_node_list, write_queue, hq, List.append_assoc,
          List.getElem?_append_right (Nat.le_refl _)]
        simp
  · have hc : handshake_compatible c.cfg
        (request.ConnectionHandshake protocolVersion minProtocolVersion maxMessageSize token)
        = false := by
      simp only [handshake_compatible, Bool.not_eq_false', Bool.or_eq_true, decide_eq_true_eq]
      exact hbad
    obtain ⟨g1, _, _⟩ := handle_handshake_failed false _ c h0 (Or.inr hc)
    obtain ⟨k1, _, _⟩ := handshake_mismatch_starts_no_write c protocolVersion
      minProtocolVersion maxMessageSize token h0 hbad
    refine ⟨g1, ?_⟩
    rw [k1, List.getElem?_append_right (Nat.le_refl _)]
    simp

/-- Witness of C15: on the server of version 1, the handshake of a client of version
3 that accepts version 1 negotiates 1, and the handshake of a client that wants
version 99 at least negotiates 0. -/
theorem C15_negotiated_version_witness :
    ((handle_handshake false (request.ConnectionHandshake 3 1 1024 none)
          (on_initialized (sample_context 2))).ep.m_protocol_version = min 3 1 ∧
      (handle_handshake false (request.ConnectionHandshake 3 1 1024 none)
          (on_initialized (sample_context 2))).ep.m_queue[0]?
        = some (message.ConnectionHandshake 1 (min 3 1) 102400)) ∧
    (mismatch_context.ep.m_protocol_version = 0 ∧
      mismatch_context.ep.m_queue[0]? = some (message.ConnectionHandshake 1 0 102400)) :=
  ⟨(C15_negotiated_version (on_initialized (sample_context 2)) 3 1 1024 none rfl
      (by decide)).1 (by decide),
    (C15_negotiated_version (on_initialized (sample_context 2)) 99 99 1024 none rfl
      (by decide)).2 (by decide)⟩

/-! ## The order of the writes -/

theorem write_step_consistent (w : writer) (m : message) (h : w.consistent) :
    (w.step (queue_op.write m)).consistent := by
  obtain ⟨done, hp, hcase⟩ := h
  simp only [writer.step, writer.consistent]
  refine ⟨done, by rw [write_message_queue, hp, List.append_assoc], ?_⟩
  rcases hcase with ⟨h1, h2⟩ | ⟨h1, front, rest, h3, h4⟩
  · -- no write in flight
    unfold write_message do_write_message
    simp only
    by_cases hstart : ((w.ep.m_queue ++ [m]).length > 1 || w.ep.m_protocol_version == 0) = true
    · rw [if_pos hstart]
      exact Or.inl ⟨h1, h2⟩
    · rw [if_neg hstart]
      have hq : w.ep.m_queue = [] := by
        cases hq : w.ep.m_queue with
        | nil => rfl
        | cons a l =>
          rw [hq] at hstart
          simp at hstart
      simp only [hq, List.nil_append]
      refine Or.inr ⟨by simp [h1], m, [], rfl, ?_⟩
      rw [h2]
  · -- a write in flight: the queue is not empty
    unfold write_message do_write_message
    simp only
    have hstart : ((w.ep.m_queue ++ [m]).length > 1 || w.ep.m_protocol_version == 0) = true := by
      rw [h3]
      simp
    rw [if_pos hstart]
    refine Or.inr ⟨h1, front, rest ++ [m], by simp [h3], h4⟩

theorem complete_step_consistent (w : writer) (ec : Bool) (h : w.consistent) :
    (w.step (queue_op.complete ec)).consistent := by
  obtain ⟨done, hp, hcase⟩ := h
  rcases hcase with ⟨h1, h2⟩ | ⟨h1, front, rest, h3, h4⟩
  · have : ¬ w.completed < w.ep.written.length := by omega
    simp only [writer.step, this, if_false]
    exact ⟨done, hp, Or.inl ⟨h1, h2⟩⟩
  · have hlt : w.completed < w.ep.written.length := by omega
    simp only [writer.step, hlt, if_true, handle_write, h3]
    cases rest with
    | nil =>
      refine ⟨done ++ [front], ?_, Or.inl ⟨h1, h4⟩⟩
      simp only [hp, h3, List.append_nil]
    | cons next rest =>
      refine ⟨done ++ [front], ?_, Or.inr ⟨?_, next, rest, rfl, ?_⟩⟩
      · simp only [hp, h3, List.append_assoc, List.singleton_append, do_write_message]
      · simp only [do_write_message, List.length_append, List.length_singleton]
        omega
      · simp only [do_write_message, h4]

theorem step_consistent (w : writer) (op : queue_op) (h : w.consistent) :
    (w.step op).consistent := by
  cases op with
  | write m => exact write_step_consistent w m h
  | complete ec => exact complete_step_consistent w ec h
  | negotiate v => exact h

theorem run_consistent (ops : List queue_op) (w : writer) (h : w.consistent) :
    (w.run ops).consistent := by
  induction ops generalizing w with
  | nil => exact h
  | cons op ops ih => exact ih (w.step op) (step_consistent w op h)

theorem start_consistent (e : application_endpoint) (hq : e.m_queue = [])
    (hw : e.written = []) : (writer.start e).consistent :=
  ⟨[], by simp [writer.start, hq], Or.inl ⟨by simp [writer.start, hw], by simp [writer.start, hw]⟩⟩

theorem consistent_prefix (w : writer) (h : w.consistent) : w.ep.written <+: w.passed := by
  obtain ⟨done, hp, hcase⟩ := h
  rcases hcase with ⟨_, h2⟩ | ⟨_, front, rest, h3, h4⟩
  · rw [h2, hp]
    exact List.prefix_append _ _
  · rw [h4, hp, h3]
    exact ⟨rest, by simp⟩

/-- C16 (outbound FIFO). On an endpoint whose queue is empty and which has written
nothing, after every interleaving of `write_message` calls and `handle_write`
completions (and of the handshake setting the negotiated version), the sequence of
buffers handed to `do_write_message` is a prefix of the sequence of buffers passed to
`write_message`: same order, none written twice, none skipped. -/
theorem C16_outbound_fifo (e : application_endpoint) (hq : e.m_queue = [])
    (hw : e.written = []) (ops : List queue_op) :
    ((writer.start e).run ops).ep.written <+: ((writer.start e).run ops).passed :=
  consistent_prefix _ (run_consistent ops _ (start_consistent e hq hw))

/-- Witness of C16: after the handshake three messages are passed to `write_message`
and two writes complete; the three buffers were written in that order. -/
theorem C16_outbound_fifo_witness :
    ((writer.start application_endpoint.fresh).run sample_queue_ops).ep.written
        <+: ((writer.start application_endpoint.fresh).run sample_queue_ops).passed ∧
      ((writer.start application_endpoint.fresh).run sample_queue_ops).ep.written
        = [message.ConnectionHandshake 1 1 102400, message.NodesChanged [],
            message.RequestCompleted 5] :=
  ⟨C16_outbound_fifo application_endpoint.fresh rfl rfl sample_queue_ops, by decide⟩

/-! ## The framing of the client endpoint -/

theorem read_header_length (s s1 : ThymioDeviceManagerClientEndpoint)
    (h : read_header s = some s1) :
    s1.m_socket.length ≤ s.m_socket.length ∧
      (s.m_message_size = 0 → s1.m_socket.length + 4 = s.m_socket.length) ∧
      (s.m_message_size ≠ 0 → s1 = s) := by
  unfold read_header at h
  by_cases hm : s.m_message_size = 0
  · rw [if_pos hm] at h
    by_cases hl : s.m_socket.length < 4
    · rw [if_pos hl] at h
      exact absurd h (by simp)
    · rw [if_neg hl] at h
      have := Option.some.inj h
      subst this
      simp only [List.length_drop]
      exact ⟨by omega, fun _ => by omega, fun h' => absurd hm h'⟩
  · rw [if_neg hm] at h
    have := Option.some.inj h
    subst this
    exact ⟨Nat.le_refl _, fun h' => absurd h' hm, fun _ => rfl⟩

/-- A turn of the loop that does not return reads at least one byte. -/
theorem read_iteration_lt (verify : List Nat → Bool) (s : ThymioDeviceManagerClientEndpoint)
    (h : (read_iteration verify s).2 = true) :
    (read_iteration verify s).1.m_socket.length < s.m_socket.length := by
  unfold read_iteration at h ⊢
  cases hh : read_header s with
  | none => simp [hh] at h
  | some s1 =>
    simp only [hh] at h ⊢
    obtain ⟨g1, g2, g3⟩ := read_header_length s s1 hh
    unfold read_payload at h ⊢
    by_cases hl : s1.m_socket.length < s1.m_message_size
    · simp [hl] at h
    · simp only [hl, if_false]
      have hlen : ∀ (x : ThymioDeviceManagerClientEndpoint) (d : List Nat),
          (x.handleIncommingMessage d).m_socket = x.m_socket := fun _ _ => rfl
      rw [hlen]
      have hsock : (if (!verify (List.take s1.m_message_size s1.m_socket)) = true then
          { ({ s1 with m_socket := s1.m_socket.drop s1.m_message_size, m_message_size := 0 } :
              ThymioDeviceManagerClientEndpoint) with
            warnings := s1.warnings + 1 }
          else { s1 with m_socket := s1.m_socket.drop s1.m_message_size,
                         m_message_size := 0 }).m_socket
          = s1.m_socket.drop s1.m_message_size := by
        split <;> rfl
      rw [hsock, List.length_drop]
      by_cases hm : s.m_message_size = 0
      · have := g2 hm
        omega
      · have := g3 hm
        subst this
        omega

theorem read_loop_some (verify : List Nat → Bool) (fuel : Nat)
    (s : ThymioDeviceManagerClientEndpoint) (h : s.m_socket.length < fuel) :
    ∃ s', read_loop verify fuel s = some s' := by
  induction fuel generalizing s with
  | zero => exact absurd h (Nat.not_lt_zero _)
  | succ fuel ih =>
    unfold read_loop
    by_cases hc : (read_iteration verify s).2 = true
    · rw [if_pos hc]
      have := read_iteration_lt verify s hc
      exact ih _ (by omega)
    · rw [if_neg hc]
      exact ⟨_, rfl⟩

theorem read_loop_mono (verify : List Nat → Bool) (fuel k : Nat)
    (s s' : ThymioDeviceManagerClientEndpoint) (h : read_loop verify fuel s = some s') :
    read_loop verify (fuel + k) s = some s' := by
  induction fuel generalizing s with
  | zero => simp [read_loop] at h
  | succ fuel ih =>
    have : fuel + 1 + k = (fuel + k) + 1 := by omega
    rw [this]
    unfold read_loop at h ⊢
    by_cases hc : (read_iteration verify s).2 = true
    · rw [if_pos hc] at h ⊢
      exact ih _ h
    · rw [if_neg hc] at h ⊢
      exact h

/-- The loop of `onReadyRead` returns: the fuel given to it is enough. -/
theorem onReadyRead_returns (verify : List Nat → Bool) (s : ThymioDeviceManagerClientEndpoint) :
    read_loop verify (s.m_socket.length + 1) s = some (s.onReadyRead verify) := by
  obtain ⟨s', h⟩ := read_loop_some verify (s.m_socket.length + 1) s (Nat.lt_succ_self _)
  simp [ThymioDeviceManagerClientEndpoint.onReadyRead, h]

/-- The loop of `onReadyRead`, turn by turn. -/
theorem onReadyRead_unfold (verify : List Nat → Bool) (s : ThymioDeviceManagerClientEndpoint) :
    s.onReadyRead verify =
      if (read_iteration verify s).2 then (read_iteration verify s).1.onReadyRead verify
      else (read_iteration verify s).1 := by
  have h := onReadyRead_returns verify s
  unfold read_loop at h
  by_cases hc : (read_iteration verify s).2 = true
  · rw [if_pos hc] at h ⊢
    have hlt := read_iteration_lt verify s hc
    have h2 := onReadyRead_returns verify (read_iteration verify s).1
    have h3 := read_loop_mono verify _
      (s.m_socket.length - ((read_iteration verify s).1.m_socket.length + 1)) _ _ h2
    have : (read_iteration verify s).1.m_socket.length + 1 +
        (s.m_socket.length - ((read_iteration verify s).1.m_socket.length + 1))
        = s.m_socket.length := by omega
    rw [this, h] at h3
    exact Option.some.inj h3
  · rw [if_neg hc] at h ⊢
    exact (Option.some.inj h).symm

theorem read_header_arrive (s s1 : ThymioDeviceManagerClientEndpoint) (c : List Nat)
    (h : read_header s = some s1) : read_header (s.arrive c) = some (s1.arrive c) := by
  unfold read_header at h ⊢
  by_cases hm : s.m_message_size = 0
  · have hm' : (s.arrive c).m_message_size = 0 := hm
    rw [if_pos hm] at h
    rw [if_pos hm']
    by_cases hl : s.m_socket.length < 4
    · rw [if_pos hl] at h
      exact absurd h (by simp)
    · rw [if_neg hl] at h
      have hl' : ¬ (s.arrive c).m_socket.length < 4 := by
        simp only [ThymioDeviceManagerClientEndpoint.arrive, List.length_append]
        omega
      rw [if_neg hl']
      have := Option.some.inj h
      subst this
      simp only [ThymioDeviceManagerClientEndpoint.arrive,
        List.take_append_of_le_length (Nat.le_of_not_lt hl),
        List.drop_append_of_le_length (Nat.le_of_not_lt hl)]
  · have hm' : ¬ (s.arrive c).m_message_size = 0 := hm
    rw [if_neg hm] at h
    rw [if_neg hm']
    have := Option.some.inj h
    subst this
    rfl

theorem read_payload_arrive (verify : List Nat → Bool) (s : ThymioDeviceManagerClientEndpoint)
    (c : List Nat) (h : (read_payload verify s).2 = true) :
    read_payload verify (s.arrive c) = ((read_payload verify s).1.arrive c, true) := by
  unfold read_payload at h ⊢
  by_cases hl : s.m_socket.length < s.m_message_size
  · simp [hl] at h
  · have hl' : ¬ (s.arrive c).m_socket.length < (s.arrive c).m_message_size := by
      simp only [ThymioDeviceManagerClientEndpoint.arrive, List.length_append]
      omega
    rw [if_neg hl']
    rw [if_neg hl]
    simp only [ThymioDeviceManagerClientEndpoint.arrive,
      List.take_append_of_le_length (Nat.le_of_not_lt hl),
      List.drop_append_of_le_length (Nat.le_of_not_lt hl)]
    split <;> rfl

/-- A turn of the loop that does not return does the same when more bytes have
arrived, and leaves them in the socket. -/
theorem read_iteration_arrive (verify : List Nat → Bool)
    (s : ThymioDeviceManagerClientEndpoint) (c : List Nat)
    (h : (read_iteration verify s).2 = true) :
    read_iteration verify (s.arrive c) = ((read_iteration verify s).1.arrive c, true) := by
  unfold read_iteration at h ⊢
  cases hh : read_header s with
  | none => simp [hh] at h
  | some s1 =>
    simp only [hh] at h ⊢
    rw [read_header_arrive s s1 c hh]
    exact read_payload_arrive verify s1 c h

/-- A turn of the loop that returns leaves a state from which, when more bytes have
arrived, the loop does what it would have done from the state before. -/
theorem read_iteration_stop_arrive (verify : List Nat → Bool)
    (s : ThymioDeviceManagerClientEndpoint) (c : List Nat)
    (h : (read_iteration verify s).2 = false) :
    read_iteration verify ((read_iteration verify s).1.arrive c) =
      read_iteration verify (s.arrive c) := by
  unfold read_iteration at h
  cases hh : read_header s with
  | none =>
    have : (read_iteration verify s).1 = s := by simp [read_iteration, hh]
    rw [this]
  | some s1 =>
    simp only [hh] at h
    have hstop : read_payload verify s1 = (s1, false) := by
      unfold read_payload at h ⊢
      by_cases hl : s1.m_socket.length < s1.m_message_size
      · rw [if_pos hl]
      · rw [if_neg hl] at h
        exact absurd h (by simp)
    have hne : s1.m_message_size ≠ 0 := by
      intro hz
      unfold read_payload at h
      rw [hz] at h
      simp at h
    have h1 : (read_iteration verify s).1 = s1 := by
      simp [read_iteration, hh, hstop]
    rw [h1]
    have h2 : read_header (s1.arrive c) = some (s1.arrive c) := by
      unfold read_header
      have : ¬ (s1.arrive c).m_message_size = 0 := hne
      rw [if_neg this]
    simp only [read_iteration, h2, read_header_arrive s s1 c hh]

/-- Reading is incremental: what `onReadyRead` makes of bytes that arrive after it
has run is what it would have made of them had they been there from the start. -/
theorem onReadyRead_arrive (verify : List Nat → Bool) (c : List Nat) (n : Nat) :
    ∀ s : ThymioDeviceManagerClientEndpoint, s.m_socket.length ≤ n →
      ((s.onReadyRead verify).arrive c).onReadyRead verify =
        (s.arrive c).onReadyRead verify := by
  induction n with
  | zero =>
    intro s hs
    by_cases hc : (read_iteration verify s).2 = true
    · have := read_iteration_lt verify s hc
      omega
    · have hc' : (read_iteration verify s).2 = false := by simpa using hc
      rw [onReadyRead_unfold verify s, if_neg hc,
        onReadyRead_unfold verify ((read_iteration verify s).1.arrive c),
        onReadyRead_unfold verify (s.arrive c), read_iteration_stop_arrive verify s c hc']
  | succ n ih =>
    intro s hs
    by_cases hc : (read_iteration verify s).2 = true
    · have hlt := read_iteration_lt verify s hc
      rw [onReadyRead_unfold verify s, if_pos hc, ih _ (by omega),
        onReadyRead_unfold verify (s.arrive c), read_iteration_arrive verify s c hc]
      simp
    · have hc' : (read_iteration verify s).2 = false := by simpa using hc
      rw [onReadyRead_unfold verify s, if_neg hc,
        onReadyRead_unfold verify ((read_iteration verify s).1.arrive c),
        onReadyRead_unfold verify (s.arrive c), read_iteration_stop_arrive verify s c hc']

theorem arrive_nil (s : ThymioDeviceManagerClientEndpoint) : s.arrive [] = s := by
  simp [ThymioDeviceManagerClientEndpoint.arrive]

theorem arrive_arrive (s : ThymioDeviceManagerClientEndpoint) (a b : List Nat) :
    (s.arrive a).arrive b = s.arrive (a ++ b) := by
  simp [ThymioDeviceManagerClientEndpoint.arrive]

theorem onReadyRead_idem (verify : List Nat → Bool) (s : ThymioDeviceManagerClientEndpoint) :
    (s.onReadyRead verify).onReadyRead verify = s.onReadyRead verify := by
  have := onReadyRead_arrive verify [] s.m_socket.length s (Nat.le_refl _)
  rwa [arrive_nil, arrive_nil] at this

/-- Bytes that arrive in chunks are read as if they had arrived at once. -/
theorem receive_chunks (verify : List Nat → Bool) (chunks : List (List Nat))
    (s : ThymioDeviceManagerClientEndpoint) (hq : s.onReadyRead verify = s) :
    chunks.foldl (ThymioDeviceManagerClientEndpoint.receive verify) s =
      (s.arrive chunks.flatten).onReadyRead verify := by
  induction chunks generalizing s with
  | nil => simp [arrive_nil, hq]
  | cons c cs ih =>
    simp only [List.foldl_cons, List.flatten_cons]
    rw [ih _ (by
      simp only [ThymioDeviceManagerClientEndpoint.receive]
      exact onReadyRead_idem verify _)]
    simp only [ThymioDeviceManagerClientEndpoint.receive]
    rw [onReadyRead_arrive verify cs.flatten (s.arrive c).m_socket.length (s.arrive c)
      (Nat.le_refl _), arrive_arrive]

theorem read_le32_le32 (n : Nat) (h : n < 2 ^ 32) : read_le32 (le32 n) = n := by
  simp only [le32, read_le32]
  omega

theorem frame_eq (p : List Nat) (h : p.length < 2 ^ 32) : frame p = le32 p.length ++ p := by
  unfold frame
  rw [Nat.mod_eq_of_lt h]

/-- One turn of the loop on a socket that starts with a frame: the payload of the
frame is handed over, the rest stays in the socket. -/
theorem read_iteration_frame (verify : List Nat → Bool) (p rest : List Nat)
    (s : ThymioDeviceManagerClientEndpoint) (hp : p.length < 2 ^ 32)
    (hm : s.m_message_size = 0) (hs : s.m_socket = frame p ++ rest) :
    (read_iteration verify s).2 = true ∧ (read_iteration verify s).1.m_socket = rest ∧
      (read_iteration verify s).1.m_message_size = 0 ∧
      (read_iteration verify s).1.incoming = s.incoming ++ [p] := by
  have hframe : s.m_socket = le32 p.length ++ (p ++ rest) := by
    rw [hs, frame_eq p hp, List.append_assoc]
  have hlen : ¬ s.m_socket.length < 4 := by
    rw [hframe]
    simp [le32]
  have htake : s.m_socket.take 4 = le32 p.length := by
    rw [hframe]
    simp [le32]
  have hdrop : s.m_socket.drop 4 = p ++ rest := by
    rw [hframe]
    simp [le32]
  have hh : read_header s = some { s with m_message_size := p.length, m_socket := p ++ rest } := by
    unfold read_header
    rw [if_pos hm, if_neg hlen, htake, hdrop, read_le32_le32 p.length hp]
  unfold read_iteration
  rw [hh]
  unfold read_payload
  simp only [List.length_append, List.take_left', List.drop_left']
  have : ¬ p.length + rest.length < p.length := by omega
  rw [if_neg this]
  refine ⟨rfl, ?_, ?_, ?_⟩
  · simp only [ThymioDeviceManagerClientEndpoint.handleIncommingMessage]
    split <;> rfl
  · simp only [ThymioDeviceManagerClientEndpoint.handleIncommingMessage]
    split <;> rfl
  · simp only [ThymioDeviceManagerClientEndpoint.handleIncommingMessage]
    split <;> rfl

/-- A socket that holds whole frames is read to the end: every payload is handed
over, in order. -/
theorem read_frames (verify : List Nat → Bool) (payloads : List (List Nat))
    (hsize : ∀ p ∈ payloads, p.length < 2 ^ 32) (s : ThymioDeviceManagerClientEndpoint)
    (hm : s.m_message_size = 0) (hs : s.m_socket = (payloads.map frame).flatten) :
    (s.onReadyRead verify).incoming = s.incoming ++ payloads ∧
      (s.onReadyRead verify).m_socket = [] ∧ (s.onReadyRead verify).m_message_size = 0 := by
  induction payloads generalizing s with
  | nil =>
    have hh : read_header s = none := by
      unfold read_header
      rw [if_pos hm, hs]
      simp
    rw [onReadyRead_unfold]
    simp only [read_iteration, hh, Bool.false_eq_true, if_false, List.append_nil]
    exact ⟨trivial, by simpa using hs, hm⟩
  | cons p ps ih =>
    obtain ⟨g1, g2, g3, g4⟩ := read_iteration_frame verify p (ps.map frame).flatten s
      (hsize p (List.mem_cons_self _ _)) hm (by simpa using hs)
    rw [onReadyRead_unfold, if_pos g1]
    obtain ⟨i1, i2, i3⟩ := ih (fun q hq => hsize q (List.mem_cons_of_mem _ hq)) _ g3 g2
    refine ⟨?_, i2, i3⟩
    rw [i1, g4, List.append_assoc]
    rfl

theorem write_all_sent (payloads : List (List Nat)) (s : ThymioDeviceManagerClientEndpoint) :
    (payloads.foldl ThymioDeviceManagerClientEndpoint.write s).sent =
      s.sent ++ (payloads.map frame).flatten := by
  induction payloads generalizing s with
  | nil => simp
  | cons p ps ih =>
    simp only [List.foldl_cons, List.map_cons, List.flatten_cons]
    rw [ih]
    simp [ThymioDeviceManagerClientEndpoint.write]

/-- C17 (framed round trip, little-endian host). For every list of payloads, each
shorter than 2^32 bytes (the size is written as a `uint32_t`): the bytes `write`
produces for a payload are the four bytes of its length, least significant first,
followed by the payload; and when the bytes written for the whole list reach
`onReadyRead` cut in arbitrary chunks, exactly the payloads of the list, in order,
are handed to `handleIncommingMessage`, nothing being left in the socket. -/
theorem C17_framed_round_trip (verify : List Nat → Bool) (payloads : List (List Nat))
    (chunks : List (List Nat)) (hsize : ∀ p ∈ payloads, p.length < 2 ^ 32)
    (hchunks : chunks.flatten = written_stream payloads) :
    (∀ p ∈ payloads,
      (ThymioDeviceManagerClientEndpoint.fresh.write p).sent =
        [p.length % 256, p.length / 256 % 256, p.length / 65536 % 256,
          p.length / 16777216 % 256] ++ p ∧
      read_le32 ((ThymioDeviceManagerClientEndpoint.fresh.write p).sent.take 4) =
        ((ThymioDeviceManagerClientEndpoint.fresh.write p).sent.drop 4).length) ∧
    (chunks.foldl (ThymioDeviceManagerClientEndpoint.receive verify)
        ThymioDeviceManagerClientEndpoint.fresh).incoming = payloads ∧
    (chunks.foldl (ThymioDeviceManagerClientEndpoint.receive verify)
        ThymioDeviceManagerClientEndpoint.fresh).m_socket = [] := by
  refine ⟨fun p hp => ?_, ?_⟩
  · have hs : (ThymioDeviceManagerClientEndpoint.fresh.write p).sent = le32 p.length ++ p := by
      simp [ThymioDeviceManagerClientEndpoint.write, ThymioDeviceManagerClientEndpoint.fresh,
        frame_eq p (hsize p hp)]
    refine ⟨by rw [hs]; rfl, ?_⟩
    rw [hs]
    have h1 : (le32 p.length ++ p).take 4 = le32 p.length := by simp [le32]
    have h2 : (le32 p.length ++ p).drop 4 = p := by simp [le32]
    rw [h1, h2, read_le32_le32 _ (hsize p hp)]
  · have hfresh : ThymioDeviceManagerClientEndpoint.fresh.onReadyRead verify
        = ThymioDeviceManagerClientEndpoint.fresh := by
      rw [onReadyRead_unfold]
      rfl
    rw [receive_chunks verify chunks _ hfresh, hchunks]
    have hstream : written_stream payloads = (payloads.map frame).flatten := by
      simp [written_stream, write_all_sent, ThymioDeviceManagerClientEndpoint.fresh]
    obtain ⟨g1, g2, _⟩ := read_frames verify payloads hsize
      (ThymioDeviceManagerClientEndpoint.fresh.arrive (written_stream payloads)) rfl
      (by simp [ThymioDeviceManagerClientEndpoint.arrive, ThymioDeviceManagerClientEndpoint.fresh,
        hstream])
    exact ⟨by simpa [ThymioDeviceManagerClientEndpoint.arrive,
      ThymioDeviceManagerClientEndpoint.fresh] using g1, g2⟩

/-- Witness of C17: two payloads whose frames arrive in three chunks that cut both
headers. -/
theorem C17_framed_round_trip_witness :
    written_stream sample_payloads = [3, 0, 0, 0, 10, 20, 30, 1, 0, 0, 0, 40] ∧
    (sample_chunks.foldl (ThymioDeviceManagerClientEndpoint.receive (fun _ => true))
        ThymioDeviceManagerClientEndpoint.fresh).incoming = sample_payloads ∧
    (sample_chunks.foldl (ThymioDeviceManagerClientEndpoint.receive (fun _ => true))
        ThymioDeviceManagerClientEndpoint.fresh).m_socket = [] :=
  ⟨by decide,
    (C17_framed_round_trip (fun _ => true) sample_payloads sample_chunks (by decide)
      (by decide)).2⟩

/-! ## Payloads that fail the verification -/

/-- C18, the code at the failing input. A frame arrives whose payload `[1, 2, 3]`
fails the verifier. `onReadyRead` warns and hands the payload to
`handleIncommingMessage` all the same: after the warning the loop goes on to the
call, so the payload is dispatched like the valid one that follows it. -/
theorem C18_invalid_payload_is_dispatched :
    sample_verify [1, 2, 3] = false ∧ sample_verify [40] = true ∧
      (ThymioDeviceManagerClientEndpoint.receive sample_verify
          ThymioDeviceManagerClientEndpoint.fresh (frame [1, 2, 3] ++ frame [40])).incoming
        = [[1, 2, 3], [40]] ∧
      (ThymioDeviceManagerClientEndpoint.receive sample_verify
          ThymioDeviceManagerClientEndpoint.fresh (frame [1, 2, 3] ++ frame [40])).warnings
        = 1 := by
  refine ⟨by decide, by decide, by decide, by decide⟩

/-! ## The bytes of a node id -/

theorem bytes_be32 (b0 b1 b2 b3 : Nat) (h0 : b0 < 256) (h1 : b1 < 256) (h2 : b2 < 256)
    (h3 : b3 < 256) :
    le32 (b0 * 16777216 + b1 * 65536 + b2 * 256 + b3) = [b3, b2, b1, b0] := by
  simp only [le32, List.cons.injEq, and_true]
  refine ⟨?_, ?_, ?_, ?_⟩ <;> omega

theorem bytes_be16 (b0 b1 : Nat) (h0 : b0 < 256) (h1 : b1 < 256) :
    le16 (b0 * 256 + b1) = [b1, b0] := by
  simp only [le16, List.cons.injEq, and_true]
  refine ⟨?_, ?_⟩ <;> omega

theorem be32_decompose (x : Nat) (h : x < 2 ^ 32) :
    x = x / 16777216 % 256 * 16777216 + x / 65536 % 256 * 65536 + x / 256 % 256 * 256 +
      x % 256 := by
  omega

theorem be16_decompose (x : Nat) (h : x < 2 ^ 16) : x = x / 256 % 256 * 256 + x % 256 := by
  omega

theorem serialize_uuid_bytes (u : QUuid) (h : u.valid) :
    serialize_uuid u =
      [u.data1 / 16777216 % 256, u.data1 / 65536 % 256, u.data1 / 256 % 256, u.data1 % 256,
        u.data2 / 256 % 256, u.data2 % 256, u.data3 / 256 % 256, u.data3 % 256] ++ u.data4 := by
  obtain ⟨_, _, _, h4⟩ := h
  have e1 : le32 (qFromBigEndian32 u.data1) =
      [u.data1 / 16777216 % 256, u.data1 / 65536 % 256, u.data1 / 256 % 256, u.data1 % 256] :=
    bytes_be32 _ _ _ _ (Nat.mod_lt _ (by decide)) (Nat.mod_lt _ (by decide))
      (Nat.mod_lt _ (by decide)) (Nat.mod_lt _ (by decide))
  have e2 : ∀ x, le16 (qFromBigEndian16 x) = [x / 256 % 256, x % 256] := fun x =>
    bytes_be16 _ _ (Nat.mod_lt _ (by decide)) (Nat.mod_lt _ (by decide))
  have e4 : u.data4.take 8 = u.data4 := List.take_of_length_le (by omega)
  simp [serialize_uuid, e1, e2, e4]

/-- C19 (node id transport, little-endian host). For every uuid whose fields are in
the range of their types, `serialize_uuid` emits exactly 16 bytes: bytes 0-3 are
`data1`, most significant byte first, bytes 4-5 are `data2`, most significant byte
first, bytes 6-7 are `data3`, most significant byte first, and bytes 8-15 are `data4`
unchanged; and two such uuids with the same bytes are equal. -/
theorem C19_serialize_uuid (u : QUuid) (h : u.valid) :
    serialize_uuid u =
      [u.data1 / 16777216 % 256, u.data1 / 65536 % 256, u.data1 / 256 % 256, u.data1 % 256,
        u.data2 / 256 % 256, u.data2 % 256, u.data3 / 256 % 256, u.data3 % 256] ++ u.data4 ∧
    (serialize_uuid u).length = 16 ∧
    ∀ v : QUuid, v.valid → serialize_uuid v = serialize_uuid u → v = u := by
  have hb := serialize_uuid_bytes u h
  refine ⟨hb, ?_, ?_⟩
  · rw [hb]
    simp [h.2.2.2]
  · intro v hv heq
    rw [hb, serialize_uuid_bytes v hv] at heq
    obtain ⟨h1, h2, h3, h4⟩ := h
    obtain ⟨g1, g2, g3, g4⟩ := hv
    simp only [List.cons_append, List.nil_append, List.cons.injEq] at heq
    obtain ⟨a0, a1, a2, a3, b0, b1, c0, c1, d⟩ := heq
    have e1 : v.data1 = u.data1 := by
      rw [be32_decompose v.data1 g1, be32_decompose u.data1 h1, a0, a1, a2, a3]
    have e2 : v.data2 = u.data2 := by
      rw [be16_decompose v.data2 g2, be16_decompose u.data2 h2, b0, b1]
    have e3 : v.data3 = u.data3 := by
      rw [be16_decompose v.data3 g3, be16_decompose u.data3 h3, c0, c1]
    cases u
    cases v
    simp only at e1 e2 e3 d
    subst e1 e2 e3 d
    rfl

/-- Witness of C19: the bytes of `12345678-9abc-def0-0102-030405060708`. -/
theorem C19_serialize_uuid_witness :
    sample_uuid.valid ∧
      serialize_uuid sample_uuid =
        [0x12, 0x34, 0x56, 0x78, 0x9a, 0xbc, 0xde, 0xf0, 1, 2, 3, 4, 5, 6, 7, 8] ∧
      (serialize_uuid sample_uuid).length = 16 :=
  have h : sample_uuid.valid := ⟨by decide, by decide, by decide, by decide⟩
  ⟨h, (C19_serialize_uuid sample_uuid h).1, (C19_serialize_uuid sample_uuid h).2.1⟩

/-! ## The answer to an unlock request -/

theorem node_unlock_result (node : node_ref) (c : context) :
    (node_unlock node c).2 = decide (holder c.nodes node = some c.self) := by
  unfold node_unlock holder
  cases hn : c.nodes node with
  | none => simp
  | some n =>
    simp only
    rcases unlock_result n c.self with ⟨h1, h2, _⟩ | ⟨h1, h2, _⟩
    · rw [h2]
      exact (decide_eq_true h1).symm
    · rw [h2]
      exact (decide_eq_false h1).symm

/-- The outcomes of `unlock_node` on an endpoint whose recorded locks are its own:
the acknowledgement when the node id is recorded, `unknown_node` when it is not; the
id is not recorded afterwards. -/
theorem unlock_node_cases (r : Nat) (n : node_id) (c : context) (hown : c.owns_locks) :
    (unlock_node r n c).ep.m_queue = c.ep.m_queue ++
        [if map_contains c.ep.m_locked_nodes n then message.RequestCompleted r
          else message.Error r ErrorType.unknown_node] ∧
      map_contains (unlock_node r n c).ep.m_locked_nodes n = false := by
  unfold unlock_node
  cases hf : map_find c.ep.m_locked_nodes n with
  | none =>
    have hc : map_contains c.ep.m_locked_nodes n = false := by simp [map_contains, hf]
    refine ⟨?_, ?_⟩
    · simp only [hc, Bool.false_eq_true, if_false, write_queue, create_error_response]
    · simp only [write_locked]
      exact hc
  | some wp =>
    have hc : map_contains c.ep.m_locked_nodes n = true := by simp [map_contains, hf]
    obtain ⟨_, hhold⟩ := hown n wp (map_find_mem _ _ _ hf)
    have halive : weak_lock c.nodes wp = some wp := by
      unfold weak_lock
      unfold holder at hhold
      cases hn : c.nodes wp with
      | none => simp [hn] at hhold
      | some x => simp
    simp only [halive, hc, if_true]
    generalize hc1 : c.with_ep
      (fun e => { e with m_locked_nodes := map_erase e.m_locked_nodes n }) = c1
    have hself : c1.self = c.self := by rw [← hc1]; rfl
    have hnodes : c1.nodes = c.nodes := by rw [← hc1]; rfl
    have hq : c1.ep.m_queue = c.ep.m_queue := by rw [← hc1]; rfl
    have hlocked : c1.ep.m_locked_nodes = map_erase c.ep.m_locked_nodes n := by
      rw [← hc1]; rfl
    have hres : (node_unlock wp c1).2 = true := by
      rw [node_unlock_result, hnodes, hself]
      exact decide_eq_true hhold
    obtain ⟨_, _, f3, _⟩ := node_unlock_frame wp c1
    refine ⟨?_, ?_⟩
    · simp only [hres, Bool.not_true, Bool.false_eq_true, if_false, write_queue, f3, hq,
        create_ack_response]
    · simp only [hres, Bool.not_true, Bool.false_eq_true, if_false, write_locked, f3, hlocked]
      exact map_contains_erase_self _ _

/-- C20 (the answer to `UnlockNode`). In a broker reached from endpoints without locks
by any operations, an `UnlockNode` request (request id `r`, node id `n`) makes the
endpoint enqueue exactly `RequestCompleted{r}` when it holds the lock of `n` (the id
is in its `m_locked_nodes`) and exactly `Error{r, unknown_node}` in every other case;
no other error is produced. In all cases `n` is not in its `m_locked_nodes`
afterwards. -/
theorem C20_unlock_node_answer (b : broker) (hinj : registry_injective b.reg)
    (h0 : b.no_locks) (ops : List lock_op) (a : endpoint_id) (e : application_endpoint)
    (r : Nat) (n : node_id) (he : (b.run ops).endpoints a = some e) :
    (((b.run ops).step (lock_op.unlock_node a r n)).endpoint a).m_queue
      = e.m_queue ++
        [if map_contains e.m_locked_nodes n then message.RequestCompleted r
          else message.Error r ErrorType.unknown_node] ∧
    map_contains (((b.run ops).step (lock_op.unlock_node a r n)).endpoint a).m_locked_nodes n
      = false := by
  obtain ⟨hheld, _⟩ := run_locks_held ops b hinj (no_locks_locks_held b h0)
  simp only [broker.step]
  rw [call_endpoint _ a e _ he]
  exact unlock_node_cases r n _ (fun id x hm => hheld a e id x he hm)

/-- Witness of C20: in the sample run, endpoint 1 holds node 7 and endpoint 2 does
not; each sends `UnlockNode` for it. -/
theorem C20_unlock_node_answer_witness :
    ((((sample_broker.run (sample_ops.take 2)).step (lock_op.unlock_node 1 30 7)).endpoint
        1).m_queue
      = [message.RequestCompleted 10, message.RequestCompleted 30] ∧
      map_contains (((sample_broker.run (sample_ops.take 2)).step
        (lock_op.unlock_node 1 30 7)).endpoint 1).m_locked_nodes 7 = false) ∧
    ((((sample_broker.run (sample_ops.take 2)).step (lock_op.unlock_node 2 31 7)).endpoint
        2).m_queue
      = [message.Error 20 ErrorType.node_busy, message.Error 31 ErrorType.unknown_node] ∧
      map_contains (((sample_broker.run (sample_ops.take 2)).step
        (lock_op.unlock_node 2 31 7)).endpoint 2).m_locked_nodes 7 = false) :=
  ⟨C20_unlock_node_answer sample_broker sample_reg_injective sample_broker_no_locks
      (sample_ops.take 2) 1 ((sample_broker.run (sample_ops.take 2)).endpoint 1) 30 7 rfl,
    C20_unlock_node_answer sample_broker sample_reg_injective sample_broker_no_locks
      (sample_ops.take 2) 2 ((sample_broker.run (sample_ops.take 2)).endpoint 2) 31 7 rfl⟩

/-! ## The answers to `SetNodeVariables` and `SendEvents` -/

theorem node_set_node_variables_queue (n : node_ref) (m : variables_map) (r : Nat) (c : context) :
    (node_set_node_variables n m r c).1.ep = c.ep := by
  unfold node_set_node_variables update_node
  cases h : c.nodes n <;> rfl

theorem node_emit_events_queue (n : node_ref) (m : variables_map) (r : Nat) (c : context) :
    (node_emit_events n m r c).1.ep = c.ep := by
  unfold node_emit_events update_node
  cases h : c.nodes n <;> rfl

theorem call_endpoint_self (b : broker) (a : endpoint_id) (e : application_endpoint)
    (f : context → context) (h : b.endpoints a = some e) :
    (b.call a f).endpoint a
      = (f { self := a, cfg := b.cfg, reg := b.reg, nodes := b.nodes, ep := e }).ep := by
  simp [broker.call, broker.endpoint, h]

/-- C21 (answers to a device write). For a `SetNodeVariables` or `SendEvents` request
with request id `r` on a node the endpoint holds locked: when the node rejects the
values, the member function enqueues `Error{r, unsupported_variable_type}`, otherwise
it enqueues nothing, and in both cases it passes the node the completion callback for
`r` and this endpoint. When the completion runs on the endpoint it enqueues
`RequestCompleted{r}` without an error and `Error{r, node_busy}` with one; when the
endpoint no longer exists it changes nothing. -/
theorem C21_device_write_answers (c : context) (r : Nat) (id : node_id) (m : variables_map)
    (n : node_ref) (x : aseba_node) (hl : get_locked_node c id = some n)
    (hx : c.nodes n = some x) :
    (set_node_variables r id m c).ep.m_queue = c.ep.m_queue ++ synchronous_answer r m x.rejects ∧
      (emit_events r id m c).ep.m_queue = c.ep.m_queue ++ synchronous_answer r m x.rejects ∧
      (set_node_variables r id m c).ep.m_strand = c.ep.m_strand ∧
      (emit_events r id m c).ep.m_strand = c.ep.m_strand ∧
      calls_of (set_node_variables r id m c).nodes n
        = x.calls ++ [node_call.set_node_variables m r c.self] ∧
      calls_of (emit_events r id m c).nodes n = x.calls ++ [node_call.emit_events m r c.self] ∧
      (∀ (c' : context) (ec : Bool),
        (run_task (strand_task.device_write_completion r ec) c').ep.m_queue
          = c'.ep.m_queue ++ [device_write_answer r ec]) ∧
      (∀ (b : broker) (a : endpoint_id) (e : application_endpoint) (ec : Bool),
        b.endpoints a = some e →
          ((b.device_write_completion a r ec).endpoint a).m_queue
            = e.m_queue ++ [device_write_answer r ec]) ∧
      (∀ (b : broker) (a : endpoint_id) (ec : Bool),
        b.endpoints a = none → b.device_write_completion a r ec = b) := by
  refine ⟨?_, ?_, ?_, ?_, ?_, ?_, ?_, ?_, ?_⟩
  · simp only [set_node_variables, hl, node_set_node_variables, hx, update_node,
      synchronous_answer]
    by_cases hr : m ∈ x.rejects
    · simp [hr, create_error_response]
    · simp [hr]
  · simp only [emit_events, hl, node_emit_events, hx, update_node, synchronous_answer]
    by_cases hr : m ∈ x.rejects
    · simp [hr, create_error_response]
    · simp [hr]
  · simp only [set_node_variables, hl, node_set_node_variables, hx, update_node]
    by_cases hr : m ∈ x.rejects
    · simp [hr]
    · simp [hr]
  · simp only [emit_events, hl, node_emit_events, hx, update_node]
    by_cases hr : m ∈ x.rejects
    · simp [hr]
    · simp [hr]
  · simp only [set_node_variables, hl, node_set_node_variables, hx, update_node, calls_of]
    by_cases hr : m ∈ x.rejects
    · simp [hr, store, aseba_node.record]
    · simp [hr, store, aseba_node.record]
  · simp only [emit_events, hl, node_emit_events, hx, update_node, calls_of]
    by_cases hr : m ∈ x.rejects
    · simp [hr, store, aseba_node.record]
    · simp [hr, store, aseba_node.record]
  · intro c' ec
    cases ec <;> simp [run_task, device_write_answer]
  · intro b a e ec h
    simp only [broker.device_write_completion, h]
    rw [call_endpoint_self b a e _ h]
    cases ec <;> simp [run_task, device_write_answer]
  · intro b a ec h
    simp only [broker.device_write_completion, h]

/-- Witness of C21: the endpoint 2 holds node 7 locked. The node takes the values
`[("x", [1])]` and nothing is enqueued before the completion; the node rejects the
values `[("x", [40000])]` and the error is enqueued at once. -/
theorem C21_device_write_answers_witness :
    get_locked_node rejecting_context 7 = some 0 ∧
      (set_node_variables 6 7 [("x", [1])] rejecting_context).ep.m_queue
        = rejecting_context.ep.m_queue ∧
      (set_node_variables 6 7 [("x", [40000])] rejecting_context).ep.m_queue
        = rejecting_context.ep.m_queue ++
          [message.Error 6 ErrorType.unsupported_variable_type] ∧
      ((locked_broker.device_write_completion 2 6 false).endpoint 2).m_queue
        = locked_context.ep.m_queue ++ [message.RequestCompleted 6] ∧
      ((locked_broker.device_write_completion 2 6 true).endpoint 2).m_queue
        = locked_context.ep.m_queue ++ [message.Error 6 ErrorType.node_busy] ∧
      locked_broker.device_write_completion 1 6 false = locked_broker := by
  have hl : get_locked_node rejecting_context 7 = some 0 := by decide
  have hx : rejecting_context.nodes 0
      = some { sample_node with m_connected_app := some 2, m_status := status.busy,
                                rejects := [[("x", [40000])]] } := by decide
  have h1 := C21_device_write_answers rejecting_context 6 7 [("x", [1])] 0 _ hl hx
  have h2 := C21_device_write_answers rejecting_context 6 7 [("x", [40000])] 0 _ hl hx
  refine ⟨hl, ?_, ?_, ?_, ?_, ?_⟩
  · rw [h1.1]
    decide
  · rw [h2.1]
    decide
  · exact h1.2.2.2.2.2.2.2.1 locked_broker 2 locked_context.ep false rfl
  · exact h1.2.2.2.2.2.2.2.1 locked_broker 2 locked_context.ep true rfl
  · exact h1.2.2.2.2.2.2.2.2 locked_broker 1 false rfl

/-! ## A write that fails -/

/-- C22, the code at the failing input. After the handshake two buffers are passed to
`write_message`; the write of the first one is started and completes with an error.
`handle_write` only logs the error: it pops the queue and starts the write of the second
buffer. A buffer passed to `write_message` after a failed write of the only queued
buffer is written as well. -/
theorem C22_write_error_does_not_stop_writes :
    ((writer.start application_endpoint.fresh).run (failed_write_ops.take 3)).ep.written
        = [message.RequestCompleted 1] ∧
      ((writer.start application_endpoint.fresh).run failed_write_ops).ep.written
        = [message.RequestCompleted 1, message.RequestCompleted 2] ∧
      ((writer.start application_endpoint.fresh).run failed_write_ops).in_flight = 1 ∧
      ((writer.start application_endpoint.fresh).run
          [queue_op.negotiate 1, queue_op.write (message.RequestCompleted 1),
            queue_op.complete true, queue_op.write (message.RequestCompleted 2)]).ep.written
        = [message.RequestCompleted 1, message.RequestCompleted 2] ∧
      (∀ e : application_endpoint, handle_write true e = handle_write false e) := by
  refine ⟨by decide, by decide, by decide, by decide, fun e => rfl⟩

/-! ## The notification of a disconnected node -/

/-- C23 (disconnection). `do_node_changed` for a node id with status `disconnected`
enqueues one `NodesChanged` message that reports the id as disconnected, whether or
not the endpoint holds the lock of the node, and the id is not in `m_locked_nodes`
afterwards, the other entries being kept; for every other status `m_locked_nodes` is
left as it was. -/
theorem C23_disconnected_node_is_reported_and_unlocked (c : context) (node : node_ref)
    (n : aseba_node) (id : node_id) (st : status) (hn : c.nodes node = some n) :
    (st = status.disconnected →
      (do_node_changed node id st c).ep.m_queue
          = c.ep.m_queue ++
            [message.NodesChanged [create_node c id status.disconnected node n]] ∧
        reported_statuses id ((do_node_changed node id st c).ep.m_queue.drop c.ep.m_queue.length)
          = [status.disconnected] ∧
        map_contains (do_node_changed node id st c).ep.m_locked_nodes id = false ∧
        ∀ id' r, id' ≠ id →
          ((id', r) ∈ (do_node_changed node id st c).ep.m_locked_nodes ↔
            (id', r) ∈ c.ep.m_locked_nodes)) ∧
      (st ≠ status.disconnected →
        (do_node_changed node id st c).ep.m_locked_nodes = c.ep.m_locked_nodes) := by
  constructor
  · intro hst
    subst hst
    have hmask : (if status.disconnected = status.busy ∧ (get_locked_node c id).isSome = true
        then status.ready else status.disconnected) = status.disconnected := by
      rw [if_neg (by simp)]
    simp only [do_node_changed, hmask, hn, if_true]
    refine ⟨?_, ?_, ?_, ?_⟩
    · simp [context.with_ep]
    · simp [context.with_ep, reported_statuses, create_node]
    · simp only [context.with_ep, write_locked]
      exact map_contains_erase_self _ _
    · intro id' r hne
      simp only [context.with_ep, write_locked, mem_map_erase]
      exact ⟨fun h => h.1, fun h => ⟨h, hne⟩⟩
  · intro hst
    have hmask : (if st = status.busy ∧ (get_locked_node c id).isSome = true then status.ready
        else st) ≠ status.disconnected := by
      by_cases hb : st = status.busy ∧ (get_locked_node c id).isSome = true
      · rw [if_pos hb]
        decide
      · rw [if_neg hb]
        exact hst
    simp only [do_node_changed, hn, if_neg hmask, write_locked]

/-- Witness of C23: the endpoint 2 holds the lock of node 7. The notification that the
node is disconnected is reported to it and removes the id from `m_locked_nodes`; the
notification that it is busy leaves `m_locked_nodes` alone. -/
theorem C23_disconnected_node_is_reported_and_unlocked_witness :
    map_contains locked_context.ep.m_locked_nodes 7 = true ∧
      reported_statuses 7
          ((do_node_changed 0 7 status.disconnected locked_context).ep.m_queue.drop
            locked_context.ep.m_queue.length)
        = [status.disconnected] ∧
      map_contains (do_node_changed 0 7 status.disconnected locked_context).ep.m_locked_nodes 7
        = false ∧
      (do_node_changed 0 7 status.busy locked_context).ep.m_locked_nodes
        = locked_context.ep.m_locked_nodes := by
  have hn : locked_context.nodes 0
      = some { sample_node with m_connected_app := some 2, m_status := status.busy } := by
    decide
  have h := C23_disconnected_node_is_reported_and_unlocked locked_context 0 _ 7
    status.disconnected hn
  have h' := C23_disconnected_node_is_reported_and_unlocked locked_context 0 _ 7
    status.busy hn
  exact ⟨by decide, (h.1 rfl).2.1, (h.1 rfl).2.2.1, h'.2 (by decide)⟩

/-! ## One write at a time -/

theorem consistent_in_flight (w : writer) (h : w.consistent) :
    w.completed ≤ w.ep.written.length ∧ w.in_flight ≤ 1 := by
  obtain ⟨done, _, hcase⟩ := h
  unfold writer.in_flight
  rcases hcase with ⟨h1, _⟩ | ⟨h1, _⟩ <;> omega

theorem consistent_front (w : writer) (h : w.consistent) (hf : 0 < w.in_flight) :
    ∃ front rest, w.ep.m_queue = front :: rest ∧ w.ep.written.getLast? = some front := by
  obtain ⟨done, _, hcase⟩ := h
  unfold writer.in_flight at hf
  rcases hcase with ⟨h1, _⟩ | ⟨_, front, rest, h3, h4⟩
  · omega
  · exact ⟨front, rest, h3, by simp [h4]⟩

/-- C25 (single outstanding write). On an endpoint whose queue is empty and which has
written nothing, after every interleaving of `write_message` calls and `handle_write`
completions (and of the handshake setting the negotiated version), no more writes have
completed than were started and at most one write is in flight; and while a write is
in flight, a call of `write_message` starts no write. -/
theorem C25_single_outstanding_write (e : application_endpoint) (hq : e.m_queue = [])
    (hw : e.written = []) (ops : List queue_op) :
    ((writer.start e).run ops).completed ≤ ((writer.start e).run ops).ep.written.length ∧
      ((writer.start e).run ops).in_flight ≤ 1 ∧
      ∀ m, 0 < ((writer.start e).run ops).in_flight →
        (((writer.start e).run ops).step (queue_op.write m)).ep.written
          = ((writer.start e).run ops).ep.written := by
  have hc := run_consistent ops _ (start_consistent e hq hw)
  refine ⟨(consistent_in_flight _ hc).1, (consistent_in_flight _ hc).2, ?_⟩
  intro m hf
  obtain ⟨front, rest, h3, _⟩ := consistent_front _ hc hf
  simp only [writer.step, write_message, h3]
  simp

/-- Witness of C25: after the handshake three messages are passed to `write_message`
and two writes complete; the third one is in flight, alone. -/
theorem C25_single_outstanding_write_witness :
    ((writer.start application_endpoint.fresh).run sample_queue_ops).in_flight = 1 ∧
      ((writer.start application_endpoint.fresh).run sample_queue_ops).in_flight ≤ 1 :=
  ⟨by decide, (C25_single_outstanding_write application_endpoint.fresh rfl rfl
    sample_queue_ops).2.1⟩

/-- C27 (the queue under a write in flight). On an endpoint whose queue is empty and
which has written nothing, after every interleaving of `write_message` calls and
`handle_write` completions of writes that were started: whenever a write is in flight
the outbound queue is not empty, its front is the buffer that was handed to
`do_write_message` last, and `handle_write` finds a front to pop. -/
theorem C27_write_in_flight_is_queue_front (e : application_endpoint) (hq : e.m_queue = [])
    (hw : e.written = []) (ops : List queue_op)
    (hf : 0 < ((writer.start e).run ops).in_flight) :
    ∃ front rest, ((writer.start e).run ops).ep.m_queue = front :: rest ∧
      ((writer.start e).run ops).ep.written.getLast? = some front ∧
      ∀ ec, ∃ e', handle_write ec ((writer.start e).run ops).ep = some e' ∧ e'.m_queue = rest := by
  have hc := run_consistent ops _ (start_consistent e hq hw)
  obtain ⟨front, rest, h3, h4⟩ := consistent_front _ hc hf
  refine ⟨front, rest, h3, h4, ?_⟩
  intro ec
  simp only [handle_write, h3]
  cases rest with
  | nil => exact ⟨_, rfl, rfl⟩
  | cons next rest => exact ⟨_, rfl, rfl⟩

/-- Witness of C27: in the sample history the third buffer is in flight and it is the
front of the queue. -/
theorem C27_write_in_flight_is_queue_front_witness :
    ((writer.start application_endpoint.fresh).run sample_queue_ops).ep.m_queue
        = [message.RequestCompleted 5] ∧
      ∃ front rest,
        ((writer.start application_endpoint.fresh).run sample_queue_ops).ep.m_queue
          = front :: rest ∧
        ((writer.start application_endpoint.fresh).run sample_queue_ops).ep.written.getLast?
          = some front ∧
        ∀ ec, ∃ e',
          handle_write ec ((writer.start application_endpoint.fresh).run sample_queue_ops).ep
            = some e' ∧ e'.m_queue = rest :=
  ⟨by decide, C27_write_in_flight_is_queue_front application_endpoint.fresh rfl rfl
    sample_queue_ops (by decide)⟩

/-! ## Messages queued before the handshake -/

/-- C26, the code at the failing input. A change of node 7 is notified to a started
endpoint before the client's handshake arrives: `write_message` queues the
`NodesChanged` message without writing it, the negotiated version being 0. The
handshake is compatible and sets the version to 1, but the reply and the node list are
queued behind that message, and `write_message` starts a write only when the queue
holds a single buffer: no write is in flight, nothing was ever written, and neither a
later notification nor a completion changes that. An endpoint with nothing queued
before its handshake does write the reply. -/
theorem C26_pending_messages_are_not_flushed :
    pending_session.c.ep.m_protocol_version = 1 ∧
      pending_session.c.ep.m_queue
        = [message.NodesChanged
            [{ node_id := 7, status := status.available, type := 0, name := "thymio",
               capabilities := 0 }],
          message.ConnectionHandshake 1 1 102400,
          message.NodesChanged
            [{ node_id := 7, status := status.available, type := 0, name := "thymio",
               capabilities := 0 }]] ∧
      pending_session.c.ep.written = [] ∧
      (pending_session.step (event.write_done false)).c.ep.written = [] ∧
      (pending_session.step (event.write_done false)).c.ep.m_queue.length = 3 ∧
      (pending_session.run
          [event.post (strand_task.do_node_changed 0 7 status.busy), event.run]).c.ep.written
        = [] ∧
      (pending_session.run
          [event.post (strand_task.do_node_changed 0 7 status.busy),
            event.run]).c.ep.m_queue.length = 4 ∧
      connected_session.c.ep.written = [message.ConnectionHandshake 1 1 102400] := by
  refine ⟨by decide, by decide, by decide, by decide, by decide, by decide, by decide,
    by decide⟩

/-! ## The description of a node that is not there -/

/-- C29, the code at the failing input. The endpoint 2 has completed its handshake and
the registry has node 7 only. `RequestNodeAsebaVMDescription` for node 7 enqueues the
description with the request id; for node 99 it enqueues nothing at all
(`send_aseba_vm_description` returns where its source reads `// error ?`), while a
`LockNode` request for node 99 is answered `Error{unknown_node}`. -/
theorem C29_description_of_unknown_node_is_not_answered :
    node_from_id connected_context 99 = none ∧
      (handle_read false (request.RequestNodeAsebaVMDescription 9 99) connected_context).ep.m_queue
        = connected_context.ep.m_queue ∧
      (handle_read false (request.RequestNodeAsebaVMDescription 9 7) connected_context).ep.m_queue
        = connected_context.ep.m_queue ++ [message.NodeAsebaVMDescription 9 0 7] ∧
      (handle_read false (request.LockNode 9 99) connected_context).ep.m_queue
        = connected_context.ep.m_queue ++ [message.Error 9 ErrorType.unknown_node] := by
  refine ⟨by decide, by decide, by decide, by decide⟩

/-! ## The pending requests of the client -/

theorem update_pending (s : client_requests) (p : request_ptr) (f : RequestData → RequestData) :
    (s.update p f).m_pending_requests = s.m_pending_requests := by
  unfold client_requests.update
  cases s.requests p <;> rfl

theorem update_self (s : client_requests) (p : request_ptr) (f : RequestData → RequestData)
    (x : RequestData) (hx : s.requests p = some x) : (s.update p f).requests p = some (f x) := by
  simp [client_requests.update, hx]

theorem update_other (s : client_requests) (p q : request_ptr) (f : RequestData → RequestData)
    (h : q ≠ p) : (s.update p f).requests q = s.requests q := by
  unfold client_requests.update
  cases s.requests p with
  | none => rfl
  | some r => simp [h]

/-- The loop of `cancelAllRequests`: a request object keeps its result and its error,
stays canceled if it was, and is canceled if the loop went over a pointer to it. -/
theorem cancel_loop (l : List (Nat × request_ptr)) (s : client_requests) (p : request_ptr)
    (x : RequestData) (hx : s.requests p = some x) :
    ∃ y, (l.foldl (fun s1 r => s1.update r.2 RequestData.cancel) s).requests p = some y ∧
      y.m_data = x.m_data ∧ y.m_error = x.m_error ∧
      (x.m_canceled = true → y.m_canceled = true) ∧
      (p ∈ l.map Prod.snd → y.m_canceled = true) := by
  induction l generalizing s x with
  | nil => exact ⟨x, hx, rfl, rfl, fun h => h, fun h => by simp at h⟩
  | cons a l ih =>
    simp only [List.foldl_cons]
    by_cases hp : p = a.2
    · have h1 : (s.update a.2 RequestData.cancel).requests p = some x.cancel := by
        rw [hp]
        exact update_self s a.2 _ x (hp ▸ hx)
      obtain ⟨y, hy, hd, he, hc, _⟩ := ih (s.update a.2 RequestData.cancel) x.cancel h1
      exact ⟨y, hy, hd, he, fun _ => hc rfl, fun _ => hc rfl⟩
    · have h1 : (s.update a.2 RequestData.cancel).requests p = some x := by
        rw [update_other s a.2 p _ hp]
        exact hx
      obtain ⟨y, hy, hd, he, hc, hm⟩ := ih (s.update a.2 RequestData.cancel) x h1
      refine ⟨y, hy, hd, he, hc, fun h => hm ?_⟩
      simp only [List.map_cons, List.mem_cons] at h
      rcases h with h | h
      · exact absurd h hp
      · exact h

theorem answer_not_pending (s : client_requests) (id : Nat) (f : RequestData → RequestData)
    (h : map_find s.m_pending_requests id = none) : s.answer id f = s := by
  simp [client_requests.answer, client_requests.get_request, h]

/-- A message leaves a client without pending request as it is. -/
theorem handle_without_pending (t : result_types) (msg : AnyMessage) (s : client_requests)
    (h : s.m_pending_requests = []) : s.handleIncommingMessage t msg = s := by
  have hf : ∀ id, map_find s.m_pending_requests id = none := by
    intro id
    rw [h]
    rfl
  cases msg <;> simp only [client_requests.handleIncommingMessage] <;>
    exact answer_not_pending s _ _ (hf _)

/-- C24 (cancellation on close). After `cancelAllRequests` the map of the pending
requests is empty, and a request that was pending is canceled, finished and not a
success (its result and its error are what they were); a message that arrives
afterwards, whatever request id it carries, changes no request object and leaves the
map empty. -/
theorem C24_cancel_all_requests (t : result_types) (s : client_requests) (id : Nat)
    (p : request_ptr) (x : RequestData) (hp : (id, p) ∈ s.m_pending_requests)
    (hx : s.requests p = some x) :
    s.cancelAllRequests.m_pending_requests = [] ∧
      (∃ y, s.cancelAllRequests.requests p = some y ∧ y.isCanceled = true ∧
        y.isFinished = true ∧ y.success = false ∧ y.m_data = x.m_data ∧
        y.m_error = x.m_error) ∧
      ∀ msg, (s.cancelAllRequests.handleIncommingMessage t msg).requests
          = s.cancelAllRequests.requests ∧
        (s.cancelAllRequests.handleIncommingMessage t msg).m_pending_requests = [] := by
  refine ⟨rfl, ?_, ?_⟩
  · obtain ⟨y, hy, hd, he, _, hm⟩ := cancel_loop s.m_pending_requests s p x hx
    have hc : y.m_canceled = true := hm (List.mem_map.mpr ⟨(id, p), hp, rfl⟩)
    refine ⟨y, hy, hc, ?_, ?_, hd, he⟩
    · simp [RequestData.isFinished, hc]
    · simp [RequestData.success, hc]
  · intro msg
    rw [handle_without_pending t msg s.cancelAllRequests rfl]
    exact ⟨rfl, rfl⟩

/-- Witness of C24: the two pending requests of the sample client are canceled, and
the answer to the first one that arrives afterwards changes nothing. -/
theorem C24_cancel_all_requests_witness :
    sample_requests.cancelAllRequests.m_pending_requests = [] ∧
      (∃ y, sample_requests.cancelAllRequests.requests 1 = some y ∧ y.isCanceled = true ∧
        y.isFinished = true ∧ y.success = false ∧
        y.m_data = (new_request 6 sample_types.CompilationResult).m_data ∧
        y.m_error = (new_request 6 sample_types.CompilationResult).m_error) ∧
      ∀ msg, (sample_requests.cancelAllRequests.handleIncommingMessage sample_types msg).requests
          = sample_requests.cancelAllRequests.requests ∧
        (sample_requests.cancelAllRequests.handleIncommingMessage sample_types
          msg).m_pending_requests = [] :=
  C24_cancel_all_requests sample_types sample_requests 6 1
    (new_request 6 sample_types.CompilationResult) (by decide) (by decide)

/-! ## The answer to a pending request -/

theorem answer_pending (s : client_requests) (id : Nat) (p : request_ptr)
    (f : RequestData → RequestData) (x : RequestData)
    (hp : map_find s.m_pending_requests id = some p) (hx : s.requests p = some x) :
    map_contains (s.answer id f).m_pending_requests id = false ∧
      (s.answer id f).requests p = some (f x) := by
  simp only [client_requests.answer, client_requests.get_request, hp]
  constructor
  · rw [update_pending]
    exact map_contains_erase_self _ _
  · exact update_self _ p f x hx

theorem set_result_as_same (type : Nat) (r : request_result) (x : RequestData)
    (h : x.m_type = type) : set_result_as type r x = x.setResult r := by
  simp [set_result_as, RequestData.as, h]

theorem set_result_as_other (type : Nat) (r : request_result) (x : RequestData)
    (h : x.m_type ≠ type) : set_result_as type r x = x := by
  have h' : type ≠ x.m_type := fun e => h e.symm
  simp [set_result_as, RequestData.as, h']

theorem set_result_finished (x : RequestData) (r : request_result) :
    (x.setResult r).isFinished = true ∧
      ((x.setResult r).m_data.isSome = true ∨ (x.setResult r).m_error.isSome = true) := by
  simp [RequestData.setResult, RequestData.isFinished]

theorem set_error_finished (x : RequestData) (e : ErrorType) :
    (x.setError e).isFinished = true ∧
      ((x.setError e).m_data.isSome = true ∨ (x.setError e).m_error.isSome = true) := by
  simp [RequestData.setError, RequestData.isFinished]

/-- C28, counterexample to the claim as stated. The request 6 is pending and is a
`CompilationRequest`; the message `RequestCompleted{6}` arrives. `get_request` takes
the request out of the map, the cast to `Request` gives null and no result is set: the
request is not pending any more and is not finished. -/
theorem C28_other_kind_is_left_unfinished_counterexample :
    map_contains sample_requests.m_pending_requests 6 = true ∧
      map_contains
          (sample_requests.handleIncommingMessage sample_types
            (AnyMessage.RequestCompleted 6)).m_pending_requests 6 = false ∧
      (sample_requests.handleIncommingMessage sample_types
          (AnyMessage.RequestCompleted 6)).requests 1
        = some (new_request 6 sample_types.CompilationResult) ∧
      (new_request 6 sample_types.CompilationResult).isFinished = false := by
  refine ⟨by decide, by decide, by decide, by decide⟩

/-- C28, amended. When `handleIncommingMessage` consumes a message that answers a
request whose id is pending, the request is taken out of the map of the pending
requests. It is finished afterwards, holding a result or an error, when the message is
an `Error` or the request is of the type the message is a result for (`Request` for
`RequestCompleted`, `CompilationRequest` for `CompilationResultSuccess` and
`CompilationResultFailure`, `BreakpointsRequest` for `SetBreakpointsResponse`,
`AsebaVMDescriptionRequest` for `NodeAsebaVMDescription`); a request of another type
is left as it was. -/
theorem C28_response_finishes_request_of_its_kind (t : result_types) (s : client_requests)
    (msg : AnyMessage) (id : Nat) (p : request_ptr) (x : RequestData)
    (hid : msg.response_id = some id) (hp : map_find s.m_pending_requests id = some p)
    (hx : s.requests p = some x) :
    map_contains (s.handleIncommingMessage t msg).m_pending_requests id = false ∧
      (msg.answers t x.m_type = true →
        ∃ y, (s.handleIncommingMessage t msg).requests p = some y ∧ y.isFinished = true ∧
          (y.m_data.isSome = true ∨ y.m_error.isSome = true)) ∧
      (msg.answers t x.m_type = false →
        (s.handleIncommingMessage t msg).requests p = some x) := by
  cases msg <;> simp only [AnyMessage.response_id, Option.some.injEq] at hid <;>
    try exact absurd hid (by simp)
  all_goals subst hid
  all_goals simp only [client_requests.handleIncommingMessage, AnyMessage.answers, beq_iff_eq,
    beq_eq_false_iff_ne, ne_eq]
  all_goals refine ⟨(answer_pending s _ p _ x hp hx).1, ?_, ?_⟩
  all_goals rw [(answer_pending s _ p _ x hp hx).2]
  all_goals first
    | (intro h
       rw [set_result_as_same _ _ x h]
       exact ⟨_, rfl, set_result_finished x _⟩)
    | (intro h
       rw [set_result_as_other _ _ x h])
    | (intro _
       exact ⟨_, rfl, set_error_finished x _⟩)
    | (intro h
       exact absurd h (by simp))

/-- Witness of C28: the request 6 of the sample client, a `CompilationRequest`, is
answered by `CompilationResultSuccess{6}`: it is not pending any more and is finished. -/
theorem C28_response_finishes_request_of_its_kind_witness :
    map_find sample_requests.m_pending_requests 6 = some 1 ∧
      map_contains
          (sample_requests.handleIncommingMessage sample_types
            (AnyMessage.CompilationResultSuccess 6 10 2 100 20)).m_pending_requests 6 = false ∧
      ∃ y, (sample_requests.handleIncommingMessage sample_types
            (AnyMessage.CompilationResultSuccess 6 10 2 100 20)).requests 1 = some y ∧
        y.isFinished = true ∧ (y.m_data.isSome = true ∨ y.m_error.isSome = true) := by
  have h := C28_response_finishes_request_of_its_kind sample_types sample_requests
    (AnyMessage.CompilationResultSuccess 6 10 2 100 20) 6 1
    (new_request 6 sample_types.CompilationResult) rfl (by decide) (by decide)
  exact ⟨by decide, h.1, h.2.1 (by decide)⟩

/-! ## The children of a variable whose value is a map -/

/-- C30, the code at the failing input. The variable `v` holds the map `a: 1, b: 2`
and has the children `a` and `b`. `setVariable` replaces the value by the map `a: 3`:
the `remove_if` of the map branch removes the children whose key is in the new map,
the loop creates the child `a` again, and the child `b`, whose key is absent from the
new map, is still there with its old value. The list branch does trim: a list of two
elements replaced by a list of one leaves one child. -/
theorem C30_map_replacement_keeps_stale_child :
    children_keys sample_tree "v" = ["a", "b"] ∧
      children_keys
          (setVariable sample_tree (QVariant.fromString "v")
            (QVariant.fromMap [("a", QVariant.fromInt 3)]) false) "v"
        = ["a", "b"] ∧
      children_values
          (setVariable sample_tree (QVariant.fromString "v")
            (QVariant.fromMap [("a", QVariant.fromInt 3)]) false) "v"
        = ["3", "2"] ∧
      children_keys sample_list_tree "l" = ["0", "1"] ∧
      children_keys
          (setVariable sample_list_tree (QVariant.fromString "l")
            (QVariant.fromList [QVariant.fromInt 5]) false) "l"
        = ["0"] := by
  refine ⟨by decide, by decide, by decide, by decide, by decide⟩

end mobsya
